import Mathlib

/-!
# lib-lvm2: the executor core

A shallow embedding of `include/lvm2/executor.h` and `src/executor.cpp`.

* Containers: `std::vector` and `std::list` and `std::queue` are lists (front of the
  queue is the head); `std::map<int, V>` is a key-sorted association list; a
  `std::set<lua_script *>` is a duplicate-free list of script addresses.
* A `lua_script *` is the natural number `addr` of the script object.
* Instants of `std::chrono::steady_clock` are integers counted in clock ticks, with
  `ticks_per_ms` ticks to the millisecond; `std::chrono::milliseconds` values are
  integers. Clock reads are arguments (`now`).
* The Lua interpreter is not part of the repository: it is the parameter `LuaVM`.
-/

namespace lua_vm

/-! ## Containers -/

/-- Lookup `std::map::find`: the value stored under key `k`, if any. -/
def map_find {V : Type} : List (Int × V) → Int → Option V
  | [], _ => none
  | (k1, v) :: rest, k => if k1 = k then some v else map_find rest k

/-- Assignment `m[k] = v` of `std::map`: replaces the value of an existing key, or
inserts the pair at its place in key order. -/
def map_set {V : Type} : List (Int × V) → Int → V → List (Int × V)
  | [], k, v => [(k, v)]
  | (k1, v1) :: rest, k, v =>
    if k < k1 then (k, v) :: (k1, v1) :: rest
    else if k = k1 then (k, v) :: rest
    else (k1, v1) :: map_set rest k v

/-- Insertion `std::set::insert` on a set of script addresses. -/
def set_insert (s : List Nat) (p : Nat) : List Nat :=
  if p ∈ s then s else s ++ [p]

/-- Removal `std::set::erase(key)` on a set of script addresses. -/
def set_erase (s : List Nat) (p : Nat) : List Nat :=
  s.filter (fun q => q ≠ p)

/-- Conversion of a `lua_Integer` (64 bit) to `int` (32 bit, two's complement wrap). -/
def to_int (x : Int) : Int :=
  (x + 2147483648) % 4294967296 - 2147483648

/-- Removal of the first occurrence of `x`: `std::find` followed by `list::erase`. -/
def erase_first (x : Int) : List Int → List Int
  | [] => []
  | y :: rest => if y = x then rest else y :: erase_first x rest

/-! ## Timer (executor.h) -/

inductive timer_type_t where
  | ONESHOT
  | PERIODIC
  deriving DecidableEq, Repr

/-- Number of `steady_clock` ticks per millisecond (the clock counts nanoseconds). -/
def ticks_per_ms : Int := 1000000

/-- The value that 64-bit two's complement arithmetic yields for the exact result `x`:
the counts of `std::chrono::milliseconds` and of `steady_clock::duration` are
`int64_t`. -/
def to_int64 (x : Int) : Int :=
  (x + 9223372036854775808) % 18446744073709551616 - 9223372036854775808

/-- The durations whose count of clock ticks fits in 64 bits: at most
9223372036854 ms in absolute value. -/
def duration_in_range (d : Int) : Prop :=
  -9223372036854 ≤ d ∧ d ≤ 9223372036854

instance duration_in_range_decidable (d : Int) : Decidable (duration_in_range d) := by
  unfold duration_in_range
  infer_instance

/-- Class `timer`: `start_` is an instant in clock ticks, `duration_` is in
milliseconds. Instants are readings of one `steady_clock`; the distance of two
readings is taken exactly. -/
structure timer where
  name_ : String
  type_ : timer_type_t
  start_ : Int
  duration_ : Int
  running_ : Bool
  deriving DecidableEq, Repr

namespace timer

/-- Constructor `timer(name, type)`, run at instant `now`. -/
def mk_timer (name : String) (type : timer_type_t) (now : Int) : timer :=
  { name_ := name, type_ := type, start_ := now, duration_ := 0, running_ := false }

def elapse_after (t : timer) (duration : Int) (now : Int) : timer :=
  { t with duration_ := duration, start_ := now, running_ := true }

def restart (t : timer) (now : Int) : timer :=
  { t with start_ := now, running_ := true }

def stop (t : timer) : timer :=
  { t with running_ := false }

/-- Method `elapsed()` polled at instant `now`: the answer and the timer afterwards.
The comparison `now - start_ >= duration_` converts `duration_` to clock ticks, a
multiplication of 64-bit counts. -/
def elapsed (t : timer) (now : Int) : Bool × timer :=
  if !t.running_ then (false, t)
  else if now - t.start_ ≥ to_int64 (t.duration_ * ticks_per_ms) then
    (true, if t.type_ = timer_type_t.PERIODIC then t.restart now else t.stop)
  else (false, t)

/-- Method `remaining()` at instant `now`, in milliseconds (`duration_cast` truncates
toward zero; the subtraction is one of 64-bit counts). -/
def remaining (t : timer) (now : Int) : Int :=
  if t.running_ then
    let r := to_int64 (t.duration_ - (now - t.start_).tdiv ticks_per_ms)
    if r > 0 then r else 0
  else 0

def is_active (t : timer) (now : Int) : Bool :=
  t.running_ && decide (t.remaining now > 0)

def name (t : timer) : String := t.name_

end timer

/-! ## Script instance -/

/-- Constant `LUA_NOREF` of the Lua C API. -/
def LUA_NOREF : Int := -2

/-- Struct `lua_script`. `addr` is the address of the object (what a `lua_script *`
holds); `L` is the state of its interpreter. -/
structure lua_script (σ : Type) where
  addr : Nat
  L : σ
  initFunctionRef : Int
  loopFunctionRef : Int
  ts_begin_loop : Int
  event_queue : List Int
  elapsed_timers : List Int
  timer_handlers : List (Int × Int)
  event_handlers : List (Int × Int)

/-- Class `executor` (its data members; the host binder is part of `LuaVM`). -/
structure executor (σ : Type) where
  eventnames_ : List String
  periodic_event_timers_ : List (Int × timer)
  event_subscribers_ : List (Int × List Nat)
  timers_ : List timer
  timer_subscribers_ : List (Int × List Nat)
  scripts_ : List (lua_script σ)
  total_ops_ : Int

/-- State right after `executor::executor`. -/
def executor.make_unique (σ : Type) : executor σ :=
  { eventnames_ := [], periodic_event_timers_ := [], event_subscribers_ := [],
    timers_ := [], timer_subscribers_ := [], scripts_ := [], total_ops_ := 0 }

def executor.get_nr_of_scripts {σ : Type} (e : executor σ) : Nat :=
  e.scripts_.length

def executor.get_total_ops {σ : Type} (e : executor σ) : Int :=
  e.total_ops_

/-- Method `lua_script::event_publish`. -/
def lua_script.event_publish {σ : Type} (s : lua_script σ) (eventid : Int) : lua_script σ :=
  { s with event_queue := s.event_queue ++ [eventid] }

/-- Method `lua_script::handle_timer_elapsed`. -/
def lua_script.handle_timer_elapsed {σ : Type} (s : lua_script σ) (id : Int) : lua_script σ :=
  { s with elapsed_timers := s.elapsed_timers ++ [id] }

/-! ## Event registry and subscription table -/

/-- Index of the first element equal to `name` (the loop of `event_open`, and
`std::find` with `std::distance`). -/
def find_index (name : String) : List String → Option Nat
  | [] => none
  | x :: rest => if x = name then some 0 else (find_index name rest).map (· + 1)

/-- Method `executor::event_open`: the executor afterwards and the returned id. -/
def executor.event_open {σ : Type} (e : executor σ) (name : String) : executor σ × Int :=
  if name = "" then
    ({ e with eventnames_ := e.eventnames_ ++ [""] }, ((e.eventnames_ ++ [""]).length : Int) - 1)
  else
    match find_index name e.eventnames_ with
    | some i => (e, (i : Int))
    | none =>
      ({ e with eventnames_ := e.eventnames_ ++ [name] }, ((e.eventnames_ ++ [name]).length : Int) - 1)

/-- Method `executor::event_create_periodic`; `Except.error` is the thrown
`std::logic_error` (the state at the throw is returned with it). -/
def executor.event_create_periodic {σ : Type} (e : executor σ) (event_name : String)
    (duration : Int) (now : Int) : Except (String × executor σ) (executor σ × Int) :=
  let names : List String × Int :=
    if event_name = "" then (e.eventnames_ ++ [""], (e.eventnames_.length : Int))
    else
      match find_index event_name e.eventnames_ with
      | some i => (e.eventnames_, (i : Int))
      | none => (e.eventnames_ ++ [event_name], (e.eventnames_.length : Int))
  let e1 : executor σ := { e with eventnames_ := names.1 }
  let ix := names.2
  match map_find e1.periodic_event_timers_ ix with
  | some _ => Except.error ("periodic event already defined: " ++ event_name, e1)
  | none =>
    let new_timer := (timer.mk_timer event_name timer_type_t.PERIODIC now).elapse_after duration now
    Except.ok ({ e1 with periodic_event_timers_ := map_set e1.periodic_event_timers_ ix new_timer }, ix)

/-- The set stored under `id`, empty when the key is absent (`operator[]`). -/
def subscribers_of (m : List (Int × List Nat)) (id : Int) : List Nat :=
  (map_find m id).getD []

def executor.add_event_subscription {σ : Type} (e : executor σ) (eventid : Int) (script : Nat) :
    executor σ :=
  { e with event_subscribers_ :=
      map_set e.event_subscribers_ eventid (set_insert (subscribers_of e.event_subscribers_ eventid) script) }

def executor.add_timer_subscription {σ : Type} (e : executor σ) (timer_id : Int) (script : Nat) :
    executor σ :=
  { e with timer_subscribers_ :=
      map_set e.timer_subscribers_ timer_id (set_insert (subscribers_of e.timer_subscribers_ timer_id) script) }

/-- Method `executor::unsubscribe_all`. -/
def executor.unsubscribe_all {σ : Type} (e : executor σ) (script : Nat) : executor σ :=
  { e with
    event_subscribers_ := e.event_subscribers_.map (fun kv => (kv.1, set_erase kv.2 script)),
    timer_subscribers_ := e.timer_subscribers_.map (fun kv => (kv.1, set_erase kv.2 script)) }

/-- What `executor::event_publish` does to one script object: `script->event_publish`
for the members of the subscriber set found under `eventid`, nothing for the others
(and nothing at all when the key is absent). -/
def deliver_event {σ : Type} (subscribers : List (Int × List Nat)) (eventid : Int)
    (s : lua_script σ) : lua_script σ :=
  match map_find subscribers eventid with
  | some scripts => if s.addr ∈ scripts then s.event_publish eventid else s
  | none => s

/-- Method `executor::event_publish`, on the scripts owned by the executor. -/
def executor.event_publish {σ : Type} (e : executor σ) (eventid : Int) : executor σ :=
  { e with scripts_ := e.scripts_.map (deliver_event e.event_subscribers_ eventid) }

/-! ## Timer registry -/

/-- Method `executor::timer_find_or_create_sharable`, run at instant `now`. -/
def executor.timer_find_or_create_sharable {σ : Type} (e : executor σ) (name : String)
    (now : Int) : executor σ × Int :=
  match find_index name (e.timers_.map timer.name) with
  | some i => (e, (i : Int))
  | none =>
    let timers := e.timers_ ++ [timer.mk_timer name timer_type_t.ONESHOT now]
    ({ e with timers_ := timers }, (timers.length : Int) - 1)

/-- Method `executor::timer_create_private`, run at instant `now`. -/
def executor.timer_create_private {σ : Type} (e : executor σ) (now : Int) : executor σ × Int :=
  let timers := e.timers_ ++ [timer.mk_timer "" timer_type_t.ONESHOT now]
  ({ e with timers_ := timers }, (timers.length : Int) - 1)

/-- Update in place of `timers_[ix]` for an index already checked to be in range. -/
def update_timer (timers : List timer) (ix : Int) (f : timer → timer) : List timer :=
  match timers[ix.toNat]? with
  | some t => timers.set ix.toNat (f t)
  | none => timers

/-- What `check_timers` does to one script object when timer `i` has elapsed. -/
def notify_timer {σ : Type} (subscribers : List (Int × List Nat)) (i : Int)
    (s : lua_script σ) : lua_script σ :=
  match map_find subscribers i with
  | some scripts => if s.addr ∈ scripts then s.handle_timer_elapsed i else s
  | none => s

/-- Loop of `executor::check_event_timers` over the entries of `periodic_event_timers_`
that are still to be visited. -/
def check_event_timers_loop {σ : Type} (now : Int) (subscribers : List (Int × List Nat)) :
    List (Int × timer) → List (lua_script σ) → List (Int × timer) × List (lua_script σ)
  | [], scripts => ([], scripts)
  | (id, t) :: rest, scripts =>
    let r := t.elapsed now
    let scripts1 := if r.1 then scripts.map (deliver_event subscribers id) else scripts
    let out := check_event_timers_loop now subscribers rest scripts1
    ((id, r.2) :: out.1, out.2)

def executor.check_event_timers {σ : Type} (e : executor σ) (now : Int) : executor σ :=
  let out := check_event_timers_loop now e.event_subscribers_ e.periodic_event_timers_ e.scripts_
  { e with periodic_event_timers_ := out.1, scripts_ := out.2 }

/-- Loop of `executor::check_timers` from index `i` on. -/
def check_timers_loop {σ : Type} (now : Int) (subscribers : List (Int × List Nat)) :
    Nat → List timer → List (lua_script σ) → List timer × List (lua_script σ)
  | _, [], scripts => ([], scripts)
  | i, t :: rest, scripts =>
    let r := t.elapsed now
    let scripts1 := if r.1 then scripts.map (notify_timer subscribers (i : Int)) else scripts
    let out := check_timers_loop now subscribers (i + 1) rest scripts1
    (r.2 :: out.1, out.2)

def executor.check_timers {σ : Type} (e : executor σ) (now : Int) : executor σ :=
  let out := check_timers_loop now e.timer_subscribers_ 0 e.timers_ e.scripts_
  { e with timers_ := out.1, scripts_ := out.2 }

/-! ## Script-facing bindings

A binding runs on behalf of the calling script (`this_lua_script(L)`), which is passed
next to the executor: `e.scripts_` holds the other script objects. The arguments are
those that passed the `luaL_check*` type checks. -/

/-- A value pushed as the result of a binding. -/
inductive lua_value where
  | nothing
  | integer (i : Int)
  | boolean (b : Bool)
  | string (s : String)
  deriving DecidableEq, Repr

/-- Outcome of a binding: the state it leaves and either the value returned to the
script or the message of the error raised by `luaL_error`. -/
structure binding_result (σ : Type) where
  e : executor σ
  script : lua_script σ
  ret : Except String lua_value

/-- The C string that the `const char *` of a Lua string denotes: the characters
before the first NUL. `luaL_checkstring` and `luaL_optstring` drop the length of the
Lua string, and `strcmp` and `std::string(const char *)` stop at the first NUL. -/
def c_str (s : String) : String :=
  String.mk (s.data.takeWhile (fun c => c ≠ Char.ofNat 0))

def _lua_event_open {σ : Type} (e : executor σ) (script : lua_script σ) (eventName : String) :
    binding_result σ :=
  let r := e.event_open (c_str eventName)
  { e := r.1, script := script, ret := Except.ok (lua_value.integer r.2) }

def _lua_event_create_periodic {σ : Type} (e : executor σ) (script : lua_script σ)
    (eventName : String) (duration : Int) (now : Int) : binding_result σ :=
  match e.event_create_periodic (c_str eventName) duration now with
  | Except.ok r => { e := r.1, script := script, ret := Except.ok (lua_value.integer r.2) }
  | Except.error x => { e := x.2, script := script, ret := Except.error ("exception " ++ x.1) }

/-- Binding `event.subscribe(eventid, f)`; `funcRef` is the reference `luaL_ref` gave
to the function `f`. -/
def _lua_event_subscribe {σ : Type} (e : executor σ) (script : lua_script σ) (eventid : Int)
    (funcRef : Int) : binding_result σ :=
  if eventid < 0 ∨ eventid ≥ (e.eventnames_.length : Int) then
    { e := e, script := script, ret := Except.error "event not found" }
  else
    let script1 := { script with event_handlers := map_set script.event_handlers eventid funcRef }
    { e := e.add_event_subscription eventid script1.addr, script := script1,
      ret := Except.ok lua_value.nothing }

def _lua_event_publish {σ : Type} (e : executor σ) (script : lua_script σ) (eventid : Int) :
    binding_result σ :=
  { e := e.event_publish (to_int eventid),
    script := deliver_event e.event_subscribers_ (to_int eventid) script,
    ret := Except.ok lua_value.nothing }

def _lua_event_name {σ : Type} (e : executor σ) (script : lua_script σ) (id : Int) :
    binding_result σ :=
  let ix := to_int id
  if ix < 0 ∨ ix ≥ (e.eventnames_.length : Int) then
    { e := e, script := script, ret := Except.error "event_id not found" }
  else
    { e := e, script := script, ret := Except.ok (lua_value.string (e.eventnames_.getD ix.toNat "")) }

/-- Binding `timer.open(name)`; `none` is an absent or nil argument. The name is
read as a C string (`strcmp(timerName, "")`, then `std::string(timerName)`). -/
def _lua_timer_open {σ : Type} (e : executor σ) (script : lua_script σ)
    (timerName : Option String) (now : Int) : binding_result σ :=
  let r :=
    match timerName with
    | some name => if c_str name ≠ "" then e.timer_find_or_create_sharable (c_str name) now
                   else e.timer_create_private now
    | none => e.timer_create_private now
  { e := r.1.add_timer_subscription r.2 script.addr, script := script,
    ret := Except.ok (lua_value.integer r.2) }

def _lua_timer_subscribe {σ : Type} (e : executor σ) (script : lua_script σ) (id : Int)
    (funcRef : Int) : binding_result σ :=
  { e := e,
    script := { script with timer_handlers := map_set script.timer_handlers (to_int id) funcRef },
    ret := Except.ok lua_value.nothing }

def _lua_timer_elapse_after {σ : Type} (e : executor σ) (script : lua_script σ) (ix : Int)
    (duration : Int) (now : Int) : binding_result σ :=
  if ix < 0 ∨ ix ≥ (e.timers_.length : Int) then
    { e := e, script := script, ret := Except.error "timer not found" }
  else
    { e := { e with timers_ := update_timer e.timers_ ix (fun t => t.elapse_after duration now) },
      script := script, ret := Except.ok lua_value.nothing }

def _lua_timer_stop {σ : Type} (e : executor σ) (script : lua_script σ) (ix : Int) :
    binding_result σ :=
  if ix < 0 ∨ ix ≥ (e.timers_.length : Int) then
    { e := e, script := script, ret := Except.error "timer not found" }
  else
    { e := { e with timers_ := update_timer e.timers_ ix timer.stop },
      script := script, ret := Except.ok lua_value.nothing }

def _lua_timer_is_elapsed {σ : Type} (e : executor σ) (script : lua_script σ) (id : Int) :
    binding_result σ :=
  if id ∈ script.elapsed_timers then
    { e := e, script := { script with elapsed_timers := erase_first id script.elapsed_timers },
      ret := Except.ok (lua_value.boolean true) }
  else
    { e := e, script := script, ret := Except.ok (lua_value.boolean false) }

def _lua_timer_is_active {σ : Type} (e : executor σ) (script : lua_script σ) (ix : Int)
    (now : Int) : binding_result σ :=
  if ix < 0 ∨ ix ≥ (e.timers_.length : Int) then
    { e := e, script := script, ret := Except.error "timer not found" }
  else
    match e.timers_[ix.toNat]? with
    | some t => { e := e, script := script, ret := Except.ok (lua_value.boolean (t.is_active now)) }
    | none => { e := e, script := script, ret := Except.error "timer not found" }

def _lua_timer_remaining {σ : Type} (e : executor σ) (script : lua_script σ) (ix : Int)
    (now : Int) : binding_result σ :=
  if ix < 0 ∨ ix ≥ (e.timers_.length : Int) then
    { e := e, script := script, ret := Except.error "timer not found" }
  else
    match e.timers_[ix.toNat]? with
    | some t => { e := e, script := script, ret := Except.ok (lua_value.integer (t.remaining now)) }
    | none => { e := e, script := script, ret := Except.error "timer not found" }

def _lua_timer_name {σ : Type} (e : executor σ) (script : lua_script σ) (id : Int) :
    binding_result σ :=
  let ix := to_int id
  if ix < 0 ∨ ix ≥ (e.timers_.length : Int) then
    { e := e, script := script, ret := Except.error "timer id not found" }
  else
    match e.timers_[ix.toNat]? with
    | some t =>
      { e := e, script := script,
        ret := Except.ok (lua_value.string (if t.name = "" then "<noname>" else t.name)) }
    | none => { e := e, script := script, ret := Except.error "timer id not found" }

/-! ## The interpreter

Script code is run by the Lua interpreter, which the repository links against. Its
behaviour is the parameter `LuaVM`: every theorem holds for every interpreter and so
for every script. -/

/-- A call of a script-facing binding made by running script code. -/
inductive host_call where
  | event_open (eventName : String)
  | event_create_periodic (eventName : String) (duration : Int)
  | event_subscribe (eventid : Int) (funcRef : Int)
  | event_publish (eventid : Int)
  | event_name (id : Int)
  | timer_open (timerName : Option String)
  | timer_subscribe (id : Int) (funcRef : Int)
  | timer_elapse_after (ix : Int) (duration : Int)
  | timer_stop (ix : Int)
  | timer_is_elapsed (id : Int)
  | timer_is_active (ix : Int)
  | timer_remaining (ix : Int)
  | timer_name (id : Int)
  deriving DecidableEq, Repr

/-- Result of a `lua_pcall` issued by a load function: whether the status is `LUA_OK`,
the interpreter state afterwards, and the bindings the code called while it ran, in
order (an error raised by a binding either ends the run or is caught by the script;
both are runs of this form). -/
structure pcall_result (σ : Type) where
  status : Bool
  L : σ
  calls : List host_call

/-- The interpreter, as far as the executor uses it.

* `new_state`: the state of a script just constructed (`luaL_newstate`, the
  `lua_script` constructor, then the host binder).
* `luaL_loadbuffer`, `luaL_loadfile`: whether the source compiles (`LUA_OK`).
* `pcall_chunk`: `lua_pcall` of the compiled top-level chunk.
* `isfunction`: `lua_getglobal` followed by `lua_isfunction`.
* `luaL_ref`: the fresh registry reference of the function on the stack; the Lua
  API hands out positive references, whence `Nat`.
* `pcall_init`: `lua_rawgeti` and `lua_pcall` of the `init` function.
* `lua_pcall`: `lua_rawgeti`, the pushed arguments and `lua_pcall` issued by the tick
  (handlers and `loop`): its status and the interpreter state it leaves.
* `tick_calls`: the bindings that the same call of `lua_pcall` makes while it runs,
  in order. The drain `handle_lua_callbacks_calls` applies them; the functions
  `handle_events`, `handle_timers`, `handle_lua_callbacks` and `run_loop` below are
  the tick of script code that, while it runs inside the tick, calls no bindings. -/
structure LuaVM (σ : Type) where
  new_state : σ
  luaL_loadbuffer : σ → String → Bool × σ
  luaL_loadfile : σ → String → Bool × σ
  pcall_chunk : σ → pcall_result σ
  isfunction : σ → String → Bool
  luaL_ref : σ → Nat × σ
  pcall_init : σ → Int → pcall_result σ
  lua_pcall : σ → Int → List Int → Bool × σ
  tick_calls : σ → Int → List Int → List host_call

/-- One entry of the ghost log of calls into script code. -/
inductive invocation where
  | chunk (script : Nat)
  | init (script : Nat) (funcRef : Int)
  | loop (script : Nat) (funcRef : Int)
  | event_handler (script : Nat) (funcRef : Int) (eventid : Int)
  | timer_handler (script : Nat) (funcRef : Int) (timerId : Int)
  deriving DecidableEq, Repr

/-- Effect of one binding call made by `script` at instant `now`. -/
def apply_call {σ : Type} (now : Int) (st : executor σ × lua_script σ) (c : host_call) :
    executor σ × lua_script σ :=
  let r : binding_result σ :=
    match c with
    | host_call.event_open n => _lua_event_open st.1 st.2 n
    | host_call.event_create_periodic n d => _lua_event_create_periodic st.1 st.2 n d now
    | host_call.event_subscribe id f => _lua_event_subscribe st.1 st.2 id f
    | host_call.event_publish id => _lua_event_publish st.1 st.2 id
    | host_call.event_name id => _lua_event_name st.1 st.2 id
    | host_call.timer_open n => _lua_timer_open st.1 st.2 n now
    | host_call.timer_subscribe id f => _lua_timer_subscribe st.1 st.2 id f
    | host_call.timer_elapse_after ix d => _lua_timer_elapse_after st.1 st.2 ix d now
    | host_call.timer_stop ix => _lua_timer_stop st.1 st.2 ix
    | host_call.timer_is_elapsed id => _lua_timer_is_elapsed st.1 st.2 id
    | host_call.timer_is_active ix => _lua_timer_is_active st.1 st.2 ix now
    | host_call.timer_remaining ix => _lua_timer_remaining st.1 st.2 ix now
    | host_call.timer_name id => _lua_timer_name st.1 st.2 id
  (r.e, r.script)

/-- Effect of the binding calls of one run of script code, in order. -/
def apply_calls {σ : Type} (now : Int) (st : executor σ × lua_script σ)
    (calls : List host_call) : executor σ × lua_script σ :=
  calls.foldl (apply_call now) st

/-! ## Callback delivery -/

/-- First loop of `lua_script::handle_lua_callbacks`, over the events still queued,
for handlers that call no bindings: status, script afterwards, and the handlers
invoked. (`handle_events_calls` is the loop for handlers that do.) -/
def handle_events {σ : Type} (vm : LuaVM σ) (s : lua_script σ) :
    List Int → Bool × lua_script σ × List invocation
  | [] => (true, { s with event_queue := [] }, [])
  | eventid :: rest =>
    match map_find s.event_handlers eventid with
    | some ref =>
      let r := vm.lua_pcall s.L ref [eventid]
      if r.1 then
        let out := handle_events vm { s with L := r.2 } rest
        (out.1, out.2.1, invocation.event_handler s.addr ref eventid :: out.2.2)
      else
        (false, { s with L := r.2, event_queue := rest },
          [invocation.event_handler s.addr ref eventid])
    | none => handle_events vm s rest

/-- Second loop of `lua_script::handle_lua_callbacks`, for handlers that call no
bindings: `kept` are the entries the iterator has stepped over, the list argument
the entries from the iterator on. (`handle_timers_calls` is the loop for handlers
that call bindings.) -/
def handle_timers {σ : Type} (vm : LuaVM σ) (s : lua_script σ) (kept : List Int) :
    List Int → Bool × lua_script σ × List invocation
  | [] => (true, { s with elapsed_timers := kept }, [])
  | timerId :: rest =>
    match map_find s.timer_handlers timerId with
    | some ref =>
      let r := vm.lua_pcall s.L ref [timerId]
      if r.1 then
        let out := handle_timers vm { s with L := r.2 } kept rest
        (out.1, out.2.1, invocation.timer_handler s.addr ref timerId :: out.2.2)
      else
        (false, { s with L := r.2, elapsed_timers := kept ++ timerId :: rest },
          [invocation.timer_handler s.addr ref timerId])
    | none => handle_timers vm s (kept ++ [timerId]) rest

/-- Method `lua_script::handle_lua_callbacks` for handlers that call no bindings: the
returned flag, the script afterwards, and the handlers invoked, in order. A handler
call is `vm.lua_pcall`: it yields a status and the next interpreter state and leaves
the queues and the handler maps of the script as they are.
`handle_lua_callbacks_calls` is the method for handlers that call bindings; the two
agree when no binding called changes a queue or a handler map
(`handle_lua_callbacks_calls_quiet`). -/
def lua_script.handle_lua_callbacks {σ : Type} (vm : LuaVM σ) (s : lua_script σ) :
    Bool × lua_script σ × List invocation :=
  let ev := handle_events vm s s.event_queue
  if ev.1 then
    let tm := handle_timers vm ev.2.1 [] ev.2.1.elapsed_timers
    (tm.1, tm.2.1, ev.2.2 ++ tm.2.2)
  else (false, ev.2.1, ev.2.2)

/-! ## Callback delivery with handlers that call bindings -/

/-- Body of the `for` loop of `executor::run_loop`. `kept` are the scripts left of the
iterator, the list argument the scripts from the iterator on; `e.scripts_` is not
read. Returns the executor after the loop and the log of calls into script code. -/
def run_loop_scripts {σ : Type} (vm : LuaVM σ) (now : Int) :
    executor σ → List (lua_script σ) → List (lua_script σ) → executor σ × List invocation
  | e, kept, [] => ({ e with scripts_ := kept }, [])
  | e, kept, script :: rest =>
    let e1 := { e with total_ops_ := e.total_ops_ + 1 }
    let cb := script.handle_lua_callbacks vm
    if !cb.1 then
      let out := run_loop_scripts vm now (e1.unsubscribe_all script.addr) kept rest
      (out.1, cb.2.2 ++ out.2)
    else if cb.2.1.loopFunctionRef ≠ LUA_NOREF then
      let script1 := { cb.2.1 with ts_begin_loop := now }
      let r := vm.lua_pcall script1.L script1.loopFunctionRef []
      let log := cb.2.2 ++ [invocation.loop script.addr script1.loopFunctionRef]
      if !r.1 then
        let out := run_loop_scripts vm now (e1.unsubscribe_all script.addr) kept rest
        (out.1, log ++ out.2)
      else
        let out := run_loop_scripts vm now e1 (kept ++ [{ script1 with L := r.2 }]) rest
        (out.1, log ++ out.2)
    else
      let out := run_loop_scripts vm now e1 (kept ++ [cb.2.1]) rest
      (out.1, cb.2.2 ++ out.2)

/-- Method `executor::run_loop` at instant `now`, with the log of calls into script
code. -/
def executor.run_loop_log {σ : Type} (vm : LuaVM σ) (e : executor σ) (now : Int) :
    executor σ × List invocation :=
  let e1 := (e.check_event_timers now).check_timers now
  run_loop_scripts vm now e1 [] e1.scripts_

/-- Method `executor::run_loop` at instant `now`. -/
def executor.run_loop {σ : Type} (vm : LuaVM σ) (e : executor σ) (now : Int) : executor σ :=
  (e.run_loop_log vm now).1

/-! ## Loading -/

/-- Constructor `lua_script::lua_script`, for the object allocated at `addr`, at
instant `now`. -/
def lua_script.mk_script {σ : Type} (vm : LuaVM σ) (addr : Nat) (now : Int) : lua_script σ :=
  { addr := addr, L := vm.new_state, initFunctionRef := LUA_NOREF, loopFunctionRef := LUA_NOREF,
    ts_begin_loop := now, event_queue := [], elapsed_timers := [], timer_handlers := [],
    event_handlers := [] }

/-- Method `lua_script::loadAndReferenceFunction` on the interpreter state `L` and
the reference variable `functionRef`: the returned flag, the interpreter state and
the reference variable afterwards. -/
def loadAndReferenceFunction {σ : Type} (vm : LuaVM σ) (L : σ) (functionName : String)
    (functionRef : Int) : Bool × σ × Int :=
  if vm.isfunction L functionName then
    let r := vm.luaL_ref L
    (true, r.2, (r.1 : Int))
  else (false, L, functionRef)

/-- The expression
`loadAndReferenceFunction("init", initFunctionRef) && loadAndReferenceFunction("loop", loopFunctionRef)`
returned by `loadAndExecuteFile` and `loadAndExecuteFromBuffer`. -/
def lua_script.reference_init_and_loop {σ : Type} (vm : LuaVM σ) (s : lua_script σ) :
    Bool × lua_script σ :=
  let i := loadAndReferenceFunction vm s.L "init" s.initFunctionRef
  let s1 := { s with L := i.2.1, initFunctionRef := i.2.2 }
  if i.1 then
    let l := loadAndReferenceFunction vm s1.L "loop" s1.loopFunctionRef
    (l.1, { s1 with L := l.2.1, loopFunctionRef := l.2.2 })
  else (false, s1)

/-- Common body of `loadAndExecuteFile` and `loadAndExecuteFromBuffer`, `compiled`
being the outcome of `luaL_loadfile` or `luaL_loadbuffer`. The bindings called by the
top-level chunk act on the executor `e` and on the script. -/
def lua_script.load_and_execute {σ : Type} (vm : LuaVM σ) (now : Int) (e : executor σ)
    (s : lua_script σ) (compiled : Bool × σ) :
    Bool × executor σ × lua_script σ × List invocation :=
  if compiled.1 then
    let r := vm.pcall_chunk compiled.2
    let st := apply_calls now (e, s) r.calls
    let s1 := { st.2 with L := r.L }
    if r.status then
      let refs := s1.reference_init_and_loop vm
      (refs.1, st.1, refs.2, [invocation.chunk s.addr])
    else (false, st.1, s1, [invocation.chunk s.addr])
  else (false, e, { s with L := compiled.2 }, [])

/-- Method `lua_script::loadAndExecuteFromBuffer`. -/
def lua_script.loadAndExecuteFromBuffer {σ : Type} (vm : LuaVM σ) (now : Int) (e : executor σ)
    (s : lua_script σ) (buffer : String) : Bool × executor σ × lua_script σ × List invocation :=
  s.load_and_execute vm now e (vm.luaL_loadbuffer s.L buffer)

/-- Method `lua_script::loadAndExecuteFile`. -/
def lua_script.loadAndExecuteFile {σ : Type} (vm : LuaVM σ) (now : Int) (e : executor σ)
    (s : lua_script σ) (path : String) : Bool × executor σ × lua_script σ × List invocation :=
  s.load_and_execute vm now e (vm.luaL_loadfile s.L path)

/-- Common tail of `loadScriptFromFile` and `loadScriptFromBuffer`, from the test of
`loadAndExecute...` on. `loaded_script` aliases `scripts_.back()`: the element is
held apart while `init` runs and is appended when `init` has returned (on failure
`pop_back` drops it). -/
def executor.finish_load {σ : Type} (vm : LuaVM σ) (now : Int)
    (ld : Bool × executor σ × lua_script σ × List invocation) :
    Bool × executor σ × List invocation :=
  if ld.1 then
    let loaded_script := ld.2.2.1
    if loaded_script.initFunctionRef ≠ LUA_NOREF then
      let s1 := { loaded_script with ts_begin_loop := now }
      let r := vm.pcall_init s1.L s1.initFunctionRef
      let st := apply_calls now (ld.2.1, s1) r.calls
      let s2 := { st.2 with L := r.L }
      let log := ld.2.2.2 ++ [invocation.init s1.addr s1.initFunctionRef]
      if !r.status then (false, st.1.unsubscribe_all s2.addr, log)
      else (true, { st.1 with scripts_ := st.1.scripts_ ++ [s2] }, log)
    else (false, { ld.2.1 with scripts_ := ld.2.1.scripts_ ++ [loaded_script] }, ld.2.2.2)
  else (false, ld.2.1, ld.2.2.2)

/-- Method `executor::loadScriptFromBuffer` at instant `now`; `addr` is the address
of the script object that `std::make_unique<lua_script>` allocates. Returns the
flag, the executor afterwards and the log of calls into script code. -/
def executor.loadScriptFromBuffer {σ : Type} (vm : LuaVM σ) (e : executor σ) (addr : Nat)
    (script_buffer : String) (now : Int) : Bool × executor σ × List invocation :=
  executor.finish_load vm now
    ((lua_script.mk_script vm addr now).loadAndExecuteFromBuffer vm now e script_buffer)

/-- Method `executor::loadScriptFromFile`. -/
def executor.loadScriptFromFile {σ : Type} (vm : LuaVM σ) (e : executor σ) (addr : Nat)
    (script_path : String) (now : Int) : Bool × executor σ × List invocation :=
  executor.finish_load vm now
    ((lua_script.mk_script vm addr now).loadAndExecuteFile vm now e script_path)

/-- An entry that `fs::directory_iterator` yields: its path, the extension of the
path, and the address at which the script object made for it is allocated. -/
structure dir_entry where
  path : String
  extension : String
  addr : Nat
  deriving DecidableEq, Repr

/-- First loop of `executor::load_scripts`, over the directory entries. -/
def load_scripts_files {σ : Type} (vm : LuaVM σ) (now : Int) :
    executor σ → List dir_entry → executor σ × List invocation
  | e, [] => (e, [])
  | e, entry :: rest =>
    if entry.extension = ".lua" then
      let ld := (lua_script.mk_script vm entry.addr now).loadAndExecuteFile vm now e entry.path
      let e1 := if ld.1 then { ld.2.1 with scripts_ := ld.2.1.scripts_ ++ [ld.2.2.1] } else ld.2.1
      let out := load_scripts_files vm now e1 rest
      (out.1, ld.2.2.2 ++ out.2)
    else load_scripts_files vm now e rest

/-- Second loop of `executor::load_scripts` ("Run init function for each script"):
the iterator stands at index `i` and `n` elements lie from it to the end. While the
`init` of `scripts_[i]` runs, its bindings act on that script and on the executor
holding the other scripts. -/
def load_scripts_init {σ : Type} (vm : LuaVM σ) (now : Int) :
    Nat → Nat → executor σ → executor σ × List invocation
  | 0, _, e => (e, [])
  | n + 1, i, e =>
    match e.scripts_[i]? with
    | none => (e, [])
    | some script =>
      if script.initFunctionRef ≠ LUA_NOREF then
        let s1 := { script with ts_begin_loop := now }
        let r := vm.pcall_init s1.L s1.initFunctionRef
        let st := apply_calls now ({ e with scripts_ := e.scripts_.eraseIdx i }, s1) r.calls
        let s2 := { st.2 with L := r.L }
        if !r.status then
          let out := load_scripts_init vm now n i (st.1.unsubscribe_all s2.addr)
          (out.1, invocation.init s1.addr s1.initFunctionRef :: out.2)
        else
          let e1 := { st.1 with scripts_ := st.1.scripts_.take i ++ s2 :: st.1.scripts_.drop i }
          let out := load_scripts_init vm now n (i + 1) e1
          (out.1, invocation.init s1.addr s1.initFunctionRef :: out.2)
      else load_scripts_init vm now n (i + 1) e

/-- Method `executor::load_scripts`; `entries` is what iterating `script_dir` yields. -/
def executor.load_scripts {σ : Type} (vm : LuaVM σ) (e : executor σ) (entries : List dir_entry)
    (now : Int) : executor σ × List invocation :=
  let files := load_scripts_files vm now e entries
  let inits := load_scripts_init vm now files.1.scripts_.length 0 files.1
  (inits.1, files.2 ++ inits.2)

/-! ## Observers used to state the properties of the tick -/

/-- Whether the visit of `run_loop` to script `s` ends in an eviction: the callback
dispatch returned false, or `loop` is referenced and its call failed. -/
def tick_failed {σ : Type} (vm : LuaVM σ) (s : lua_script σ) : Bool :=
  let cb := s.handle_lua_callbacks vm
  if !cb.1 then true
  else if cb.2.1.loopFunctionRef ≠ LUA_NOREF then
    !(vm.lua_pcall cb.2.1.L cb.2.1.loopFunctionRef []).1
  else false

/-- The calls into script code that the visit of `run_loop` to script `s` makes: the
handlers dispatched by `handle_lua_callbacks`, then `loop` when the dispatch
returned true and `loop` is referenced. -/
def tick_invocations {σ : Type} (vm : LuaVM σ) (s : lua_script σ) : List invocation :=
  let cb := s.handle_lua_callbacks vm
  if cb.1 ∧ cb.2.1.loopFunctionRef ≠ LUA_NOREF then
    cb.2.2 ++ [invocation.loop s.addr cb.2.1.loopFunctionRef]
  else cb.2.2

/-- The script object after a visit of `run_loop` that did not fail. -/
def tick_script {σ : Type} (vm : LuaVM σ) (now : Int) (s : lua_script σ) : lua_script σ :=
  let cb := s.handle_lua_callbacks vm
  if cb.2.1.loopFunctionRef ≠ LUA_NOREF then
    { cb.2.1 with
      ts_begin_loop := now, L := (vm.lua_pcall cb.2.1.L cb.2.1.loopFunctionRef []).2 }
  else cb.2.1

/-- The handler call that the dispatch of queued event `eventid` makes for script
`s`, if a handler is registered for it. -/
def event_invocation {σ : Type} (s : lua_script σ) (eventid : Int) : Option invocation :=
  (map_find s.event_handlers eventid).map (fun ref => invocation.event_handler s.addr ref eventid)

/-- The handler call that the dispatch of pending timer `timerId` makes for script
`s`, if a handler is registered for it. -/
def timer_invocation {σ : Type} (s : lua_script σ) (timerId : Int) : Option invocation :=
  (map_find s.timer_handlers timerId).map (fun ref => invocation.timer_handler s.addr ref timerId)

/-- A script that defines both entry points. -/
def demo_plain : String := "function init() end function loop() end"

/-- A script that defines `loop` only. -/
def demo_loop_only : String := "function loop() end"

/-- A script that defines `init` only. -/
def demo_init_only : String := "function init() end"

/-- A script whose top level opens an event, subscribes to it and then fails. -/
def demo_subscribe_then_fail : String :=
  "local id = event.open('e') event.subscribe(id, function() end) error('x')"

/-- A script whose `init` opens an event, subscribes to it and then fails. -/
def demo_init_fails : String :=
  "function init() local id = event.open('e') event.subscribe(id, function() end) error('x') end function loop() end"

/-- A script whose top level opens a shared timer and then fails. -/
def demo_timer_then_fail : String := "local t = timer.open('t') error('x')"

/-- An interpreter that runs the six scripts above. Its state is the script loaded
(1, 2, 4, 3, 5, 6 in the order above, 0 for none) and the number of registry
references handed out. The file "init_fails.lua" holds the script `demo_init_fails`
and the file "plain.lua" the script `demo_plain`. Every call into a registered function succeeds, except the calls of the
function with reference 13. -/
def demo_vm : LuaVM (Nat × Nat) :=
  { new_state := (0, 0),
    luaL_loadbuffer := fun L buffer =>
      if buffer = demo_plain then (true, (1, L.2))
      else if buffer = demo_loop_only then (true, (2, L.2))
      else if buffer = demo_subscribe_then_fail then (true, (3, L.2))
      else if buffer = demo_init_only then (true, (4, L.2))
      else if buffer = demo_init_fails then (true, (5, L.2))
      else if buffer = demo_timer_then_fail then (true, (6, L.2))
      else (false, L),
    luaL_loadfile := fun L path =>
      if path = "init_fails.lua" then (true, (5, L.2))
      else if path = "plain.lua" then (true, (1, L.2))
      else (false, L),
    pcall_chunk := fun L =>
      if L.1 = 3 then
        { status := false, L := L,
          calls := [host_call.event_open "e", host_call.event_subscribe 0 1] }
      else if L.1 = 6 then
        { status := false, L := L, calls := [host_call.timer_open (some "t")] }
      else { status := true, L := L, calls := [] },
    isfunction := fun L functionName =>
      if L.1 = 2 then decide (functionName = "loop")
      else if L.1 = 4 then decide (functionName = "init")
      else true,
    luaL_ref := fun L => (L.2 + 1, (L.1, L.2 + 1)),
    pcall_init := fun L _ =>
      if L.1 = 5 then
        { status := false, L := L,
          calls := [host_call.event_open "e", host_call.event_subscribe 0 3] }
      else { status := true, L := L, calls := [] },
    lua_pcall := fun L ref _ => (decide (ref ≠ 13), L),
    tick_calls := fun _ _ _ => [] }

/-- A live script with two queued events (4 then 5), three pending timers (2, 9, 3),
handlers for the events and for timers 2 and 3, and a `loop`. -/
def demo_script : lua_script (Nat × Nat) :=
  { addr := 1, L := (1, 2), initFunctionRef := 1, loopFunctionRef := 2, ts_begin_loop := 0,
    event_queue := [4, 5], elapsed_timers := [2, 9, 3],
    timer_handlers := [(2, 12), (3, 14)], event_handlers := [(4, 10), (5, 11)] }

/-- The same script, with the failing function 13 as the handler of event 5. -/
def demo_script_bad_event : lua_script (Nat × Nat) :=
  { demo_script with event_handlers := [(4, 10), (5, 13)] }

/-- Two live scripts (addresses 1 and 2) of which the first subscribes to event 0;
events 0 ("tick") and 1 ("") exist. -/
def demo_executor : executor (Nat × Nat) :=
  { eventnames_ := ["tick", ""], periodic_event_timers_ := [],
    event_subscribers_ := [(0, [1])], timers_ := [], timer_subscribers_ := [],
    scripts_ := [demo_script, { demo_script with addr := 2, event_queue := [] }],
    total_ops_ := 0 }

/-- The executor after the event names `names` have been opened one after the
other. -/
def open_all {σ : Type} (e : executor σ) (names : List String) : executor σ :=
  names.foldl (fun x n => (x.event_open n).1) e

/-! ## Observers and concrete states for the registries -/

/-- The executor that a call of `event_create_periodic` leaves behind, whether it
returned or threw. -/
def after_create_periodic {σ : Type} :
    Except (String × executor σ) (executor σ × Int) → executor σ
  | Except.ok r => r.1
  | Except.error x => x.2

/-- Every key of `periodic_event_timers_` is the id of an event. -/
def periodic_keys_valid {σ : Type} (e : executor σ) : Prop :=
  ∀ (k : Int) (t : timer), map_find e.periodic_event_timers_ k = some t →
    0 ≤ k ∧ k < (e.eventnames_.length : Int)

/-- The timer that `event_create_periodic(name, duration)` stores at instant `now`. -/
def periodic_timer (name : String) (duration : Int) (now : Int) : timer :=
  { name_ := name, type_ := timer_type_t.PERIODIC, start_ := now, duration_ := duration,
    running_ := true }

/-- An executor with the event "tick" (id 0), which owns a periodic timer of 50 ms,
and the event "other" (id 1), which owns none. -/
def demo_executor_periodic : executor (Nat × Nat) :=
  { eventnames_ := ["tick", "other"],
    periodic_event_timers_ := [(0, periodic_timer "tick" 50 0)],
    event_subscribers_ := [], timers_ := [], timer_subscribers_ := [], scripts_ := [],
    total_ops_ := 0 }

/-- Whether a binding raised an error (`luaL_error`) instead of returning. -/
def raised (ret : Except String lua_value) : Bool :=
  match ret with
  | Except.ok _ => false
  | Except.error _ => true

/-- An executor with one event and three timers: timer 0 is private and never
armed, timer 1 is the shared timer "t" armed for 100 ms at instant 0, timer 2 is a
second private timer. -/
def demo_executor_timers : executor (Nat × Nat) :=
  { eventnames_ := ["tick"], periodic_event_timers_ := [], event_subscribers_ := [],
    timers_ := [timer.mk_timer "" timer_type_t.ONESHOT 0,
                (timer.mk_timer "t" timer_type_t.ONESHOT 0).elapse_after 100 0,
                timer.mk_timer "" timer_type_t.ONESHOT 0],
    timer_subscribers_ := [(1, [1])], scripts_ := [], total_ops_ := 0 }

/-- A series of `elapsed()` polls of one timer at the instants `polls`, in order: the
answers and the timer afterwards. -/
def timer.elapsed_all (t : timer) : List Int → List Bool × timer
  | [] => ([], t)
  | now :: rest =>
    ((t.elapsed now).1 :: (timer.elapsed_all (t.elapsed now).2 rest).1,
      (timer.elapsed_all (t.elapsed now).2 rest).2)

/-! ## Invariants of the registries -/

/-- Every timer of the timer registry and of the periodic-event map has a duration
that is not negative. -/
def durations_nonneg {σ : Type} (e : executor σ) : Prop :=
  (∀ t ∈ e.timers_, 0 ≤ t.duration_) ∧ (∀ kv ∈ e.periodic_event_timers_, 0 ≤ kv.2.duration_)

instance durations_nonneg_decidable {σ : Type} (e : executor σ) : Decidable (durations_nonneg e) := by
  unfold durations_nonneg
  infer_instance

/-- The duration argument of a binding call, for the two bindings that take one. -/
def host_call.duration_arg : host_call → Option Int
  | host_call.event_create_periodic _ d => some d
  | host_call.timer_elapse_after _ d => some d
  | _ => none

/-- Effect of a sequence of binding calls made by one script, each at its own
instant. -/
def apply_timed_calls {σ : Type} (st : executor σ × lua_script σ)
    (calls : List (Int × host_call)) : executor σ × lua_script σ :=
  calls.foldl (fun st c => apply_call c.1 st c.2) st

/-! ## The watchdog -/

/-- Function `instruction_count_hook`, run for script `p` at instant `now` of the
clock, the debug record naming the source `short_src` and the line `currentline`:
`some msg` is the error raised by `luaL_error`, `none` a plain return.
`duration_cast<milliseconds>` truncates toward zero. -/
def instruction_count_hook {σ : Type} (p : lua_script σ) (now : Int) (short_src : String)
    (currentline : Int) : Option String :=
  let duration := (now - p.ts_begin_loop).tdiv ticks_per_ms
  if duration > 10 then some ("timeout: at " ++ short_src ++ ":" ++ toString currentline)
  else none

/-- Every key of the subscription map `m` is an id below `n`. -/
def keys_below (m : List (Int × List Nat)) (n : Nat) : Prop :=
  ∀ kv ∈ m, 0 ≤ kv.1 ∧ kv.1 < (n : Int)

instance keys_below_decidable (m : List (Int × List Nat)) (n : Nat) : Decidable (keys_below m n) := by
  unfold keys_below
  infer_instance

/-- Every entry of the list `l` is an id below `n`. -/
def ids_below (l : List Int) (n : Nat) : Prop :=
  ∀ id ∈ l, 0 ≤ id ∧ id < (n : Int)

instance ids_below_decidable (l : List Int) (n : Nat) : Decidable (ids_below l n) := by
  unfold ids_below
  infer_instance

/-- Every event id queued on script `s` is the id of an event of `e`, and every
timer id pending on `s` is the id of a timer of `e`. -/
def queue_ids_valid {σ : Type} (e : executor σ) (s : lua_script σ) : Prop :=
  ids_below s.event_queue e.eventnames_.length ∧ ids_below s.elapsed_timers e.timers_.length

instance queue_ids_valid_decidable {σ : Type} (e : executor σ) (s : lua_script σ) :
    Decidable (queue_ids_valid e s) := by
  unfold queue_ids_valid
  infer_instance

/-- Every key of `event_subscribers_` is the id of an event, every key of
`timer_subscribers_` is the id of a timer, and the ids queued or pending on the live
scripts are valid. -/
def ids_valid {σ : Type} (e : executor σ) : Prop :=
  keys_below e.event_subscribers_ e.eventnames_.length
  ∧ keys_below e.timer_subscribers_ e.timers_.length
  ∧ ∀ s ∈ e.scripts_, queue_ids_valid e s

instance ids_valid_decidable {σ : Type} (e : executor σ) : Decidable (ids_valid e) := by
  unfold ids_valid
  infer_instance

/-! ## Runs of the system -/

/-- One step of a run: the live script at index `i` calls a binding, the host runs
`check_event_timers`, `check_timers` or `run_loop`, or the host loads a script from
a buffer into the object allocated at `addr`. -/
inductive sys_step where
  | call (i : Nat) (c : host_call) (now : Int)
  | check_event_timers (now : Int)
  | check_timers (now : Int)
  | run_loop (now : Int)
  | load_buffer (addr : Nat) (script_buffer : String) (now : Int)
  deriving DecidableEq, Repr

/-- Whether the step loads a script. -/
def sys_step.is_load : sys_step → Bool
  | sys_step.load_buffer _ _ _ => true
  | _ => false

/-- The live script at index `i` calls the binding `c` at instant `now`: the binding
acts on that script and on the executor holding the other scripts, and the script
keeps its place in the list. -/
def executor.script_call {σ : Type} (e : executor σ) (i : Nat) (c : host_call) (now : Int) :
    executor σ :=
  match e.scripts_[i]? with
  | none => e
  | some script =>
    let st := apply_call now ({ e with scripts_ := e.scripts_.eraseIdx i }, script) c
    { st.1 with scripts_ := st.1.scripts_.take i ++ st.2 :: st.1.scripts_.drop i }

def executor.step {σ : Type} (vm : LuaVM σ) (e : executor σ) : sys_step → executor σ
  | sys_step.call i c now => e.script_call i c now
  | sys_step.check_event_timers now => e.check_event_timers now
  | sys_step.check_timers now => e.check_timers now
  | sys_step.run_loop now => e.run_loop vm now
  | sys_step.load_buffer addr script_buffer now =>
    (e.loadScriptFromBuffer vm addr script_buffer now).2.1

/-- The state after the steps of a run, in order. -/
def executor.steps {σ : Type} (vm : LuaVM σ) (e : executor σ) (l : List sys_step) : executor σ :=
  l.foldl (executor.step vm) e

/-- A run from the empty executor: the load of a script into the object at address 7
is rejected after the script has subscribed to event 0 ("e"); the next script is
loaded into an object at the same address; it publishes event 0. -/
def demo_run_reused_address : List sys_step :=
  [sys_step.load_buffer 7 demo_subscribe_then_fail 0,
   sys_step.load_buffer 7 demo_plain 1,
   sys_step.call 0 (host_call.event_publish 0) 2]

/-- A run from the empty executor: a script is loaded at address 1; it opens event
"e" (id 0), subscribes to it, publishes it, publishes the unknown id 99, opens a
private timer (id 0), registers a handler for the unknown timer id 42, arms timer 0
for 5 ms; after 10 ms the host checks the timers. -/
def demo_run : List sys_step :=
  [sys_step.load_buffer 1 demo_plain 0,
   sys_step.call 0 (host_call.event_open "e") 1,
   sys_step.call 0 (host_call.event_subscribe 0 7) 1,
   sys_step.call 0 (host_call.event_publish 0) 2,
   sys_step.call 0 (host_call.event_publish 99) 2,
   sys_step.call 0 (host_call.timer_open none) 3,
   sys_step.call 0 (host_call.timer_subscribe 42 8) 3,
   sys_step.call 0 (host_call.timer_elapse_after 0 5) 3,
   sys_step.check_timers 10000000]

/-- Script `s` has an event handler for every event id in its queue and for every
event of the subscription map `m` whose subscriber set holds its address. -/
def has_handlers {σ : Type} (m : List (Int × List Nat)) (s : lua_script σ) : Prop :=
  (∀ id ∈ s.event_queue, (map_find s.event_handlers id).isSome = true)
  ∧ (∀ kv ∈ m, s.addr ∈ kv.2 → (map_find s.event_handlers kv.1).isSome = true)

instance has_handlers_decidable {σ : Type} (m : List (Int × List Nat)) (s : lua_script σ) :
    Decidable (has_handlers m s) := by
  unfold has_handlers
  infer_instance

/-- The live scripts are distinct objects, and each has a handler for every event
queued on it and for every event it is subscribed to. -/
def handlers_present {σ : Type} (e : executor σ) : Prop :=
  (e.scripts_.map (fun s => s.addr)).Nodup ∧ ∀ s ∈ e.scripts_, has_handlers e.event_subscribers_ s

instance handlers_present_decidable {σ : Type} (e : executor σ) :
    Decidable (handlers_present e) := by
  unfold handlers_present
  infer_instance

/-- No live script is allocated at `addr` and no event subscriber set holds `addr`. -/
def address_unused {σ : Type} (e : executor σ) (addr : Nat) : Prop :=
  addr ∉ e.scripts_.map (fun s => s.addr) ∧ ∀ kv ∈ e.event_subscribers_, addr ∉ kv.2

instance address_unused_decidable {σ : Type} (e : executor σ) (addr : Nat) :
    Decidable (address_unused e addr) := by
  unfold address_unused
  infer_instance

/-- Every load of the run allocates its script object at an address that is unused
in the state in which the load starts. -/
def loads_at_unused_addresses {σ : Type} (vm : LuaVM σ) : executor σ → List sys_step → Prop
  | _, [] => True
  | e, st :: rest =>
    (match st with
      | sys_step.load_buffer addr _ _ => address_unused e addr
      | _ => True)
    ∧ loads_at_unused_addresses vm (e.step vm st) rest

/-! ## Lemmas on callback delivery -/

theorem handle_events_addr {σ : Type} (vm : LuaVM σ) (q : List Int) :
    ∀ s : lua_script σ, (handle_events vm s q).2.1.addr = s.addr := by
  induction q with
  | nil => intro s; rfl
  | cons x rest ih =>
    intro s
    unfold handle_events
    split
    · dsimp only
      split
      · simpa using ih _
      · rfl
    · exact ih s

theorem handle_timers_addr {σ : Type} (vm : LuaVM σ) (q : List Int) :
    ∀ (s : lua_script σ) (kept : List Int), (handle_timers vm s kept q).2.1.addr = s.addr := by
  induction q with
  | nil => intro s kept; rfl
  | cons x rest ih =>
    intro s kept
    unfold handle_timers
    split
    · dsimp only
      split
      · simpa using ih _ _
      · rfl
    · exact ih s _

theorem handle_lua_callbacks_addr {σ : Type} (vm : LuaVM σ) (s : lua_script σ) :
    (s.handle_lua_callbacks vm).2.1.addr = s.addr := by
  unfold lua_script.handle_lua_callbacks
  dsimp only
  split
  · simp [handle_timers_addr, handle_events_addr]
  · simp [handle_events_addr]

theorem run_loop_scripts_spec {σ : Type} (vm : LuaVM σ) (now : Int) (todo : List (lua_script σ)) :
    ∀ (e : executor σ) (kept : List (lua_script σ)),
      (run_loop_scripts vm now e kept todo).1.scripts_.map (fun s => s.addr)
          = kept.map (fun s => s.addr)
            ++ (todo.filter (fun s => !tick_failed vm s)).map (fun s => s.addr)
      ∧ (run_loop_scripts vm now e kept todo).2 = todo.flatMap (tick_invocations vm) := by
  induction todo with
  | nil => intro e kept; simp [run_loop_scripts]
  | cons script rest ih =>
    intro e kept
    unfold run_loop_scripts
    dsimp only
    by_cases hcb : (script.handle_lua_callbacks vm).1 = true
    · by_cases hloop : (script.handle_lua_callbacks vm).2.1.loopFunctionRef = LUA_NOREF
      · have hf : tick_failed vm script = false := by simp [tick_failed, hcb, hloop]
        have hi : tick_invocations vm script = (script.handle_lua_callbacks vm).2.2 := by
          simp [tick_invocations, hloop]
        simp only [hcb, hloop, Bool.not_true, Bool.false_eq_true, if_false, ne_eq,
          not_true_eq_false]
        refine ⟨?_, ?_⟩
        · rw [(ih _ _).1]
          simp [List.filter_cons, hf, handle_lua_callbacks_addr]
        · rw [(ih _ _).2]
          simp [List.flatMap_cons, hi]
      · by_cases hl : (vm.lua_pcall (script.handle_lua_callbacks vm).2.1.L
            (script.handle_lua_callbacks vm).2.1.loopFunctionRef []).1 = true
        · have hf : tick_failed vm script = false := by simp [tick_failed, hcb, hloop, hl]
          have hi : tick_invocations vm script = (script.handle_lua_callbacks vm).2.2
              ++ [invocation.loop script.addr (script.handle_lua_callbacks vm).2.1.loopFunctionRef] := by
            simp [tick_invocations, hloop, hcb]
          simp only [hcb, hloop, hl, Bool.not_true, Bool.false_eq_true, if_false, ne_eq,
            not_false_eq_true, if_true]
          refine ⟨?_, ?_⟩
          · rw [(ih _ _).1]
            simp [List.filter_cons, hf, handle_lua_callbacks_addr]
          · rw [(ih _ _).2]
            simp [List.flatMap_cons, hi]
        · have hf : tick_failed vm script = true := by simp [tick_failed, hcb, hloop, hl]
          have hi : tick_invocations vm script = (script.handle_lua_callbacks vm).2.2
              ++ [invocation.loop script.addr (script.handle_lua_callbacks vm).2.1.loopFunctionRef] := by
            simp [tick_invocations, hloop, hcb]
          simp only [hcb, hloop, hl, Bool.not_true, Bool.false_eq_true, if_false, ne_eq,
            not_false_eq_true, if_true, Bool.not_false]
          refine ⟨?_, ?_⟩
          · rw [(ih _ _).1]
            simp [List.filter_cons, hf]
          · rw [(ih _ _).2]
            simp [List.flatMap_cons, hi]
    · have hf : tick_failed vm script = true := by simp [tick_failed, hcb]
      have hi : tick_invocations vm script = (script.handle_lua_callbacks vm).2.2 := by
        simp [tick_invocations, hcb]
      simp only [hcb, Bool.not_false, if_true]
      refine ⟨?_, ?_⟩
      · rw [(ih _ _).1]
        simp [List.filter_cons, hf]
      · rw [(ih _ _).2]
        simp [List.flatMap_cons, hi]

/-! ## Lemmas on the timer checks -/

theorem deliver_event_addr {σ : Type} (m : List (Int × List Nat)) (id : Int) (s : lua_script σ) :
    (deliver_event m id s).addr = s.addr := by
  unfold deliver_event
  split
  · split <;> rfl
  · rfl

theorem notify_timer_addr {σ : Type} (m : List (Int × List Nat)) (id : Int) (s : lua_script σ) :
    (notify_timer m id s).addr = s.addr := by
  unfold notify_timer
  split
  · split <;> rfl
  · rfl

theorem map_deliver_event_addr {σ : Type} (m : List (Int × List Nat)) (id : Int)
    (l : List (lua_script σ)) :
    (l.map (deliver_event m id)).map (fun s => s.addr) = l.map (fun s => s.addr) := by
  simp [List.map_map, Function.comp_def, deliver_event_addr]

theorem map_notify_timer_addr {σ : Type} (m : List (Int × List Nat)) (id : Int)
    (l : List (lua_script σ)) :
    (l.map (notify_timer m id)).map (fun s => s.addr) = l.map (fun s => s.addr) := by
  simp [List.map_map, Function.comp_def, notify_timer_addr]

theorem check_event_timers_loop_addr {σ : Type} (now : Int) (m : List (Int × List Nat))
    (ts : List (Int × timer)) :
    ∀ l : List (lua_script σ),
      (check_event_timers_loop now m ts l).2.map (fun s => s.addr) = l.map (fun s => s.addr) := by
  induction ts with
  | nil => intro l; rfl
  | cons kv rest ih =>
    intro l
    obtain ⟨id, t⟩ := kv
    unfold check_event_timers_loop
    dsimp only
    rw [ih]
    split
    · exact map_deliver_event_addr m id l
    · rfl

theorem check_timers_loop_addr {σ : Type} (now : Int) (m : List (Int × List Nat))
    (ts : List timer) :
    ∀ (i : Nat) (l : List (lua_script σ)),
      (check_timers_loop now m i ts l).2.map (fun s => s.addr) = l.map (fun s => s.addr) := by
  induction ts with
  | nil => intro i l; rfl
  | cons t rest ih =>
    intro i l
    unfold check_timers_loop
    dsimp only
    rw [ih]
    split
    · exact map_notify_timer_addr m _ l
    · rfl

theorem check_timers_addr {σ : Type} (e : executor σ) (now : Int) :
    ((e.check_event_timers now).check_timers now).scripts_.map (fun s => s.addr)
      = e.scripts_.map (fun s => s.addr) := by
  simp [executor.check_timers, executor.check_event_timers, check_timers_loop_addr,
    check_event_timers_loop_addr]

theorem run_loop_scripts_cons {σ : Type} (vm : LuaVM σ) (now : Int) (e : executor σ)
    (kept : List (lua_script σ)) (script : lua_script σ) (rest : List (lua_script σ)) :
    (tick_failed vm script = true →
      (run_loop_scripts vm now e kept (script :: rest)).1
        = (run_loop_scripts vm now
            (({ e with total_ops_ := e.total_ops_ + 1 } : executor σ).unsubscribe_all script.addr)
            kept rest).1)
    ∧ (tick_failed vm script = false →
      (run_loop_scripts vm now e kept (script :: rest)).1
        = (run_loop_scripts vm now ({ e with total_ops_ := e.total_ops_ + 1 } : executor σ)
            (kept ++ [tick_script vm now script]) rest).1) := by
  unfold tick_failed tick_script
  dsimp only
  rw [run_loop_scripts]
  dsimp only
  by_cases hcb : (script.handle_lua_callbacks vm).1 = true
  · by_cases hloop : (script.handle_lua_callbacks vm).2.1.loopFunctionRef = LUA_NOREF
    · simp [hcb, hloop]
    · by_cases hl : (vm.lua_pcall (script.handle_lua_callbacks vm).2.1.L
          (script.handle_lua_callbacks vm).2.1.loopFunctionRef []).1 = true
      · simp [hcb, hloop, hl]
      · simp [hcb, hloop, hl]
  · simp [hcb]

theorem run_loop_scripts_objects {σ : Type} (vm : LuaVM σ) (now : Int)
    (todo : List (lua_script σ)) :
    ∀ (e : executor σ) (kept : List (lua_script σ)),
      (run_loop_scripts vm now e kept todo).1.scripts_
        = kept ++ (todo.filter (fun s => !tick_failed vm s)).map (tick_script vm now) := by
  induction todo with
  | nil => intro e kept; simp [run_loop_scripts]
  | cons script rest ih =>
    intro e kept
    have hstep := run_loop_scripts_cons vm now e kept script rest
    by_cases hf : tick_failed vm script = true
    · rw [hstep.1 hf, ih]
      simp [List.filter_cons, hf]
    · have hf2 : tick_failed vm script = false := by simpa using hf
      rw [hstep.2 hf2, ih]
      simp [List.filter_cons, hf2]

/-! ## C1 -/

theorem handle_events_frame {σ : Type} (vm : LuaVM σ) (q : List Int) :
    ∀ s : lua_script σ,
      (handle_events vm s q).2.1.elapsed_timers = s.elapsed_timers
      ∧ (handle_events vm s q).2.1.timer_handlers = s.timer_handlers
      ∧ (handle_events vm s q).2.1.event_handlers = s.event_handlers
      ∧ (handle_events vm s q).2.1.loopFunctionRef = s.loopFunctionRef := by
  induction q with
  | nil => intro s; exact ⟨rfl, rfl, rfl, rfl⟩
  | cons x rest ih =>
    intro s
    unfold handle_events
    split
    · dsimp only
      split
      · simpa using ih _
      · exact ⟨rfl, rfl, rfl, rfl⟩
    · exact ih s

theorem handle_timers_frame {σ : Type} (vm : LuaVM σ) (q : List Int) :
    ∀ (s : lua_script σ) (kept : List Int),
      (handle_timers vm s kept q).2.1.event_queue = s.event_queue
      ∧ (handle_timers vm s kept q).2.1.timer_handlers = s.timer_handlers
      ∧ (handle_timers vm s kept q).2.1.event_handlers = s.event_handlers
      ∧ (handle_timers vm s kept q).2.1.loopFunctionRef = s.loopFunctionRef := by
  induction q with
  | nil => intro s kept; exact ⟨rfl, rfl, rfl, rfl⟩
  | cons x rest ih =>
    intro s kept
    unfold handle_timers
    split
    · dsimp only
      split
      · simpa using ih _ _
      · exact ⟨rfl, rfl, rfl, rfl⟩
    · exact ih s _

theorem handle_events_ok {σ : Type} (vm : LuaVM σ) (q : List Int) :
    ∀ s : lua_script σ, (handle_events vm s q).1 = true →
      (handle_events vm s q).2.2 = q.filterMap (event_invocation s)
      ∧ (handle_events vm s q).2.1.event_queue = [] := by
  induction q with
  | nil => intro s _; exact ⟨rfl, rfl⟩
  | cons x rest ih =>
    intro s
    unfold handle_events
    split
    · rename_i ref href
      dsimp only
      split
      · intro h
        have := ih _ h
        have hE : ∀ l : σ, event_invocation { s with L := l } = event_invocation s := fun _ => rfl
        rw [hE] at this
        have hx : event_invocation s x = some (invocation.event_handler s.addr ref x) := by
          simp [event_invocation, href]
        simp only [List.filterMap_cons, hx]
        exact ⟨by rw [this.1], this.2⟩
      · intro h; simp at h
    · rename_i hnone
      intro h
      have := ih s h
      have hx : event_invocation s x = none := by
        simp [event_invocation, hnone]
      simp only [List.filterMap_cons, hx]
      exact this

theorem handle_timers_ok {σ : Type} (vm : LuaVM σ) (q : List Int) :
    ∀ (s : lua_script σ) (kept : List Int), (handle_timers vm s kept q).1 = true →
      (handle_timers vm s kept q).2.2 = q.filterMap (timer_invocation s)
      ∧ (handle_timers vm s kept q).2.1.elapsed_timers
          = kept ++ q.filter (fun id => (map_find s.timer_handlers id).isNone) := by
  induction q with
  | nil => intro s kept _; simp [handle_timers]
  | cons x rest ih =>
    intro s kept
    unfold handle_timers
    split
    · rename_i ref href
      dsimp only
      split
      · intro h
        have := ih _ kept h
        have hE : ∀ l : σ, timer_invocation { s with L := l } = timer_invocation s := fun _ => rfl
        rw [hE] at this
        have hx : timer_invocation s x = some (invocation.timer_handler s.addr ref x) := by
          simp [timer_invocation, href]
        simp only [List.filterMap_cons, hx, List.filter_cons, href, Option.isNone_some]
        exact ⟨by rw [this.1], by simpa using this.2⟩
      · intro h; simp at h
    · rename_i hnone
      intro h
      have := ih s (kept ++ [x]) h
      have hx : timer_invocation s x = none := by
        simp [timer_invocation, hnone]
      simp only [List.filterMap_cons, hx, List.filter_cons, hnone, Option.isNone_none]
      exact ⟨this.1, by simpa using this.2⟩

theorem handle_timers_failed {σ : Type} (vm : LuaVM σ) (q : List Int) :
    ∀ (s : lua_script σ) (kept : List Int), (handle_timers vm s kept q).1 = false →
      ∃ (pre : List Int) (id : Int) (post : List Int) (ref : Int) (L1 : σ),
        q = pre ++ id :: post
        ∧ map_find s.timer_handlers id = some ref
        ∧ (vm.lua_pcall L1 ref [id]).1 = false
        ∧ (handle_timers vm s kept q).2.1.elapsed_timers
            = kept ++ pre.filter (fun i => (map_find s.timer_handlers i).isNone) ++ id :: post
        ∧ (handle_timers vm s kept q).2.2
            = pre.filterMap (timer_invocation s) ++ [invocation.timer_handler s.addr ref id] := by
  induction q with
  | nil => intro s kept h; simp [handle_timers] at h
  | cons x rest ih =>
    intro s kept
    unfold handle_timers
    split
    · rename_i ref href
      dsimp only
      split
      · rename_i hok
        intro h
        obtain ⟨pre, id, post, ref1, L1, hq, hfind, hfail, hel, hlog⟩ := ih _ kept h
        have hE : ∀ l : σ, timer_invocation { s with L := l } = timer_invocation s := fun _ => rfl
        rw [hE] at hlog
        have hx : timer_invocation s x = some (invocation.timer_handler s.addr ref x) := by
          simp [timer_invocation, href]
        refine ⟨x :: pre, id, post, ref1, L1, by simp [hq], hfind, hfail, ?_, ?_⟩
        · simp only [List.filter_cons, href, Option.isNone_some]
          simpa using hel
        · simp only [List.filterMap_cons, hx, hlog]
          rfl
      · rename_i hbad
        intro _
        refine ⟨[], x, rest, ref, s.L, rfl, href, by simpa using hbad, by simp, by simp⟩
    · rename_i hnone
      intro h
      obtain ⟨pre, id, post, ref1, L1, hq, hfind, hfail, hel, hlog⟩ := ih s (kept ++ [x]) h
      have hx : timer_invocation s x = none := by
        simp [timer_invocation, hnone]
      refine ⟨x :: pre, id, post, ref1, L1, by simp [hq], hfind, hfail, ?_, ?_⟩
      · simp only [List.filter_cons, hnone, Option.isNone_none]
        simpa using hel
      · simp only [List.filterMap_cons, hx, hlog]

theorem handle_lua_callbacks_ok {σ : Type} (vm : LuaVM σ) (s : lua_script σ)
    (h : (s.handle_lua_callbacks vm).1 = true) :
    (s.handle_lua_callbacks vm).2.2
        = s.event_queue.filterMap (event_invocation s) ++ s.elapsed_timers.filterMap (timer_invocation s)
    ∧ (s.handle_lua_callbacks vm).2.1.event_queue = []
    ∧ (s.handle_lua_callbacks vm).2.1.elapsed_timers
        = s.elapsed_timers.filter (fun id => (map_find s.timer_handlers id).isNone)
    ∧ (s.handle_lua_callbacks vm).2.1.loopFunctionRef = s.loopFunctionRef := by
  unfold lua_script.handle_lua_callbacks at h ⊢
  dsimp only at h ⊢
  by_cases hev : (handle_events vm s s.event_queue).1 = true
  · simp only [hev, if_true] at h ⊢
    have e1 := handle_events_ok vm s.event_queue s hev
    have f1 := handle_events_frame vm s.event_queue s
    have a1 := handle_events_addr vm s.event_queue s
    have t1 := handle_timers_ok vm _ _ [] h
    have f2 := handle_timers_frame vm (handle_events vm s s.event_queue).2.1.elapsed_timers
      (handle_events vm s s.event_queue).2.1 []
    have hT : timer_invocation (handle_events vm s s.event_queue).2.1 = timer_invocation s := by
      funext id
      simp [timer_invocation, f1.2.1, a1]
    rw [hT, f1.2.1] at t1
    rw [f1.1] at t1 f2 ⊢
    refine ⟨by rw [e1.1, t1.1], by rw [f2.1, e1.2], by simpa using t1.2, by rw [f2.2.2.2, f1.2.2.2]⟩
  · simp [hev] at h

/-! ## C9: `event_publish` -/

theorem deliver_event_eq {σ : Type} (m : List (Int × List Nat)) (eventid : Int)
    (s : lua_script σ) :
    deliver_event m eventid s
      = if s.addr ∈ subscribers_of m eventid then
          { s with event_queue := s.event_queue ++ [eventid] }
        else s := by
  unfold deliver_event subscribers_of
  cases map_find m eventid with
  | none => simp
  | some scripts => simp [lua_script.event_publish]

/-- C9. `executor::event_publish(id)` appends `id` once at the back of the event queue
of every script whose address is in the subscriber set stored under `id` and leaves
every other script object as it is (so no queue changes when the set is absent or
empty); the subscription tables, the event names and the other members of the
executor are unchanged. -/
theorem event_publish_enqueues_on_subscribers {σ : Type} (e : executor σ) (eventid : Int) :
    (e.event_publish eventid).scripts_
        = e.scripts_.map (fun s =>
            if s.addr ∈ subscribers_of e.event_subscribers_ eventid then
              { s with event_queue := s.event_queue ++ [eventid] }
            else s)
    ∧ (subscribers_of e.event_subscribers_ eventid = [] →
        (e.event_publish eventid).scripts_ = e.scripts_)
    ∧ (e.event_publish eventid).event_subscribers_ = e.event_subscribers_
    ∧ (e.event_publish eventid).timer_subscribers_ = e.timer_subscribers_
    ∧ (e.event_publish eventid).eventnames_ = e.eventnames_
    ∧ (e.event_publish eventid).periodic_event_timers_ = e.periodic_event_timers_
    ∧ (e.event_publish eventid).timers_ = e.timers_
    ∧ (e.event_publish eventid).total_ops_ = e.total_ops_ := by
  have h1 : (e.event_publish eventid).scripts_
        = e.scripts_.map (fun s =>
            if s.addr ∈ subscribers_of e.event_subscribers_ eventid then
              { s with event_queue := s.event_queue ++ [eventid] }
            else s) := by
    unfold executor.event_publish
    dsimp only
    apply List.map_congr_left
    intro s _
    exact deliver_event_eq _ _ s
  refine ⟨h1, ?_, rfl, rfl, rfl, rfl, rfl, rfl⟩
  intro hempty
  rw [h1, hempty]
  simp

/-- C9, at an executor where script 1 subscribes to event 0 and nobody to event 1. -/
theorem event_publish_enqueues_on_subscribers_witness :
    subscribers_of demo_executor.event_subscribers_ 1 = []
    ∧ (demo_executor.event_publish 1).scripts_ = demo_executor.scripts_
    ∧ (demo_executor.event_publish 0).scripts_.map (fun s => s.event_queue) = [[4, 5, 0], []] :=
  ⟨by decide, (event_publish_enqueues_on_subscribers demo_executor 1).2.1 (by decide), by decide⟩

/-! ## C10: `event_open` -/

theorem find_index_append {name : String} {l : List String} {i : Nat} (l2 : List String)
    (h : find_index name l = some i) : find_index name (l ++ l2) = some i := by
  induction l generalizing i with
  | nil => simp [find_index] at h
  | cons x rest ih =>
    simp only [List.cons_append]
    unfold find_index at h ⊢
    split
    · rename_i hx; simpa [hx] using h
    · rename_i hx
      simp only [hx, if_false] at h
      cases hr : find_index name rest with
      | none => simp [hr] at h
      | some j =>
        simp only [hr, Option.map_some'] at h
        simp [ih hr, h]

theorem find_index_append_self {name : String} {l : List String}
    (h : find_index name l = none) : find_index name (l ++ [name]) = some l.length := by
  induction l with
  | nil => simp [find_index]
  | cons x rest ih =>
    simp only [List.cons_append]
    unfold find_index at h ⊢
    split
    · rename_i hx; simp [hx] at h
    · rename_i hx
      simp only [hx, if_false] at h
      cases hr : find_index name rest with
      | none => simp [ih hr]
      | some j => simp [hr] at h

theorem event_open_names {σ : Type} (e : executor σ) (name : String) :
    ∃ suffix, (e.event_open name).1.eventnames_ = e.eventnames_ ++ suffix := by
  unfold executor.event_open
  split
  · exact ⟨[""], rfl⟩
  · split
    · exact ⟨[], by simp⟩
    · exact ⟨[name], rfl⟩

theorem open_all_names {σ : Type} (names : List String) :
    ∀ e : executor σ, ∃ suffix, (open_all e names).eventnames_ = e.eventnames_ ++ suffix := by
  induction names with
  | nil => intro e; exact ⟨[], by simp [open_all]⟩
  | cons n rest ih =>
    intro e
    obtain ⟨s1, h1⟩ := event_open_names e n
    obtain ⟨s2, h2⟩ := ih (e.event_open n).1
    refine ⟨s1 ++ s2, ?_⟩
    have : open_all e (n :: rest) = open_all (e.event_open n).1 rest := rfl
    rw [this, h2, h1, List.append_assoc]

theorem event_open_found {σ : Type} (e : executor σ) (name : String) (hne : name ≠ "") :
    ∃ i : Nat, find_index name (e.event_open name).1.eventnames_ = some i
      ∧ (e.event_open name).2 = (i : Int) := by
  unfold executor.event_open
  simp only [hne, if_false]
  cases h : find_index name e.eventnames_ with
  | some i => exact ⟨i, h, rfl⟩
  | none =>
    refine ⟨e.eventnames_.length, find_index_append_self h, ?_⟩
    simp

theorem event_open_of_found {σ : Type} (e : executor σ) (name : String) (hne : name ≠ "")
    (i : Nat) (h : find_index name e.eventnames_ = some i) :
    e.event_open name = (e, (i : Int)) := by
  unfold executor.event_open
  simp [hne, h]

/-- C10. For a non-empty name `s`, once `event_open(s)` has been called, a further
`event_open(s)` (right away, or after any other names have been opened in between)
returns the same id and leaves the list of event names as it found it. For the empty
name, `event_open("")` appends one event and returns the number of events before
the call, and a later `event_open("")` never returns that id again. -/
theorem event_open_idempotent {σ : Type} (e : executor σ) :
    (∀ s : String, s ≠ "" →
      ((e.event_open s).1.event_open s).2 = (e.event_open s).2
      ∧ ((e.event_open s).1.event_open s).1.eventnames_ = (e.event_open s).1.eventnames_
      ∧ ∀ between : List String,
          ((open_all (e.event_open s).1 between).event_open s).2 = (e.event_open s).2
          ∧ ((open_all (e.event_open s).1 between).event_open s).1.eventnames_
              = (open_all (e.event_open s).1 between).eventnames_)
    ∧ (e.event_open "").2 = (e.eventnames_.length : Int)
    ∧ (e.event_open "").1.eventnames_ = e.eventnames_ ++ [""]
    ∧ (∀ between : List String,
        ((open_all (e.event_open "").1 between).event_open "").2 ≠ (e.event_open "").2) := by
  refine ⟨?_, ?_, ?_, ?_⟩
  · intro s hne
    obtain ⟨i, hi, hid⟩ := event_open_found e s hne
    have key : ∀ between : List String,
        (open_all (e.event_open s).1 between).event_open s
          = (open_all (e.event_open s).1 between, (i : Int)) := by
      intro between
      obtain ⟨suffix, hs⟩ := open_all_names between (e.event_open s).1
      exact event_open_of_found _ s hne i (by rw [hs]; exact find_index_append suffix hi)
    have k0 := key []
    simp only [open_all, List.foldl_nil] at k0
    refine ⟨by rw [k0, hid], by rw [k0], ?_⟩
    intro between
    rw [key between, hid]
    exact ⟨rfl, rfl⟩
  · simp [executor.event_open]
  · simp [executor.event_open]
  · intro between
    obtain ⟨suffix, hs⟩ := open_all_names between (e.event_open "").1
    have h1 : (e.event_open "").1.eventnames_ = e.eventnames_ ++ [""] := by
      simp [executor.event_open]
    have h2 : (e.event_open "").2 = (e.eventnames_.length : Int) := by
      simp [executor.event_open]
    have h3 : ((open_all (e.event_open "").1 between).event_open "").2
        = ((open_all (e.event_open "").1 between).eventnames_.length : Int) := by
      simp [executor.event_open]
    rw [h3, h2, hs, h1]
    simp only [List.length_append, List.length_singleton, Nat.cast_add, Nat.cast_one]
    omega

/-- C10, at the name "tick" on an executor that has no event yet. -/
theorem event_open_idempotent_witness :
    "tick" ≠ ""
    ∧ (((executor.make_unique Nat).event_open "tick").1.event_open "tick").2
        = ((executor.make_unique Nat).event_open "tick").2
    ∧ ((executor.make_unique Nat).event_open "tick").2 = 0 :=
  ⟨by decide, ((event_open_idempotent (executor.make_unique Nat)).1 "tick" (by decide)).1,
   by decide⟩

/-! ## Lemmas on the bindings and on loading -/

theorem apply_call_addr {σ : Type} (now : Int) (st : executor σ × lua_script σ) (c : host_call) :
    (apply_call now st c).1.scripts_.map (fun s => s.addr) = st.1.scripts_.map (fun s => s.addr)
    ∧ (apply_call now st c).2.addr = st.2.addr := by
  cases c with
  | event_open n => simp [apply_call, _lua_event_open, executor.event_open]; split <;> [skip; split] <;> simp
  | event_create_periodic n d =>
    simp only [apply_call, _lua_event_create_periodic, executor.event_create_periodic]
    split <;> rename_i h <;> revert h <;> split <;> intro h <;> cases h <;> simp
  | event_subscribe id f =>
    simp only [apply_call, _lua_event_subscribe]
    split <;> simp [executor.add_event_subscription]
  | event_publish id =>
    simp [apply_call, _lua_event_publish, executor.event_publish, deliver_event_addr, Function.comp_def]
  | event_name id => simp only [apply_call, _lua_event_name]; split <;> simp
  | timer_open n =>
    simp only [apply_call, _lua_timer_open, executor.add_timer_subscription]
    cases n with
    | none => simp [executor.timer_create_private]
    | some name =>
      by_cases hn : c_str name = ""
      · simp [hn, executor.timer_create_private]
      · simp only [hn, ne_eq, not_false_eq_true, if_true, executor.timer_find_or_create_sharable]
        split <;> simp
  | timer_subscribe id f => simp [apply_call, _lua_timer_subscribe]
  | timer_elapse_after ix d => simp only [apply_call, _lua_timer_elapse_after]; split <;> simp
  | timer_stop ix => simp only [apply_call, _lua_timer_stop]; split <;> simp
  | timer_is_elapsed id => simp only [apply_call, _lua_timer_is_elapsed]; split <;> simp
  | timer_is_active ix => simp only [apply_call, _lua_timer_is_active]; split <;> [skip; split] <;> simp
  | timer_remaining ix => simp only [apply_call, _lua_timer_remaining]; split <;> [skip; split] <;> simp
  | timer_name id => simp only [apply_call, _lua_timer_name]; split <;> [skip; split] <;> simp

theorem apply_calls_addr {σ : Type} (now : Int) (calls : List host_call) :
    ∀ st : executor σ × lua_script σ,
      (apply_calls now st calls).1.scripts_.map (fun s => s.addr) = st.1.scripts_.map (fun s => s.addr)
      ∧ (apply_calls now st calls).2.addr = st.2.addr := by
  induction calls with
  | nil => intro st; exact ⟨rfl, rfl⟩
  | cons c rest ih =>
    intro st
    have h1 := apply_call_addr now st c
    have h2 := ih (apply_call now st c)
    have : apply_calls now st (c :: rest) = apply_calls now (apply_call now st c) rest := rfl
    rw [this]
    exact ⟨h2.1.trans h1.1, h2.2.trans h1.2⟩

theorem cast_ne_LUA_NOREF (n : Nat) : (n : Int) ≠ LUA_NOREF := by
  unfold LUA_NOREF
  omega

theorem reference_init_and_loop_spec {σ : Type} (vm : LuaVM σ) (s : lua_script σ) :
    (s.reference_init_and_loop vm).2.addr = s.addr
    ∧ ((s.reference_init_and_loop vm).1 = true →
        (s.reference_init_and_loop vm).2.initFunctionRef ≠ LUA_NOREF)
    ∧ ((s.reference_init_and_loop vm).1 = true ↔
        (vm.isfunction s.L "init" = true ∧ vm.isfunction (vm.luaL_ref s.L).2 "loop" = true)) := by
  unfold lua_script.reference_init_and_loop loadAndReferenceFunction
  by_cases hi : vm.isfunction s.L "init" = true
  · by_cases hl : vm.isfunction (vm.luaL_ref s.L).2 "loop" = true
    · simp [hi, hl, cast_ne_LUA_NOREF]
    · simp [hi, hl]
  · simp [hi]

theorem load_and_execute_spec {σ : Type} (vm : LuaVM σ) (now : Int) (e : executor σ)
    (s : lua_script σ) (compiled : Bool × σ) :
    (s.load_and_execute vm now e compiled).2.1.scripts_.map (fun x => x.addr)
        = e.scripts_.map (fun x => x.addr)
    ∧ (s.load_and_execute vm now e compiled).2.2.1.addr = s.addr
    ∧ ((s.load_and_execute vm now e compiled).1 = true →
        (s.load_and_execute vm now e compiled).2.2.1.initFunctionRef ≠ LUA_NOREF) := by
  unfold lua_script.load_and_execute
  dsimp only
  have ha := apply_calls_addr now (vm.pcall_chunk compiled.2).calls (e, s)
  split
  · split
    · refine ⟨ha.1, ?_, ?_⟩
      · rw [(reference_init_and_loop_spec vm _).1]; exact ha.2
      · exact (reference_init_and_loop_spec vm _).2.1
    · refine ⟨ha.1, ha.2, ?_⟩
      intro h; simp at h
  · refine ⟨rfl, rfl, ?_⟩
    intro h; simp at h

theorem finish_load_spec {σ : Type} (vm : LuaVM σ) (now : Int)
    (ld : Bool × executor σ × lua_script σ × List invocation)
    (href : ld.1 = true → ld.2.2.1.initFunctionRef ≠ LUA_NOREF) :
    ((executor.finish_load vm now ld).1 = true →
      (executor.finish_load vm now ld).2.1.scripts_.map (fun x => x.addr)
        = ld.2.1.scripts_.map (fun x => x.addr) ++ [ld.2.2.1.addr])
    ∧ ((executor.finish_load vm now ld).1 = false →
      (executor.finish_load vm now ld).2.1.scripts_.map (fun x => x.addr)
        = ld.2.1.scripts_.map (fun x => x.addr)) := by
  unfold executor.finish_load
  dsimp only
  by_cases hld : ld.1 = true
  · have hr := href hld
    simp only [hld, if_true, ne_eq, hr, not_false_eq_true]
    have ha := apply_calls_addr now
      (vm.pcall_init ld.2.2.1.L ld.2.2.1.initFunctionRef).calls
      (ld.2.1, { ld.2.2.1 with ts_begin_loop := now })
    by_cases hs : (vm.pcall_init ld.2.2.1.L ld.2.2.1.initFunctionRef).status = true
    · simp only [hs, Bool.not_true, Bool.false_eq_true, if_false]
      refine ⟨fun _ => ?_, fun h => by simp at h⟩
      simp only [List.map_append, List.map_cons, List.map_nil]
      rw [ha.1, ha.2]
    · simp only [hs, Bool.not_false, if_true]
      refine ⟨fun h => by simp at h, fun _ => ?_⟩
      simpa [executor.unsubscribe_all] using ha.1
  · simp only [hld, if_false]
    exact ⟨fun h => by simp at h, fun _ => rfl⟩

/-! ## C2 -/

/-- C2. For every interpreter (every source text), executor state, address of the
new script object and instant: when `loadScriptFromBuffer` returns true the script
list is the previous list followed by the new script, so `get_nr_of_scripts()` is
one more than before; when it returns false the script list holds the same scripts
as before and `get_nr_of_scripts()` is unchanged. -/
theorem loadScriptFromBuffer_success_iff_installed {σ : Type} (vm : LuaVM σ) (e : executor σ)
    (addr : Nat) (script_buffer : String) (now : Int) :
    ((e.loadScriptFromBuffer vm addr script_buffer now).1 = true →
      (e.loadScriptFromBuffer vm addr script_buffer now).2.1.get_nr_of_scripts
          = e.get_nr_of_scripts + 1
      ∧ (e.loadScriptFromBuffer vm addr script_buffer now).2.1.scripts_.map (fun s => s.addr)
          = e.scripts_.map (fun s => s.addr) ++ [addr])
    ∧ ((e.loadScriptFromBuffer vm addr script_buffer now).1 = false →
      (e.loadScriptFromBuffer vm addr script_buffer now).2.1.get_nr_of_scripts
          = e.get_nr_of_scripts
      ∧ (e.loadScriptFromBuffer vm addr script_buffer now).2.1.scripts_.map (fun s => s.addr)
          = e.scripts_.map (fun s => s.addr)) := by
  have hl := load_and_execute_spec vm now e (lua_script.mk_script vm addr now)
    (vm.luaL_loadbuffer (lua_script.mk_script vm addr now).L script_buffer)
  have hf := finish_load_spec vm now
    ((lua_script.mk_script vm addr now).loadAndExecuteFromBuffer vm now e script_buffer) hl.2.2
  unfold executor.loadScriptFromBuffer
  unfold lua_script.loadAndExecuteFromBuffer at hf ⊢
  refine ⟨fun h => ?_, fun h => ?_⟩
  · have h1 := hf.1 h
    rw [hl.1, hl.2.1] at h1
    refine ⟨?_, h1⟩
    have := congrArg List.length h1
    simpa [executor.get_nr_of_scripts] using this
  · have h1 := hf.2 h
    rw [hl.1] at h1
    refine ⟨?_, h1⟩
    have := congrArg List.length h1
    simpa [executor.get_nr_of_scripts] using this

/-- C2, at a script that loads and at one whose top level fails. -/
theorem loadScriptFromBuffer_success_iff_installed_witness :
    ((executor.make_unique (Nat × Nat)).loadScriptFromBuffer demo_vm 1 demo_plain 0).1 = true
    ∧ ((executor.make_unique (Nat × Nat)).loadScriptFromBuffer demo_vm 1 demo_plain 0).2.1.get_nr_of_scripts
        = (executor.make_unique (Nat × Nat)).get_nr_of_scripts + 1
    ∧ (demo_executor.loadScriptFromBuffer demo_vm 7 demo_subscribe_then_fail 0).1 = false
    ∧ (demo_executor.loadScriptFromBuffer demo_vm 7 demo_subscribe_then_fail 0).2.1.get_nr_of_scripts
        = demo_executor.get_nr_of_scripts :=
  ⟨by decide,
   ((loadScriptFromBuffer_success_iff_installed demo_vm (executor.make_unique (Nat × Nat)) 1
      demo_plain 0).1 (by decide)).1,
   by decide,
   ((loadScriptFromBuffer_success_iff_installed demo_vm demo_executor 7
      demo_subscribe_then_fail 0).2 (by decide)).1⟩


/-! ## C5 -/

/-- C5, refuted as stated: a script that compiles, whose top level succeeds and
which defines `loop` but no `init` is rejected by `loadAndExecuteFromBuffer` and by
`loadScriptFromBuffer` and does not become a live script; likewise a script
which defines `init` but no `loop`. -/
theorem script_without_init_or_loop_rejected :
    (demo_vm.luaL_loadbuffer demo_vm.new_state demo_loop_only).1 = true
    ∧ (demo_vm.pcall_chunk (demo_vm.luaL_loadbuffer demo_vm.new_state demo_loop_only).2).status = true
    ∧ demo_vm.isfunction (demo_vm.pcall_chunk
        (demo_vm.luaL_loadbuffer demo_vm.new_state demo_loop_only).2).L "loop" = true
    ∧ demo_vm.isfunction (demo_vm.pcall_chunk
        (demo_vm.luaL_loadbuffer demo_vm.new_state demo_loop_only).2).L "init" = false
    ∧ ((lua_script.mk_script demo_vm 1 0).loadAndExecuteFromBuffer demo_vm 0
        (executor.make_unique (Nat × Nat)) demo_loop_only).1 = false
    ∧ ((executor.make_unique (Nat × Nat)).loadScriptFromBuffer demo_vm 1 demo_loop_only 0).1 = false
    ∧ ((executor.make_unique (Nat × Nat)).loadScriptFromBuffer demo_vm 1 demo_loop_only
        0).2.1.get_nr_of_scripts = 0
    ∧ (demo_vm.luaL_loadbuffer demo_vm.new_state demo_init_only).1 = true
    ∧ (demo_vm.pcall_chunk (demo_vm.luaL_loadbuffer demo_vm.new_state demo_init_only).2).status = true
    ∧ demo_vm.isfunction (demo_vm.pcall_chunk
        (demo_vm.luaL_loadbuffer demo_vm.new_state demo_init_only).2).L "init" = true
    ∧ ((lua_script.mk_script demo_vm 1 0).loadAndExecuteFromBuffer demo_vm 0
        (executor.make_unique (Nat × Nat)) demo_init_only).1 = false
    ∧ ((executor.make_unique (Nat × Nat)).loadScriptFromBuffer demo_vm 1 demo_init_only 0).1 = false
    ∧ ((executor.make_unique (Nat × Nat)).loadScriptFromBuffer demo_vm 1 demo_init_only
        0).2.1.get_nr_of_scripts = 0 := by
  decide

/-- C5, amended. Both entry points are required. For a script whose source compiles
and whose top level succeeds, `loadAndExecuteFromBuffer` returns true exactly when
`init` is a function and `loop` is a function, and `loadScriptFromBuffer` returns
true (the script becomes live) exactly when moreover the call of `init` succeeds. -/
theorem load_requires_init_and_loop {σ : Type} (vm : LuaVM σ) (e : executor σ) (addr : Nat)
    (buffer : String) (now : Int)
    (hcompile : (vm.luaL_loadbuffer vm.new_state buffer).1 = true)
    (hchunk : (vm.pcall_chunk (vm.luaL_loadbuffer vm.new_state buffer).2).status = true) :
    (((lua_script.mk_script vm addr now).loadAndExecuteFromBuffer vm now e buffer).1 = true ↔
      (vm.isfunction (vm.pcall_chunk (vm.luaL_loadbuffer vm.new_state buffer).2).L "init" = true
       ∧ vm.isfunction (vm.luaL_ref
            (vm.pcall_chunk (vm.luaL_loadbuffer vm.new_state buffer).2).L).2 "loop" = true))
    ∧ ((e.loadScriptFromBuffer vm addr buffer now).1 = true ↔
      (vm.isfunction (vm.pcall_chunk (vm.luaL_loadbuffer vm.new_state buffer).2).L "init" = true
       ∧ vm.isfunction (vm.luaL_ref
            (vm.pcall_chunk (vm.luaL_loadbuffer vm.new_state buffer).2).L).2 "loop" = true
       ∧ (vm.pcall_init
            (vm.luaL_ref (vm.luaL_ref
              (vm.pcall_chunk (vm.luaL_loadbuffer vm.new_state buffer).2).L).2).2
            ((vm.luaL_ref
              (vm.pcall_chunk (vm.luaL_loadbuffer vm.new_state buffer).2).L).1 : Int)).status
          = true)) := by
  have hL : (lua_script.mk_script vm addr now).L = vm.new_state := rfl
  have key : ((lua_script.mk_script vm addr now).loadAndExecuteFromBuffer vm now e buffer).1 = true ↔
      (vm.isfunction (vm.pcall_chunk (vm.luaL_loadbuffer vm.new_state buffer).2).L "init" = true
       ∧ vm.isfunction (vm.luaL_ref
            (vm.pcall_chunk (vm.luaL_loadbuffer vm.new_state buffer).2).L).2 "loop" = true) := by
    unfold lua_script.loadAndExecuteFromBuffer lua_script.load_and_execute
    dsimp only
    rw [hL]
    simp only [hcompile, hchunk, if_true]
    exact (reference_init_and_loop_spec vm _).2.2
  refine ⟨key, ?_⟩
  unfold executor.loadScriptFromBuffer executor.finish_load
  dsimp only
  by_cases hboth : ((lua_script.mk_script vm addr now).loadAndExecuteFromBuffer vm now e buffer).1 = true
  · have hk := key.1 hboth
    have hne := (load_and_execute_spec vm now e (lua_script.mk_script vm addr now)
      (vm.luaL_loadbuffer (lua_script.mk_script vm addr now).L buffer)).2.2
    unfold lua_script.loadAndExecuteFromBuffer at hboth
    have hne1 := hne hboth
    simp only [lua_script.loadAndExecuteFromBuffer, hboth, if_true, ne_eq, hne1,
      not_false_eq_true]
    have hLL : ((lua_script.mk_script vm addr now).load_and_execute vm now e
          (vm.luaL_loadbuffer (lua_script.mk_script vm addr now).L buffer)).2.2.1.L
        = (vm.luaL_ref (vm.luaL_ref
              (vm.pcall_chunk (vm.luaL_loadbuffer vm.new_state buffer).2).L).2).2
        ∧ ((lua_script.mk_script vm addr now).load_and_execute vm now e
          (vm.luaL_loadbuffer (lua_script.mk_script vm addr now).L buffer)).2.2.1.initFunctionRef
        = ((vm.luaL_ref
              (vm.pcall_chunk (vm.luaL_loadbuffer vm.new_state buffer).2).L).1 : Int) := by
      unfold lua_script.load_and_execute lua_script.reference_init_and_loop
        loadAndReferenceFunction
      dsimp only
      rw [hL]
      simp [hcompile, hchunk, hk.1, hk.2]
    rw [hLL.1, hLL.2]
    by_cases hs : (vm.pcall_init
            (vm.luaL_ref (vm.luaL_ref
              (vm.pcall_chunk (vm.luaL_loadbuffer vm.new_state buffer).2).L).2).2
            ((vm.luaL_ref
              (vm.pcall_chunk (vm.luaL_loadbuffer vm.new_state buffer).2).L).1 : Int)).status = true
    · simp [hs, hk.1, hk.2]
    · simp [hs]
  · have hno : ¬ (vm.isfunction (vm.pcall_chunk (vm.luaL_loadbuffer vm.new_state buffer).2).L "init" = true
       ∧ vm.isfunction (vm.luaL_ref
            (vm.pcall_chunk (vm.luaL_loadbuffer vm.new_state buffer).2).L).2 "loop" = true) :=
      fun h => hboth (key.2 h)
    simp only [hboth, if_false]
    constructor
    · intro h; simp at h
    · intro h; exact absurd ⟨h.1, h.2.1⟩ hno

/-- C5 amended, at the script that defines both entry points. -/
theorem load_requires_init_and_loop_witness :
    (demo_vm.luaL_loadbuffer demo_vm.new_state demo_plain).1 = true
    ∧ (demo_vm.pcall_chunk (demo_vm.luaL_loadbuffer demo_vm.new_state demo_plain).2).status = true
    ∧ (((executor.make_unique (Nat × Nat)).loadScriptFromBuffer demo_vm 1 demo_plain 0).1 = true ↔
      (demo_vm.isfunction (demo_vm.pcall_chunk
          (demo_vm.luaL_loadbuffer demo_vm.new_state demo_plain).2).L "init" = true
       ∧ demo_vm.isfunction (demo_vm.luaL_ref
            (demo_vm.pcall_chunk (demo_vm.luaL_loadbuffer demo_vm.new_state demo_plain).2).L).2
            "loop" = true
       ∧ (demo_vm.pcall_init
            (demo_vm.luaL_ref (demo_vm.luaL_ref
              (demo_vm.pcall_chunk (demo_vm.luaL_loadbuffer demo_vm.new_state demo_plain).2).L).2).2
            ((demo_vm.luaL_ref
              (demo_vm.pcall_chunk
                (demo_vm.luaL_loadbuffer demo_vm.new_state demo_plain).2).L).1 : Int)).status
          = true)) :=
  ⟨by decide, by decide,
   (load_requires_init_and_loop demo_vm (executor.make_unique (Nat × Nat)) 1 demo_plain 0
      (by decide) (by decide)).2⟩


/-! ## C3: eviction and the subscription tables -/

theorem mem_set_erase (s : List Nat) (p q : Nat) : q ∈ set_erase s p ↔ q ∈ s ∧ q ≠ p := by
  simp [set_erase]

theorem check_timers_subscribers {σ : Type} (e : executor σ) (now : Int) :
    ((e.check_event_timers now).check_timers now).event_subscribers_ = e.event_subscribers_
    ∧ ((e.check_event_timers now).check_timers now).timer_subscribers_ = e.timer_subscribers_ :=
  ⟨rfl, rfl⟩

theorem mem_map_set {V : Type} (m : List (Int × V)) (k : Int) (v : V) :
    ∀ kv ∈ map_set m k v, kv = (k, v) ∨ kv ∈ m := by
  induction m with
  | nil => intro kv h; simp [map_set] at h; exact Or.inl h
  | cons x rest ih =>
    obtain ⟨k1, v1⟩ := x
    intro kv h
    unfold map_set at h
    split at h
    · rcases List.mem_cons.1 h with h | h
      · exact Or.inl h
      · exact Or.inr h
    · split at h
      · rcases List.mem_cons.1 h with h | h
        · exact Or.inl h
        · exact Or.inr (List.mem_cons_of_mem _ h)
      · rcases List.mem_cons.1 h with h | h
        · exact Or.inr (h ▸ List.mem_cons_self _ _)
        · rcases ih kv h with h | h
          · exact Or.inl h
          · exact Or.inr (List.mem_cons_of_mem _ h)

theorem map_find_mem {V : Type} (m : List (Int × V)) (k : Int) (v : V)
    (h : map_find m k = some v) : (k, v) ∈ m := by
  induction m with
  | nil => simp [map_find] at h
  | cons x rest ih =>
    obtain ⟨k1, v1⟩ := x
    unfold map_find at h
    split at h
    · rename_i hk
      simp only [Option.some.injEq] at h
      subst hk; subst h
      exact List.mem_cons_self _ _
    · exact List.mem_cons_of_mem _ (ih h)

theorem map_eraseIdx {α β : Type} (f : α → β) (l : List α) :
    ∀ i : Nat, (l.eraseIdx i).map f = (l.map f).eraseIdx i := by
  induction l with
  | nil => intro i; rfl
  | cons x rest ih =>
    intro i
    cases i with
    | zero => rfl
    | succ j => simp [List.eraseIdx, ih j]

theorem reinsert_erased {α : Type} (l : List α) :
    ∀ (i : Nat) (a : α), l[i]? = some a →
      (l.eraseIdx i).take i ++ a :: (l.eraseIdx i).drop i = l := by
  induction l with
  | nil => intro i a h; simp at h
  | cons x rest ih =>
    intro i a h
    cases i with
    | zero => simp at h; simp [h]
    | succ j =>
      simp only [List.getElem?_cons_succ] at h
      simp only [List.eraseIdx, List.take_succ_cons, List.drop_succ_cons, List.cons_append]
      rw [ih j a h]

theorem not_mem_eraseIdx_of_nodup {α : Type} (l : List α) :
    ∀ (i : Nat) (a : α), l.Nodup → l[i]? = some a → a ∉ l.eraseIdx i := by
  induction l with
  | nil => intro i a _ h; simp at h
  | cons x rest ih =>
    intro i a hnd h
    cases i with
    | zero =>
      simp at h
      subst h
      simpa using (List.nodup_cons.1 hnd).1
    | succ j =>
      simp only [List.getElem?_cons_succ] at h
      simp only [List.eraseIdx, List.mem_cons, not_or]
      refine ⟨?_, ih j a (List.nodup_cons.1 hnd).2 h⟩
      intro hax
      subst hax
      exact (List.nodup_cons.1 hnd).1 (List.getElem?_mem h)

theorem unsubscribe_all_scripts {σ : Type} (e : executor σ) (p : Nat) :
    (e.unsubscribe_all p).scripts_ = e.scripts_ := rfl

theorem load_scripts_init_step {σ : Type} (vm : LuaVM σ) (now : Int) (n i : Nat)
    (e : executor σ) (script : lua_script σ) (h : e.scripts_[i]? = some script) :
    (load_scripts_init vm now (n + 1) i e).1 =
      if script.initFunctionRef = LUA_NOREF then (load_scripts_init vm now n (i + 1) e).1
      else if (vm.pcall_init script.L script.initFunctionRef).status = true then
        (load_scripts_init vm now n (i + 1)
          { (apply_calls now ({ e with scripts_ := e.scripts_.eraseIdx i },
                { script with ts_begin_loop := now })
              (vm.pcall_init script.L script.initFunctionRef).calls).1 with
            scripts_ :=
              (apply_calls now ({ e with scripts_ := e.scripts_.eraseIdx i },
                  { script with ts_begin_loop := now })
                (vm.pcall_init script.L script.initFunctionRef).calls).1.scripts_.take i
              ++ { (apply_calls now ({ e with scripts_ := e.scripts_.eraseIdx i },
                      { script with ts_begin_loop := now })
                    (vm.pcall_init script.L script.initFunctionRef).calls).2 with
                    L := (vm.pcall_init script.L script.initFunctionRef).L }
                :: (apply_calls now ({ e with scripts_ := e.scripts_.eraseIdx i },
                      { script with ts_begin_loop := now })
                    (vm.pcall_init script.L script.initFunctionRef).calls).1.scripts_.drop i }).1
      else
        (load_scripts_init vm now n i
          ((apply_calls now ({ e with scripts_ := e.scripts_.eraseIdx i },
                { script with ts_begin_loop := now })
              (vm.pcall_init script.L script.initFunctionRef).calls).1.unsubscribe_all
            script.addr)).1 := by
  have ha := (apply_calls_addr now (vm.pcall_init script.L script.initFunctionRef).calls
    (({ e with scripts_ := e.scripts_.eraseIdx i } : executor σ),
      ({ script with ts_begin_loop := now } : lua_script σ))).2
  rw [load_scripts_init]
  simp only [h]
  by_cases hn : script.initFunctionRef = LUA_NOREF
  · simp [hn]
  · by_cases hs : (vm.pcall_init script.L script.initFunctionRef).status = true
    · simp [hn, hs]
    · simp only [hn, hs, ne_eq, not_false_eq_true, if_true, Bool.not_false, if_false,
        Bool.false_eq_true]
      rw [ha]

/-- C4, failing input. A script whose top level opens event "e", subscribes to it and
then raises is rejected (`loadScriptFromBuffer` returns false, no script is live),
yet its address 7 stays in the subscriber set of event 0; likewise a script whose
top level opens timer "t" and then raises stays in the subscriber set of timer 0. -/
theorem rejected_script_stays_subscribed :
    ((executor.make_unique (Nat × Nat)).loadScriptFromBuffer demo_vm 7
        demo_subscribe_then_fail 0).1 = false
    ∧ ((executor.make_unique (Nat × Nat)).loadScriptFromBuffer demo_vm 7
        demo_subscribe_then_fail 0).2.1.scripts_.map (fun s => s.addr) = []
    ∧ ((executor.make_unique (Nat × Nat)).loadScriptFromBuffer demo_vm 7
        demo_subscribe_then_fail 0).2.1.event_subscribers_ = [(0, [7])]
    ∧ ((executor.make_unique (Nat × Nat)).loadScriptFromBuffer demo_vm 7
        demo_timer_then_fail 0).1 = false
    ∧ ((executor.make_unique (Nat × Nat)).loadScriptFromBuffer demo_vm 7
        demo_timer_then_fail 0).2.1.scripts_.map (fun s => s.addr) = []
    ∧ ((executor.make_unique (Nat × Nat)).loadScriptFromBuffer demo_vm 7
        demo_timer_then_fail 0).2.1.timer_subscribers_ = [(0, [7])] := by
  decide

/-- C6, failing input. Script 1 is loaded from a buffer, which runs its `init` once;
a later `load_scripts` on a directory holding one file runs the `init` of script 1
again, before the `init` of the script it has just loaded; on an empty directory it
runs the `init` of script 1 and nothing else. -/
theorem load_scripts_reruns_init_of_live_scripts :
    ((executor.make_unique (Nat × Nat)).loadScriptFromBuffer demo_vm 1 demo_plain 0).1 = true
    ∧ ((executor.make_unique (Nat × Nat)).loadScriptFromBuffer demo_vm 1 demo_plain 0).2.2
        = [invocation.chunk 1, invocation.init 1 1]
    ∧ (((executor.make_unique (Nat × Nat)).loadScriptFromBuffer demo_vm 1 demo_plain
          0).2.1.load_scripts demo_vm [{ path := "plain.lua", extension := ".lua", addr := 2 }] 5).2
        = [invocation.chunk 2, invocation.init 1 1, invocation.init 2 1]
    ∧ (((executor.make_unique (Nat × Nat)).loadScriptFromBuffer demo_vm 1 demo_plain
          0).2.1.load_scripts demo_vm [] 5).2
        = [invocation.init 1 1] := by
  decide


/-! ## C11 and C12: the event registry -/

theorem map_find_map_set_self {V : Type} (m : List (Int × V)) (k : Int) (v : V) :
    map_find (map_set m k v) k = some v := by
  induction m with
  | nil => simp [map_set, map_find]
  | cons x rest ih =>
    obtain ⟨k1, v1⟩ := x
    unfold map_set
    split
    · simp [map_find]
    · split
      · simp [map_find]
      · rename_i h1 h2
        have : ¬ k1 = k := fun h => h2 h.symm
        simp [map_find, this, ih]

theorem map_find_map_set_other {V : Type} (m : List (Int × V)) (k k2 : Int) (v : V)
    (hne : k2 ≠ k) : map_find (map_set m k v) k2 = map_find m k2 := by
  induction m with
  | nil =>
    have : ¬ k = k2 := fun h => hne h.symm
    simp [map_set, map_find, this]
  | cons x rest ih =>
    obtain ⟨k1, v1⟩ := x
    have hk : ¬ k = k2 := fun h => hne h.symm
    unfold map_set
    split
    · simp [map_find, hk]
    · split
      · rename_i h1 h2
        subst h2
        simp [map_find, hk]
      · simp only [map_find, ih]

theorem event_create_periodic_eq {σ : Type} (e : executor σ) (name : String) (duration now : Int) :
    e.event_create_periodic name duration now
      = match map_find e.periodic_event_timers_ (e.event_open name).2 with
        | some _ => Except.error ("periodic event already defined: " ++ name, (e.event_open name).1)
        | none =>
          Except.ok
            ({ (e.event_open name).1 with
                periodic_event_timers_ :=
                  map_set e.periodic_event_timers_ (e.event_open name).2
                    (periodic_timer name duration now) },
              (e.event_open name).2) := by
  unfold executor.event_create_periodic executor.event_open
  by_cases hn : name = ""
  · simp only [hn, if_true]
    have : ((e.eventnames_ ++ [""]).length : Int) - 1 = (e.eventnames_.length : Int) := by simp
    rw [this]
    rfl
  · simp only [hn, if_false]
    cases hf : find_index name e.eventnames_ with
    | some i => rfl
    | none =>
      simp only []
      have : ((e.eventnames_ ++ [name]).length : Int) - 1 = (e.eventnames_.length : Int) := by simp
      rw [this]
      rfl

theorem event_open_rest {σ : Type} (e : executor σ) (name : String) :
    (e.event_open name).1.periodic_event_timers_ = e.periodic_event_timers_
    ∧ (e.event_open name).1.event_subscribers_ = e.event_subscribers_
    ∧ (e.event_open name).1.timers_ = e.timers_
    ∧ (e.event_open name).1.timer_subscribers_ = e.timer_subscribers_
    ∧ (e.event_open name).1.scripts_ = e.scripts_
    ∧ (e.event_open name).1.total_ops_ = e.total_ops_ := by
  unfold executor.event_open
  split
  · exact ⟨rfl, rfl, rfl, rfl, rfl, rfl⟩
  · split <;> exact ⟨rfl, rfl, rfl, rfl, rfl, rfl⟩

theorem after_create_periodic_names {σ : Type} (e : executor σ) (name : String)
    (duration now : Int) :
    (after_create_periodic (e.event_create_periodic name duration now)).eventnames_
      = (e.event_open name).1.eventnames_ := by
  rw [event_create_periodic_eq]
  split <;> rfl

theorem getElem?_append_prefix {α : Type} (l suffix : List α) (i : Nat) (h : i < l.length) :
    (l ++ suffix)[i]? = l[i]? := by
  rw [List.getElem?_append_left h]

/-- C11. For every executor state and every call of `event_open` or
`event_create_periodic` (returning or throwing), the number of events does not
decrease, and for every id that was valid before the call the name stored at that id
is the same after the call. -/
theorem event_ids_stable {σ : Type} (e : executor σ) (name : String) (duration now : Int) :
    (e.eventnames_.length ≤ (e.event_open name).1.eventnames_.length
      ∧ ∀ i : Nat, i < e.eventnames_.length →
          (e.event_open name).1.eventnames_[i]? = e.eventnames_[i]?)
    ∧ (e.eventnames_.length
          ≤ (after_create_periodic (e.event_create_periodic name duration now)).eventnames_.length
      ∧ ∀ i : Nat, i < e.eventnames_.length →
          (after_create_periodic (e.event_create_periodic name duration now)).eventnames_[i]?
            = e.eventnames_[i]?) := by
  obtain ⟨suffix, hs⟩ := event_open_names e name
  have h1 : e.eventnames_.length ≤ (e.event_open name).1.eventnames_.length
      ∧ ∀ i : Nat, i < e.eventnames_.length →
          (e.event_open name).1.eventnames_[i]? = e.eventnames_[i]? := by
    rw [hs]
    exact ⟨by simp, fun i hi => getElem?_append_prefix _ _ i hi⟩
  refine ⟨h1, ?_⟩
  rw [after_create_periodic_names]
  exact h1

/-- C11, at an executor with two events: opening a new name and declaring a second
periodic timer for "tick" (which throws) both leave event 0 named "tick". -/
theorem event_ids_stable_witness :
    0 < demo_executor_periodic.eventnames_.length
    ∧ (demo_executor_periodic.event_open "new").1.eventnames_[0]?
        = demo_executor_periodic.eventnames_[0]?
    ∧ (after_create_periodic
        (demo_executor_periodic.event_create_periodic "tick" 10 7)).eventnames_[0]?
        = demo_executor_periodic.eventnames_[0]? :=
  ⟨by decide, (event_ids_stable demo_executor_periodic "new" 0 0).1.2 0 (by decide),
   (event_ids_stable demo_executor_periodic "tick" 10 7).2.2 0 (by decide)⟩


theorem find_index_getElem {name : String} {l : List String} {i : Nat}
    (h : find_index name l = some i) : l[i]? = some name := by
  induction l generalizing i with
  | nil => simp [find_index] at h
  | cons x rest ih =>
    unfold find_index at h
    split at h
    · rename_i hx
      simp only [Option.some.injEq] at h
      subst h; subst hx
      simp
    · cases hr : find_index name rest with
      | none => simp [hr] at h
      | some j =>
        simp only [hr, Option.map_some', Option.some.injEq] at h
        subst h
        simpa using ih hr

theorem find_index_lt {name : String} {l : List String} {i : Nat}
    (h : find_index name l = some i) : i < l.length := by
  have := find_index_getElem h
  exact (List.getElem?_eq_some.1 this).1

theorem event_open_getElem {σ : Type} (e : executor σ) (name : String) :
    0 ≤ (e.event_open name).2
    ∧ (e.event_open name).2 < ((e.event_open name).1.eventnames_.length : Int)
    ∧ (e.event_open name).1.eventnames_[(e.event_open name).2.toNat]? = some name := by
  unfold executor.event_open
  by_cases hn : name = ""
  · subst hn
    simp only [if_true]
    have : ((e.eventnames_ ++ [""]).length : Int) - 1 = ((e.eventnames_.length : Nat) : Int) := by
      simp
    rw [this]
    refine ⟨by omega, by simp, ?_⟩
    simp
  · simp only [hn, if_false]
    cases hf : find_index name e.eventnames_ with
    | some i =>
      simp only []
      refine ⟨by omega, by exact_mod_cast find_index_lt hf, ?_⟩
      simpa using find_index_getElem hf
    | none =>
      simp only []
      have : ((e.eventnames_ ++ [name]).length : Int) - 1 = ((e.eventnames_.length : Nat) : Int) := by
        simp
      rw [this]
      refine ⟨by omega, by simp, ?_⟩
      simp

theorem event_open_new_id {σ : Type} (e : executor σ) (name : String) :
    (e.event_open name).1 = e ∨ (e.event_open name).2 = (e.eventnames_.length : Int) := by
  unfold executor.event_open
  split
  · right; simp
  · split
    · left; rfl
    · right; simp

/-- C12. In a state whose periodic-timer keys are event ids: `event_create_periodic`
throws exactly when the event that `name` interns to (the id `event_open(name)`
returns) already has a periodic timer, and then the event names and the
periodic-timer map are as before. Otherwise it returns that id, the event names are
those `event_open(name)` leaves, the id carries the name, the map holds for that id
a running PERIODIC timer named `name` with the given duration and start `now`, every
other key of the map is unchanged, and the keys are still event ids. After a
successful call for a non-empty name, every further call for that name throws. -/
theorem create_periodic_already_defined {σ : Type} (e : executor σ) (name : String)
    (duration now : Int) (hinv : periodic_keys_valid e) :
    ((∃ x, e.event_create_periodic name duration now = Except.error x)
        ↔ (map_find e.periodic_event_timers_ (e.event_open name).2).isSome = true)
    ∧ (∀ x, e.event_create_periodic name duration now = Except.error x →
        x.2.eventnames_ = e.eventnames_
        ∧ x.2.periodic_event_timers_ = e.periodic_event_timers_)
    ∧ (∀ (e1 : executor σ) (id : Int),
        e.event_create_periodic name duration now = Except.ok (e1, id) →
        id = (e.event_open name).2
        ∧ e1.eventnames_ = (e.event_open name).1.eventnames_
        ∧ e1.eventnames_[id.toNat]? = some name
        ∧ map_find e1.periodic_event_timers_ id = some (periodic_timer name duration now)
        ∧ (∀ k : Int, k ≠ id →
            map_find e1.periodic_event_timers_ k = map_find e.periodic_event_timers_ k)
        ∧ periodic_keys_valid e1)
    ∧ (name ≠ "" → ∀ (e1 : executor σ) (id : Int),
        e.event_create_periodic name duration now = Except.ok (e1, id) →
        ∀ (duration2 now2 : Int), ∃ x, e1.event_create_periodic name duration2 now2 = Except.error x) := by
  have hopen := event_open_getElem e name
  have hrest := event_open_rest e name
  have hok : ∀ (e1 : executor σ) (id : Int),
      e.event_create_periodic name duration now = Except.ok (e1, id) →
      map_find e.periodic_event_timers_ (e.event_open name).2 = none
      ∧ id = (e.event_open name).2
      ∧ e1 = { (e.event_open name).1 with
                periodic_event_timers_ :=
                  map_set e.periodic_event_timers_ (e.event_open name).2
                    (periodic_timer name duration now) } := by
    intro e1 id h
    rw [event_create_periodic_eq] at h
    cases hf : map_find e.periodic_event_timers_ (e.event_open name).2 with
    | some t => simp [hf] at h
    | none =>
      simp only [hf, Except.ok.injEq, Prod.mk.injEq] at h
      exact ⟨rfl, h.2.symm, h.1.symm⟩
  refine ⟨?_, ?_, ?_, ?_⟩
  · rw [event_create_periodic_eq]
    cases hf : map_find e.periodic_event_timers_ (e.event_open name).2 with
    | some t => simp
    | none => simp
  · intro x h
    rw [event_create_periodic_eq] at h
    cases hf : map_find e.periodic_event_timers_ (e.event_open name).2 with
    | none => simp [hf] at h
    | some t =>
      simp only [hf, Except.error.injEq] at h
      subst h
      have hlt := (hinv _ t hf).2
      rcases event_open_new_id e name with h1 | h1
      · simp only [h1]
        exact ⟨trivial, trivial⟩
      · rw [h1] at hlt
        exact absurd hlt (lt_irrefl _)
  · intro e1 id h
    obtain ⟨hnone, hid, he1⟩ := hok e1 id h
    subst hid
    subst he1
    refine ⟨rfl, rfl, hopen.2.2, map_find_map_set_self _ _ _,
      fun k hk => map_find_map_set_other _ _ _ _ hk, ?_⟩
    intro k t hk
    by_cases hkk : k = (e.event_open name).2
    · subst hkk
      exact ⟨hopen.1, hopen.2.1⟩
    · have hk2 : map_find e.periodic_event_timers_ k = some t := by
        rw [← map_find_map_set_other _ _ _ _ hkk]
        exact hk
      obtain ⟨suffix, hs⟩ := event_open_names e name
      have := hinv k t hk2
      refine ⟨this.1, lt_of_lt_of_le this.2 ?_⟩
      show (e.eventnames_.length : Int) ≤ ((e.event_open name).1.eventnames_.length : Int)
      rw [hs]
      simp
  · intro hne e1 id h duration2 now2
    obtain ⟨hnone, hid, he1⟩ := hok e1 id h
    obtain ⟨i, hi, hii⟩ := event_open_found e name hne
    have hnames : e1.eventnames_ = (e.event_open name).1.eventnames_ := by
      rw [he1]
    have hop : e1.event_open name = (e1, (i : Int)) :=
      event_open_of_found e1 name hne i (by rw [hnames]; exact hi)
    have hfind : map_find e1.periodic_event_timers_ (i : Int)
        = some (periodic_timer name duration now) := by
      rw [he1, ← hii]
      exact map_find_map_set_self _ _ _
    rw [event_create_periodic_eq, hop]
    simp only [hfind]
    exact ⟨_, rfl⟩

theorem demo_executor_periodic_valid : periodic_keys_valid demo_executor_periodic := by
  intro k t h
  simp only [demo_executor_periodic, map_find] at h
  split at h
  · rename_i hk
    subst hk
    decide
  · simp at h

/-- C12, at an executor where "tick" owns a periodic timer and "other" does not. -/
theorem create_periodic_already_defined_witness :
    periodic_keys_valid demo_executor_periodic
    ∧ (∃ x, demo_executor_periodic.event_create_periodic "tick" 10 7 = Except.error x)
    ∧ (∀ x, demo_executor_periodic.event_create_periodic "tick" 10 7 = Except.error x →
        x.2.eventnames_ = demo_executor_periodic.eventnames_
        ∧ x.2.periodic_event_timers_ = demo_executor_periodic.periodic_event_timers_)
    ∧ "other" ≠ ""
    ∧ demo_executor_periodic.event_create_periodic "other" 20 7
        = Except.ok
            ({ demo_executor_periodic with
                periodic_event_timers_ :=
                  [(0, periodic_timer "tick" 50 0), (1, periodic_timer "other" 20 7)] }, 1)
    ∧ (∃ x, ({ demo_executor_periodic with
                periodic_event_timers_ :=
                  [(0, periodic_timer "tick" 50 0), (1, periodic_timer "other" 20 7)] }
              : executor (Nat × Nat)).event_create_periodic "other" 5 9 = Except.error x) :=
  ⟨demo_executor_periodic_valid,
   (create_periodic_already_defined demo_executor_periodic "tick" 10 7
      demo_executor_periodic_valid).1.2 (by decide),
   (create_periodic_already_defined demo_executor_periodic "tick" 10 7
      demo_executor_periodic_valid).2.1,
   by decide,
   rfl,
   (create_periodic_already_defined demo_executor_periodic "other" 20 7
      demo_executor_periodic_valid).2.2.2 (by decide) _ 1 rfl 5 9⟩


/-! ## C13 and C14: range checks of the timer and name bindings -/

/-- C13, failing input. The id 4294967296 is out of range for an executor with one
event and for one with three timers, yet `event.name` and `timer.name` do not raise:
the id is first stored in an `int`, where it becomes 0, and the name of event 0,
respectively "<noname>" for the unnamed timer 0, is returned; likewise -4294967295
becomes 1 and `timer.name` returns the name of timer 1. What decides the error is
the converted id: the bindings raise exactly when it is out of range. -/
theorem name_lookup_truncates_id :
    (_lua_event_name demo_executor_timers demo_script 4294967296).ret
        = Except.ok (lua_value.string "tick")
    ∧ (_lua_timer_name demo_executor_timers demo_script 4294967296).ret
        = Except.ok (lua_value.string "<noname>")
    ∧ (_lua_timer_name demo_executor_timers demo_script (-4294967295)).ret
        = Except.ok (lua_value.string "t")
    ∧ (∀ (e : executor (Nat × Nat)) (script : lua_script (Nat × Nat)) (id : Int),
        (raised (_lua_event_name e script id).ret = true
          ↔ (to_int id < 0 ∨ to_int id ≥ (e.eventnames_.length : Int)))
        ∧ (raised (_lua_timer_name e script id).ret = true
          ↔ (to_int id < 0 ∨ to_int id ≥ (e.timers_.length : Int)))) := by
  refine ⟨rfl, rfl, rfl, ?_⟩
  intro e script id
  constructor
  · unfold _lua_event_name
    dsimp only
    split
    · rename_i h; simp [raised, h]
    · rename_i h; simp only [raised, Bool.false_eq_true, false_iff]; exact h
  · unfold _lua_timer_name
    dsimp only
    split
    · rename_i h; simp [raised, h]
    · rename_i h
      have hlt : (to_int id).toNat < e.timers_.length := by omega
      obtain ⟨t, ht⟩ : ∃ t, e.timers_[(to_int id).toNat]? = some t :=
        ⟨_, List.getElem?_eq_getElem hlt⟩
      rw [ht]
      simp only [raised, Bool.false_eq_true, false_iff]
      exact h

theorem update_timer_spec (timers : List timer) (ix : Int) (f : timer → timer) :
    (update_timer timers ix f).length = timers.length
    ∧ (update_timer timers ix f)[ix.toNat]? = (timers[ix.toNat]?).map f
    ∧ ∀ j : Nat, j ≠ ix.toNat → (update_timer timers ix f)[j]? = timers[j]? := by
  unfold update_timer
  cases h : timers[ix.toNat]? with
  | none => simp [h]
  | some t =>
    have hlt : ix.toNat < timers.length := (List.getElem?_eq_some.1 h).1
    refine ⟨by simp, by simp [hlt], ?_⟩
    intro j hj
    simp [List.getElem?_set_ne (Ne.symm hj)]

/-- C14. Each of `timer.elapse_after(ix, d)`, `timer.stop(ix)`, `timer.is_active(ix)`
and `timer.remaining(ix)` raises an error exactly when `ix < 0` or `ix` is at least
the number of timers, and then leaves the executor and the script as they are. For
`ix` in range, `elapse_after` and `stop` apply the timer operation to timer `ix`,
keep the number of timers and every other timer and change nothing else in the
executor; `is_active` and `remaining` change nothing and return what the timer
method returns for timer `ix`. -/
theorem timer_bindings_range_checked {σ : Type} (e : executor σ) (script : lua_script σ)
    (ix duration now : Int) :
    ((raised (_lua_timer_elapse_after e script ix duration now).ret = true
        ↔ (ix < 0 ∨ ix ≥ (e.timers_.length : Int)))
      ∧ (raised (_lua_timer_stop e script ix).ret = true
        ↔ (ix < 0 ∨ ix ≥ (e.timers_.length : Int)))
      ∧ (raised (_lua_timer_is_active e script ix now).ret = true
        ↔ (ix < 0 ∨ ix ≥ (e.timers_.length : Int)))
      ∧ (raised (_lua_timer_remaining e script ix now).ret = true
        ↔ (ix < 0 ∨ ix ≥ (e.timers_.length : Int))))
    ∧ ((ix < 0 ∨ ix ≥ (e.timers_.length : Int)) →
        (_lua_timer_elapse_after e script ix duration now).e = e
        ∧ (_lua_timer_elapse_after e script ix duration now).script = script
        ∧ (_lua_timer_stop e script ix).e = e
        ∧ (_lua_timer_stop e script ix).script = script
        ∧ (_lua_timer_is_active e script ix now).e = e
        ∧ (_lua_timer_is_active e script ix now).script = script
        ∧ (_lua_timer_remaining e script ix now).e = e
        ∧ (_lua_timer_remaining e script ix now).script = script)
    ∧ (0 ≤ ix → ix < (e.timers_.length : Int) →
        ((_lua_timer_elapse_after e script ix duration now).e
            = { e with timers_ := (_lua_timer_elapse_after e script ix duration now).e.timers_ }
          ∧ (_lua_timer_elapse_after e script ix duration now).script = script
          ∧ (_lua_timer_elapse_after e script ix duration now).e.timers_.length = e.timers_.length
          ∧ (_lua_timer_elapse_after e script ix duration now).e.timers_[ix.toNat]?
              = (e.timers_[ix.toNat]?).map (fun t => t.elapse_after duration now)
          ∧ ∀ j : Nat, j ≠ ix.toNat →
              (_lua_timer_elapse_after e script ix duration now).e.timers_[j]? = e.timers_[j]?)
        ∧ ((_lua_timer_stop e script ix).e
            = { e with timers_ := (_lua_timer_stop e script ix).e.timers_ }
          ∧ (_lua_timer_stop e script ix).script = script
          ∧ (_lua_timer_stop e script ix).e.timers_.length = e.timers_.length
          ∧ (_lua_timer_stop e script ix).e.timers_[ix.toNat]?
              = (e.timers_[ix.toNat]?).map timer.stop
          ∧ ∀ j : Nat, j ≠ ix.toNat →
              (_lua_timer_stop e script ix).e.timers_[j]? = e.timers_[j]?)
        ∧ ((_lua_timer_is_active e script ix now).e = e
          ∧ (_lua_timer_is_active e script ix now).script = script
          ∧ ∃ t, e.timers_[ix.toNat]? = some t
              ∧ (_lua_timer_is_active e script ix now).ret
                  = Except.ok (lua_value.boolean (t.is_active now)))
        ∧ ((_lua_timer_remaining e script ix now).e = e
          ∧ (_lua_timer_remaining e script ix now).script = script
          ∧ ∃ t, e.timers_[ix.toNat]? = some t
              ∧ (_lua_timer_remaining e script ix now).ret
                  = Except.ok (lua_value.integer (t.remaining now)))) := by
  by_cases hr : ix < 0 ∨ ix ≥ (e.timers_.length : Int)
  · refine ⟨?_, ?_, ?_⟩
    · simp [_lua_timer_elapse_after, _lua_timer_stop, _lua_timer_is_active,
        _lua_timer_remaining, hr, raised]
    · intro _
      simp [_lua_timer_elapse_after, _lua_timer_stop, _lua_timer_is_active,
        _lua_timer_remaining, hr]
    · intro h0 h1
      rcases hr with h | h
      · omega
      · omega
  · have h0 : 0 ≤ ix := by omega
    have h1 : ix < (e.timers_.length : Int) := by omega
    have hlt : ix.toNat < e.timers_.length := by omega
    obtain ⟨t, hget⟩ : ∃ t, e.timers_[ix.toNat]? = some t :=
      ⟨_, List.getElem?_eq_getElem hlt⟩
    refine ⟨?_, fun h => absurd h hr, fun _ _ => ?_⟩
    · simp [_lua_timer_elapse_after, _lua_timer_stop, _lua_timer_is_active,
        _lua_timer_remaining, hr, raised, hget]
    · have q1 : _lua_timer_elapse_after e script ix duration now
          = { e := { e with timers_ :=
                      update_timer e.timers_ ix (fun t => t.elapse_after duration now) },
              script := script, ret := Except.ok lua_value.nothing } := by
        simp [_lua_timer_elapse_after, hr]
      have q2 : _lua_timer_stop e script ix
          = { e := { e with timers_ := update_timer e.timers_ ix timer.stop },
              script := script, ret := Except.ok lua_value.nothing } := by
        simp [_lua_timer_stop, hr]
      have q3 : _lua_timer_is_active e script ix now
          = { e := e, script := script,
              ret := Except.ok (lua_value.boolean (t.is_active now)) } := by
        simp [_lua_timer_is_active, hr, hget]
      have q4 : _lua_timer_remaining e script ix now
          = { e := e, script := script,
              ret := Except.ok (lua_value.integer (t.remaining now)) } := by
        simp [_lua_timer_remaining, hr, hget]
      rw [q1, q2, q3, q4]
      have hu1 := update_timer_spec e.timers_ ix (fun t => t.elapse_after duration now)
      have hu2 := update_timer_spec e.timers_ ix timer.stop
      exact ⟨⟨rfl, rfl, hu1.1, hu1.2.1, hu1.2.2⟩, ⟨rfl, rfl, hu2.1, hu2.2.1, hu2.2.2⟩,
        ⟨rfl, rfl, _, hget, rfl⟩, ⟨rfl, rfl, _, hget, rfl⟩⟩

/-- C14, at an executor with three timers: index 3 and index -1 are refused, index 1
is served and only timer 1 changes. -/
theorem timer_bindings_range_checked_witness :
    ((3 : Int) < 0 ∨ (3 : Int) ≥ (demo_executor_timers.timers_.length : Int))
    ∧ (_lua_timer_stop demo_executor_timers demo_script 3).e = demo_executor_timers
    ∧ raised (_lua_timer_elapse_after demo_executor_timers demo_script (-1) 5 0).ret = true
    ∧ (0 : Int) ≤ 1 ∧ (1 : Int) < (demo_executor_timers.timers_.length : Int)
    ∧ (_lua_timer_stop demo_executor_timers demo_script 1).e.timers_[(1 : Int).toNat]?
        = (demo_executor_timers.timers_[(1 : Int).toNat]?).map timer.stop
    ∧ (_lua_timer_stop demo_executor_timers demo_script 1).e.timers_
        = [timer.mk_timer "" timer_type_t.ONESHOT 0,
           { name_ := "t", type_ := timer_type_t.ONESHOT, start_ := 0, duration_ := 100,
             running_ := false },
           timer.mk_timer "" timer_type_t.ONESHOT 0] :=
  ⟨by decide,
   ((timer_bindings_range_checked demo_executor_timers demo_script 3 0 0).2.1 (by decide)).2.2.1,
   ((timer_bindings_range_checked demo_executor_timers demo_script (-1) 5 0).1.1).2 (by decide),
   by decide, by decide,
   ((timer_bindings_range_checked demo_executor_timers demo_script 1 0 0).2.2
      (by decide) (by decide)).2.1.2.2.2.1,
   by decide⟩


/-! ## C15: ids that are out of range -/

/-- C15, refuted as stated. On an executor with two events and no timer, the id 5 is
out of range for events and for timers, yet `event.publish(5)`,
`timer.subscribe(5, f)` and `timer.is_elapsed(5)` return without an error, and
`timer.subscribe` has stored the handler in the script's timer handler map. -/
theorem out_of_range_ids_not_reported :
    ((5 : Int) < 0 ∨ (5 : Int) ≥ (demo_executor.eventnames_.length : Int))
    ∧ ((5 : Int) < 0 ∨ (5 : Int) ≥ (demo_executor.timers_.length : Int))
    ∧ raised (_lua_event_publish demo_executor demo_script 5).ret = false
    ∧ raised (_lua_timer_subscribe demo_executor demo_script 5 77).ret = false
    ∧ (_lua_timer_subscribe demo_executor demo_script 5 77).script.timer_handlers
        = [(2, 12), (3, 14), (5, 77)]
    ∧ demo_script.timer_handlers = [(2, 12), (3, 14)]
    ∧ raised (_lua_timer_is_elapsed demo_executor demo_script 5).ret = false := by
  decide

theorem map_deliver_event_of_no_subscribers {σ : Type} (m : List (Int × List Nat))
    (eventid : Int) (h : subscribers_of m eventid = []) (l : List (lua_script σ)) :
    l.map (deliver_event m eventid) = l := by
  have : ∀ s : lua_script σ, deliver_event m eventid s = s := by
    intro s
    rw [deliver_event_eq, h]
    simp
  have hfun : deliver_event m eventid = fun s : lua_script σ => s := funext this
  rw [hfun]
  exact List.map_id l

theorem deliver_event_frame {σ : Type} (m : List (Int × List Nat)) (eventid : Int)
    (s : lua_script σ) :
    (deliver_event m eventid s).event_handlers = s.event_handlers
    ∧ (deliver_event m eventid s).timer_handlers = s.timer_handlers
    ∧ (deliver_event m eventid s).elapsed_timers = s.elapsed_timers := by
  rw [deliver_event_eq]
  split <;> exact ⟨rfl, rfl, rfl⟩

/-- C15, amended. `event.subscribe(id, f)` raises an error for every id outside
[0, number of events) and then leaves the executor and the script unchanged. The
other three bindings make no range check and never raise. `event.publish(id)`, for
an id that fits in an `int`, leaves the subscription tables, the handler maps and the
pending timer list as they are, and changes nothing at all when the id has no
subscriber. `timer.subscribe(id, f)`, for an id that fits in an `int`, stores the
handler under that id in the script's timer handler map and changes nothing else.
`timer.is_elapsed(id)` leaves the executor unchanged and, when the id is not pending,
returns false and leaves the script unchanged. -/
theorem unknown_id_reporting {σ : Type} (e : executor σ) (script : lua_script σ)
    (id funcRef : Int) :
    ((id < 0 ∨ id ≥ (e.eventnames_.length : Int)) →
        raised (_lua_event_subscribe e script id funcRef).ret = true
        ∧ (_lua_event_subscribe e script id funcRef).e = e
        ∧ (_lua_event_subscribe e script id funcRef).script = script)
    ∧ (to_int id = id →
        raised (_lua_event_publish e script id).ret = false
        ∧ (_lua_event_publish e script id).e.event_subscribers_ = e.event_subscribers_
        ∧ (_lua_event_publish e script id).e.timer_subscribers_ = e.timer_subscribers_
        ∧ (_lua_event_publish e script id).script.event_handlers = script.event_handlers
        ∧ (_lua_event_publish e script id).script.timer_handlers = script.timer_handlers
        ∧ (_lua_event_publish e script id).script.elapsed_timers = script.elapsed_timers
        ∧ (subscribers_of e.event_subscribers_ id = [] →
            (_lua_event_publish e script id).e = e
            ∧ (_lua_event_publish e script id).script = script))
    ∧ (to_int id = id →
        raised (_lua_timer_subscribe e script id funcRef).ret = false
        ∧ (_lua_timer_subscribe e script id funcRef).e = e
        ∧ (_lua_timer_subscribe e script id funcRef).script
            = { script with timer_handlers := map_set script.timer_handlers id funcRef })
    ∧ (raised (_lua_timer_is_elapsed e script id).ret = false
        ∧ (_lua_timer_is_elapsed e script id).e = e
        ∧ (id ∉ script.elapsed_timers →
            (_lua_timer_is_elapsed e script id).script = script
            ∧ (_lua_timer_is_elapsed e script id).ret = Except.ok (lua_value.boolean false))) := by
  refine ⟨?_, ?_, ?_, ?_⟩
  · intro h
    simp [_lua_event_subscribe, h, raised]
  · intro hfit
    have hf := deliver_event_frame e.event_subscribers_ id script
    simp only [_lua_event_publish, hfit, raised]
    refine ⟨trivial, rfl, rfl, hf.1, hf.2.1, hf.2.2, ?_⟩
    intro hempty
    constructor
    · unfold executor.event_publish
      rw [map_deliver_event_of_no_subscribers _ _ hempty]
    · rw [deliver_event_eq, hempty]
      simp
  · intro hfit
    simp [_lua_timer_subscribe, hfit, raised]
  · unfold _lua_timer_is_elapsed
    split
    · rename_i h
      exact ⟨rfl, rfl, fun hn => absurd h hn⟩
    · exact ⟨rfl, rfl, fun _ => ⟨rfl, rfl⟩⟩

/-- C15 amended, at an executor with two events and no timer. -/
theorem unknown_id_reporting_witness :
    ((5 : Int) < 0 ∨ (5 : Int) ≥ (demo_executor.eventnames_.length : Int))
    ∧ raised (_lua_event_subscribe demo_executor demo_script 5 77).ret = true
    ∧ to_int 5 = 5
    ∧ subscribers_of demo_executor.event_subscribers_ 5 = []
    ∧ (_lua_event_publish demo_executor demo_script 5).e = demo_executor
    ∧ (_lua_timer_subscribe demo_executor demo_script 5 77).e = demo_executor
    ∧ (5 : Int) ∉ demo_script.elapsed_timers
    ∧ (_lua_timer_is_elapsed demo_executor demo_script 5).ret
        = Except.ok (lua_value.boolean false) :=
  ⟨by decide,
   ((unknown_id_reporting demo_executor demo_script 5 77).1 (by decide)).1,
   by decide, by decide,
   (((unknown_id_reporting demo_executor demo_script 5 77).2.1 (by decide)).2.2.2.2.2.2
      (by decide)).1,
   ((unknown_id_reporting demo_executor demo_script 5 77).2.2.1 (by decide)).2.1,
   by decide,
   ((unknown_id_reporting demo_executor demo_script 5 77).2.2.2.2.2 (by decide)).2⟩


/-! ## C16 and C17: opening timers -/

theorem find_index_first {name : String} {l : List String} {i : Nat}
    (h : find_index name l = some i) : ∀ j : Nat, j < i → l[j]? ≠ some name := by
  induction l generalizing i with
  | nil => simp [find_index] at h
  | cons x rest ih =>
    unfold find_index at h
    split at h
    · simp only [Option.some.injEq] at h
      subst h
      intro j hj
      omega
    · rename_i hx
      cases hr : find_index name rest with
      | none => simp [hr] at h
      | some k =>
        simp only [hr, Option.map_some', Option.some.injEq] at h
        subst h
        intro j hj
        cases j with
        | zero =>
          simp only [List.getElem?_cons_zero, ne_eq, Option.some.injEq]
          exact hx
        | succ j2 =>
          simp only [List.getElem?_cons_succ]
          exact ih hr j2 (by omega)

theorem mem_set_insert_self (s : List Nat) (p : Nat) : p ∈ set_insert s p := by
  unfold set_insert
  split
  · assumption
  · simp

theorem mem_set_insert (s : List Nat) (p q : Nat) : q ∈ set_insert s p ↔ q ∈ s ∨ q = p := by
  unfold set_insert
  split
  · rename_i h
    constructor
    · exact Or.inl
    · rintro (h1 | h1)
      · exact h1
      · exact h1 ▸ h
  · simp

theorem add_timer_subscription_spec {σ : Type} (e : executor σ) (id : Int) (p : Nat) :
    (e.add_timer_subscription id p).timers_ = e.timers_
    ∧ p ∈ subscribers_of (e.add_timer_subscription id p).timer_subscribers_ id
    ∧ (∀ (q : Nat) (k : Int),
        q ∈ subscribers_of (e.add_timer_subscription id p).timer_subscribers_ k
          ↔ (q ∈ subscribers_of e.timer_subscribers_ k ∨ (q = p ∧ k = id))) := by
  refine ⟨rfl, ?_, ?_⟩
  · simp only [executor.add_timer_subscription, subscribers_of, map_find_map_set_self,
      Option.getD_some]
    exact mem_set_insert_self _ _
  · intro q k
    by_cases hk : k = id
    · subst hk
      simp only [executor.add_timer_subscription, subscribers_of, map_find_map_set_self,
        Option.getD_some, mem_set_insert]
      simp
    · simp only [executor.add_timer_subscription, subscribers_of,
        map_find_map_set_other _ _ _ _ hk]
      simp [hk]

theorem timer_find_or_create_sharable_spec {σ : Type} (e : executor σ) (name : String)
    (now : Int) :
    (∀ i : Nat, find_index name (e.timers_.map timer.name) = some i →
        e.timer_find_or_create_sharable name now = (e, (i : Int)))
    ∧ (find_index name (e.timers_.map timer.name) = none →
        e.timer_find_or_create_sharable name now
          = ({ e with timers_ := e.timers_ ++ [timer.mk_timer name timer_type_t.ONESHOT now] },
              (e.timers_.length : Int))) := by
  unfold executor.timer_find_or_create_sharable
  constructor
  · intro i h
    simp [h]
  · intro h
    simp [h]

theorem find_index_timers_append_self (timers : List timer) (name : String) (now : Int)
    (h : find_index name (timers.map timer.name) = none) :
    find_index name ((timers ++ [timer.mk_timer name timer_type_t.ONESHOT now]).map timer.name)
      = some timers.length := by
  have := find_index_append_self h
  simpa [timer.name, timer.mk_timer] using this

theorem c_str_of_no_nul (x : String) (h : Char.ofNat 0 ∉ x.data) : c_str x = x := by
  unfold c_str
  have : x.data.takeWhile (fun c => decide (c ≠ Char.ofNat 0)) = x.data := by
    rw [List.takeWhile_eq_self_iff]
    intro c hc
    have : c ≠ Char.ofNat 0 := fun hcz => h (hcz ▸ hc)
    simpa using this
  rw [this]

/-- C16, as claimed, fails. The argument of `timer.open` is read as a C string, which
ends at the first NUL character. The name made of a NUL and an "x" is not empty, yet
`timer.open` of it creates a private timer at every call: two calls return the ids 0
and 1 and leave two unnamed timers. The name "a", NUL, "b" is stored as "a", so that
`timer.open("a")` returns the same id. -/
theorem timer_open_name_ends_at_nul :
    String.mk [Char.ofNat 0, 'x'] ≠ ""
    ∧ (_lua_timer_open (executor.make_unique (Nat × Nat)) demo_script
        (some (String.mk [Char.ofNat 0, 'x'])) 0).ret = Except.ok (lua_value.integer 0)
    ∧ (_lua_timer_open
        (_lua_timer_open (executor.make_unique (Nat × Nat)) demo_script
          (some (String.mk [Char.ofNat 0, 'x'])) 0).e demo_script
        (some (String.mk [Char.ofNat 0, 'x'])) 0).ret = Except.ok (lua_value.integer 1)
    ∧ (_lua_timer_open
        (_lua_timer_open (executor.make_unique (Nat × Nat)) demo_script
          (some (String.mk [Char.ofNat 0, 'x'])) 0).e demo_script
        (some (String.mk [Char.ofNat 0, 'x'])) 0).e.timers_.map timer.name = ["", ""]
    ∧ String.mk ['a', Char.ofNat 0, 'b'] ≠ "a"
    ∧ (_lua_timer_open (executor.make_unique (Nat × Nat)) demo_script
        (some (String.mk ['a', Char.ofNat 0, 'b'])) 0).e.timers_.map timer.name = ["a"]
    ∧ (_lua_timer_open
        (_lua_timer_open (executor.make_unique (Nat × Nat)) demo_script
          (some (String.mk ['a', Char.ofNat 0, 'b'])) 0).e demo_script (some "a") 0).ret
        = Except.ok (lua_value.integer 0) := by
  refine ⟨by decide, rfl, rfl, by decide, by decide, by decide, rfl⟩

/-- C16, amended. `timer.open` reads its argument as a C string, the characters before
the first NUL (the argument itself when it holds no NUL). `timer.open(nil)` and
`timer.open(x)` for `x` whose C string is empty append a stopped, unnamed ONESHOT
timer and return its index, the number of timers before the call. For `x` whose
C string `n` is not empty, `timer.open(x)` returns the lowest index of a timer named
`n` and leaves the timer list as it is when such a timer exists, and otherwise
appends a stopped timer named `n` and returns its index; any further `timer.open(x)`,
by any script, returns the same id and leaves the timer list unchanged. In every
case the returned id is an integer, the calling script is in the subscriber set of
that id afterwards, the subscriber sets are otherwise as before, and the old timers
are a prefix of the new timer list. -/
theorem timer_open_private_or_shared {σ : Type} (e : executor σ) (script : lua_script σ)
    (now : Int) :
    (∀ x : String, Char.ofNat 0 ∉ x.data → c_str x = x)
    ∧ (∀ timerName : Option String,
        (timerName = none ∨ ∃ x, timerName = some x ∧ c_str x = "") →
        (_lua_timer_open e script timerName now).e.timers_
            = e.timers_ ++ [{ name_ := "", type_ := timer_type_t.ONESHOT, start_ := now,
                              duration_ := 0, running_ := false }]
        ∧ (_lua_timer_open e script timerName now).ret
            = Except.ok (lua_value.integer (e.timers_.length : Int)))
    ∧ (∀ x : String, c_str x ≠ "" →
        (∀ i : Nat, find_index (c_str x) (e.timers_.map timer.name) = some i →
            (_lua_timer_open e script (some x) now).e.timers_ = e.timers_
            ∧ (_lua_timer_open e script (some x) now).ret = Except.ok (lua_value.integer (i : Int))
            ∧ (∃ t, e.timers_[i]? = some t ∧ t.name = c_str x)
            ∧ ∀ (j : Nat) (t : timer), j < i → e.timers_[j]? = some t → t.name ≠ c_str x)
        ∧ (find_index (c_str x) (e.timers_.map timer.name) = none →
            (_lua_timer_open e script (some x) now).e.timers_
                = e.timers_ ++ [{ name_ := c_str x, type_ := timer_type_t.ONESHOT, start_ := now,
                                  duration_ := 0, running_ := false }]
            ∧ (_lua_timer_open e script (some x) now).ret
                = Except.ok (lua_value.integer (e.timers_.length : Int)))
        ∧ (∀ (script2 : lua_script σ) (now2 : Int),
            (_lua_timer_open (_lua_timer_open e script (some x) now).e script2 (some x) now2).ret
                = (_lua_timer_open e script (some x) now).ret
            ∧ (_lua_timer_open (_lua_timer_open e script (some x) now).e script2 (some x)
                  now2).e.timers_
                = (_lua_timer_open e script (some x) now).e.timers_))
    ∧ (∀ timerName : Option String,
        ∃ id : Int, (_lua_timer_open e script timerName now).ret = Except.ok (lua_value.integer id)
          ∧ script.addr
              ∈ subscribers_of (_lua_timer_open e script timerName now).e.timer_subscribers_ id
          ∧ (∀ (q : Nat) (k : Int),
              q ∈ subscribers_of (_lua_timer_open e script timerName now).e.timer_subscribers_ k
                ↔ (q ∈ subscribers_of e.timer_subscribers_ k ∨ (q = script.addr ∧ k = id)))
          ∧ ∃ suffix, (_lua_timer_open e script timerName now).e.timers_ = e.timers_ ++ suffix) := by
  have hpriv : ∀ timerName : Option String,
      (timerName = none ∨ ∃ x, timerName = some x ∧ c_str x = "") →
      _lua_timer_open e script timerName now
        = { e := ({ e with timers_ := e.timers_ ++ [timer.mk_timer "" timer_type_t.ONESHOT now] }
                    : executor σ).add_timer_subscription (e.timers_.length : Int) script.addr,
            script := script,
            ret := Except.ok (lua_value.integer (e.timers_.length : Int)) } := by
    intro timerName h
    rcases h with h | ⟨x, h, hx⟩
    · subst h
      simp [_lua_timer_open, executor.timer_create_private]
    · subst h
      simp [_lua_timer_open, executor.timer_create_private, hx]
  have hshared : ∀ (e0 : executor σ) (s0 : lua_script σ) (t0 : Int) (x : String), c_str x ≠ "" →
      _lua_timer_open e0 s0 (some x) t0
        = { e := (e0.timer_find_or_create_sharable (c_str x) t0).1.add_timer_subscription
                    (e0.timer_find_or_create_sharable (c_str x) t0).2 s0.addr,
            script := s0,
            ret := Except.ok
              (lua_value.integer (e0.timer_find_or_create_sharable (c_str x) t0).2) } := by
    intro e0 s0 t0 x hx
    simp [_lua_timer_open, hx]
  refine ⟨c_str_of_no_nul, ?_, ?_, ?_⟩
  · intro timerName h
    rw [hpriv timerName h]
    exact ⟨rfl, rfl⟩
  · intro x hx
    have hsp := timer_find_or_create_sharable_spec e (c_str x) now
    refine ⟨?_, ?_, ?_⟩
    · intro i hi
      rw [hshared e script now x hx, hsp.1 i hi]
      refine ⟨rfl, rfl, ?_, ?_⟩
      · have := find_index_getElem hi
        rw [List.getElem?_map] at this
        cases ht : e.timers_[i]? with
        | none => simp [ht] at this
        | some t =>
          simp only [ht, Option.map_some', Option.some.injEq] at this
          exact ⟨t, rfl, this⟩
      · intro j t hj ht hname
        have := find_index_first hi j hj
        rw [List.getElem?_map, ht] at this
        exact this (by simp [hname])
    · intro hnone
      rw [hshared e script now x hx, hsp.2 hnone]
      exact ⟨rfl, rfl⟩
    · intro script2 now2
      rw [hshared _ script2 now2 x hx, hshared e script now x hx]
      dsimp only
      cases hf : find_index (c_str x) (e.timers_.map timer.name) with
      | some i =>
        rw [hsp.1 i hf]
        have h2 := (timer_find_or_create_sharable_spec
          (e.add_timer_subscription (i : Int) script.addr) (c_str x) now2).1 i hf
        rw [h2]
        exact ⟨rfl, rfl⟩
      | none =>
        rw [hsp.2 hf]
        have hf2 := find_index_timers_append_self e.timers_ (c_str x) now hf
        have h2 := (timer_find_or_create_sharable_spec
          (({ e with timers_ := e.timers_ ++ [timer.mk_timer (c_str x) timer_type_t.ONESHOT now] }
              : executor σ).add_timer_subscription (e.timers_.length : Int) script.addr)
          (c_str x) now2).1 e.timers_.length hf2
        rw [h2]
        exact ⟨rfl, rfl⟩
  · intro timerName
    have hgen : ∀ (e1 : executor σ) (id : Int) (suffix : List timer),
        e1.timers_ = e.timers_ ++ suffix → e1.timer_subscribers_ = e.timer_subscribers_ →
        script.addr ∈ subscribers_of (e1.add_timer_subscription id script.addr).timer_subscribers_ id
        ∧ (∀ (q : Nat) (k : Int),
            q ∈ subscribers_of (e1.add_timer_subscription id script.addr).timer_subscribers_ k
              ↔ (q ∈ subscribers_of e.timer_subscribers_ k ∨ (q = script.addr ∧ k = id)))
        ∧ ∃ suffix, (e1.add_timer_subscription id script.addr).timers_ = e.timers_ ++ suffix := by
      intro e1 id suffix ht hs
      have h := add_timer_subscription_spec e1 id script.addr
      rw [hs] at h
      exact ⟨h.2.1, h.2.2, suffix, by rw [h.1, ht]⟩
    by_cases hp : timerName = none ∨ ∃ x, timerName = some x ∧ c_str x = ""
    · rw [hpriv timerName hp]
      exact ⟨_, rfl, hgen _ _ [timer.mk_timer "" timer_type_t.ONESHOT now] rfl rfl⟩
    · obtain ⟨x, hx1, hx2⟩ : ∃ x, timerName = some x ∧ c_str x ≠ "" := by
        cases timerName with
        | none => exact absurd (Or.inl rfl) hp
        | some x => exact ⟨x, rfl, fun h => hp (Or.inr ⟨x, rfl, h⟩)⟩
      subst hx1
      rw [hshared e script now x hx2]
      have hsp := timer_find_or_create_sharable_spec e (c_str x) now
      cases hf : find_index (c_str x) (e.timers_.map timer.name) with
      | some i =>
        rw [hsp.1 i hf]
        exact ⟨_, rfl, hgen e _ [] (by simp) rfl⟩
      | none =>
        rw [hsp.2 hf]
        exact ⟨_, rfl, hgen _ _ [timer.mk_timer (c_str x) timer_type_t.ONESHOT now] rfl rfl⟩

/-- C16, amended, at an executor with three timers (the second is named "t"): an
unnamed open appends timer 3, as does the open of a name that starts with a NUL;
opening "t" returns 1, opening the unknown name "u" appends timer 3. -/
theorem timer_open_private_or_shared_witness :
    ((none : Option String) = none ∨ ∃ x, (none : Option String) = some x ∧ c_str x = "")
    ∧ (_lua_timer_open demo_executor_timers demo_script none 9).ret
        = Except.ok (lua_value.integer (demo_executor_timers.timers_.length : Int))
    ∧ c_str (String.mk [Char.ofNat 0, 'x']) = ""
    ∧ (_lua_timer_open demo_executor_timers demo_script
        (some (String.mk [Char.ofNat 0, 'x'])) 9).ret
        = Except.ok (lua_value.integer (demo_executor_timers.timers_.length : Int))
    ∧ c_str "t" ≠ ""
    ∧ find_index (c_str "t") (demo_executor_timers.timers_.map timer.name) = some 1
    ∧ (_lua_timer_open demo_executor_timers demo_script (some "t") 9).ret
        = Except.ok (lua_value.integer ((1 : Nat) : Int))
    ∧ find_index (c_str "u") (demo_executor_timers.timers_.map timer.name) = none
    ∧ (_lua_timer_open demo_executor_timers demo_script (some "u") 9).ret
        = Except.ok (lua_value.integer (demo_executor_timers.timers_.length : Int)) :=
  ⟨Or.inl rfl,
   ((timer_open_private_or_shared demo_executor_timers demo_script 9).2.1 none
      (Or.inl rfl)).2,
   by decide,
   ((timer_open_private_or_shared demo_executor_timers demo_script 9).2.1
      (some (String.mk [Char.ofNat 0, 'x'])) (Or.inr ⟨_, rfl, by decide⟩)).2,
   by decide, by decide,
   (((timer_open_private_or_shared demo_executor_timers demo_script 9).2.2.1 "t"
      (by decide)).1 1 (by decide)).2.1,
   by decide,
   (((timer_open_private_or_shared demo_executor_timers demo_script 9).2.2.1 "u"
      (by decide)).2.1 (by decide)).2⟩


theorem to_int64_of_fits (x : Int) (h0 : -9223372036854775808 ≤ x)
    (h1 : x < 9223372036854775808) : to_int64 x = x := by
  unfold to_int64
  omega

theorem duration_ticks_exact (d : Int) (h : duration_in_range d) :
    to_int64 (d * ticks_per_ms) = d * ticks_per_ms := by
  unfold duration_in_range at h
  unfold ticks_per_ms
  apply to_int64_of_fits <;> omega

theorem elapsed_all_stopped (t : timer) (h : t.running_ = false) (polls : List Int) :
    (t.elapsed_all polls).1 = polls.map (fun _ => false) ∧ (t.elapsed_all polls).2 = t := by
  induction polls with
  | nil => exact ⟨rfl, rfl⟩
  | cons x rest ih =>
    have hx : t.elapsed x = (false, t) := by simp [timer.elapsed, h]
    simp only [timer.elapsed_all, hx, List.map_cons]
    exact ⟨by rw [ih.1], ih.2⟩

theorem elapsed_all_length (polls : List Int) :
    ∀ t : timer, (t.elapsed_all polls).1.length = polls.length := by
  induction polls with
  | nil => intro t; rfl
  | cons x rest ih => intro t; simp [timer.elapsed_all, ih]

theorem oneshot_elapsed_all (t : timer) (ht : t.type_ = timer_type_t.ONESHOT)
    (hr : t.running_ = true) (polls : List Int) :
    (∀ i : Nat, (t.elapsed_all polls).1[i]? = some true ↔
      ∃ x, polls[i]? = some x ∧ x - t.start_ ≥ to_int64 (t.duration_ * ticks_per_ms)
        ∧ ∀ (j : Nat) (y : Int), j < i → polls[j]? = some y →
            ¬ (y - t.start_ ≥ to_int64 (t.duration_ * ticks_per_ms)))
    ∧ (t.elapsed_all polls).1.count true ≤ 1
    ∧ ((∃ x ∈ polls, x - t.start_ ≥ to_int64 (t.duration_ * ticks_per_ms)) →
        (t.elapsed_all polls).1.count true = 1 ∧ (t.elapsed_all polls).2.running_ = false)
    ∧ ((∀ x ∈ polls, ¬ (x - t.start_ ≥ to_int64 (t.duration_ * ticks_per_ms))) →
        (t.elapsed_all polls).1.count true = 0 ∧ (t.elapsed_all polls).2 = t) := by
  induction polls with
  | nil =>
    refine ⟨?_, by simp [timer.elapsed_all], ?_, ?_⟩
    · intro i
      simp [timer.elapsed_all]
    · rintro ⟨x, hx, _⟩
      simp at hx
    · intro _
      exact ⟨rfl, rfl⟩
  | cons p rest ih =>
    by_cases hp : p - t.start_ ≥ to_int64 (t.duration_ * ticks_per_ms)
    · have hx : t.elapsed p = (true, t.stop) := by
        simp [timer.elapsed, hr, hp, ht]
      have hs := elapsed_all_stopped t.stop rfl rest
      have hc : (rest.map (fun _ => false)).count true = 0 := by
        rw [List.count_eq_zero]
        simp
      have hc1 : (true :: rest.map (fun _ => false)).count true = 1 := by
        rw [List.count_cons, hc]
        rfl
      simp only [timer.elapsed_all, hx, hs.1, hs.2]
      refine ⟨?_, ?_, ?_, ?_⟩
      · intro i
        cases i with
        | zero =>
          simp only [List.getElem?_cons_zero, true_iff]
          exact ⟨p, rfl, hp, fun j y hj => absurd hj (Nat.not_lt_zero j)⟩
        | succ k =>
          simp only [List.getElem?_cons_succ, List.getElem?_map]
          constructor
          · intro h
            cases hk : rest[k]? with
            | none => simp [hk] at h
            | some z => simp [hk] at h
          · rintro ⟨x, _, _, hall⟩
            exact absurd hp (hall 0 p (Nat.succ_pos k) (by simp))
      · exact le_of_eq hc1
      · intro _
        exact ⟨hc1, rfl⟩
      · intro hall
        exact absurd hp (hall p (List.mem_cons_self _ _))
    · have hx : t.elapsed p = (false, t) := by
        simp [timer.elapsed, hr, hp]
      simp only [timer.elapsed_all, hx]
      obtain ⟨ih1, ih2, ih3, ih4⟩ := ih
      refine ⟨?_, ?_, ?_, ?_⟩
      · intro i
        cases i with
        | zero =>
          simp only [List.getElem?_cons_zero, Option.some.injEq, Bool.false_eq_true, false_iff]
          rintro ⟨x, hx1, hx2, _⟩
          subst hx1
          exact hp hx2
        | succ k =>
          simp only [List.getElem?_cons_succ]
          rw [ih1 k]
          constructor
          · rintro ⟨x, hx1, hx2, hall⟩
            refine ⟨x, hx1, hx2, ?_⟩
            intro j y hj hy
            cases j with
            | zero =>
              simp only [List.getElem?_cons_zero, Option.some.injEq] at hy
              subst hy
              exact hp
            | succ j2 =>
              simp only [List.getElem?_cons_succ] at hy
              exact hall j2 y (by omega) hy
          · rintro ⟨x, hx1, hx2, hall⟩
            refine ⟨x, hx1, hx2, ?_⟩
            intro j y hj hy
            exact hall (j + 1) y (by omega) (by simpa using hy)
      · simpa [List.count_cons] using ih2
      · rintro ⟨x, hxm, hxh⟩
        rcases List.mem_cons.1 hxm with h | h
        · subst h
          exact absurd hxh hp
        · have := ih3 ⟨x, h, hxh⟩
          exact ⟨by simpa [List.count_cons] using this.1, this.2⟩
      · intro hall
        have := ih4 (fun x hx => hall x (List.mem_cons_of_mem _ hx))
        exact ⟨by simpa [List.count_cons] using this.1, this.2⟩

/-- C18, as claimed, fails. A ONESHOT timer armed at instant 0 with the duration
9223372036855 ms, whose count of clock ticks does not fit in 64 bits, returns true at
a poll one tick after arming, long before `t - s >= d`, and false at the poll at the
deadline. -/
theorem oneshot_overflowing_duration_fires_at_once :
    ¬ duration_in_range 9223372036855
    ∧ ¬ ((1 : Int) - 0 ≥ 9223372036855 * ticks_per_ms)
    ∧ (((timer.mk_timer "t" timer_type_t.ONESHOT 0).elapse_after 9223372036855 0).elapsed 1).1
        = true
    ∧ (((timer.mk_timer "t" timer_type_t.ONESHOT 0).elapse_after 9223372036855 0).elapsed_all
        [1, 9223372036855000000]).1 = [true, false] := by
  refine ⟨by decide, by decide, by decide, by decide⟩

/-- C18, amended. A ONESHOT timer is armed by `elapse_after(d)` at instant `s`, with a
duration `d` of at most 9223372036854 ms in absolute value (its count of clock ticks
fits in 64 bits), and then polled with `elapsed()` at the instants `polls`, in order.
The poll number `i` returns true exactly when its instant `x` satisfies `x - s >= d`
and no earlier poll did (it is the first such poll); when some poll is at or after
the deadline exactly one poll returns true and the timer is not running afterwards;
a poll that returns true leaves the timer stopped. -/
theorem oneshot_fires_exactly_once (t : timer) (ht : t.type_ = timer_type_t.ONESHOT)
    (d s : Int) (hd : duration_in_range d) (polls : List Int) :
    (∀ i : Nat, ((t.elapse_after d s).elapsed_all polls).1[i]? = some true ↔
      ∃ x, polls[i]? = some x ∧ x - s ≥ d * ticks_per_ms
        ∧ ∀ (j : Nat) (y : Int), j < i → polls[j]? = some y → ¬ (y - s ≥ d * ticks_per_ms))
    ∧ ((t.elapse_after d s).elapsed_all polls).1.length = polls.length
    ∧ ((t.elapse_after d s).elapsed_all polls).1.count true ≤ 1
    ∧ ((∃ x ∈ polls, x - s ≥ d * ticks_per_ms) →
        ((t.elapse_after d s).elapsed_all polls).1.count true = 1
        ∧ ((t.elapse_after d s).elapsed_all polls).2.running_ = false)
    ∧ (∀ x : Int, ((t.elapse_after d s).elapsed x).1 = true →
        ((t.elapse_after d s).elapsed x).2.running_ = false
        ∧ ∀ y : Int, ((((t.elapse_after d s).elapsed x).2).elapsed y).1 = false) := by
  have hT : to_int64 ((t.elapse_after d s).duration_ * ticks_per_ms) = d * ticks_per_ms :=
    duration_ticks_exact d hd
  have h := oneshot_elapsed_all (t.elapse_after d s) ht rfl polls
  rw [hT] at h
  refine ⟨h.1, elapsed_all_length polls _, h.2.1, h.2.2.1, ?_⟩
  intro x hx
  have hel : (t.elapse_after d s).elapsed x = (true, (t.elapse_after d s).stop) := by
    by_cases hh : x - s ≥ d * ticks_per_ms
    · have h1 : (t.elapse_after d s).type_ = timer_type_t.ONESHOT := ht
      have h2 : x - (t.elapse_after d s).start_
          ≥ to_int64 ((t.elapse_after d s).duration_ * ticks_per_ms) := by
        rw [hT]; exact hh
      have h3 : (t.elapse_after d s).running_ = true := rfl
      simp [timer.elapsed, h1, h2, h3]
    · have h2 : ¬ x - (t.elapse_after d s).start_
          ≥ to_int64 ((t.elapse_after d s).duration_ * ticks_per_ms) := by
        rw [hT]; exact hh
      have h3 : (t.elapse_after d s).running_ = true := rfl
      simp [timer.elapsed, h2, h3] at hx
  rw [hel]
  refine ⟨rfl, fun y => ?_⟩
  simp [timer.elapsed, timer.stop]

/-- C18, amended, at a timer armed for 100 ms at instant 0 and polled at 50 ms,
150 ms, 200 ms: only the second poll returns true. -/
theorem oneshot_fires_exactly_once_witness :
    (timer.mk_timer "OneShotTimer" timer_type_t.ONESHOT 0).type_ = timer_type_t.ONESHOT
    ∧ duration_in_range 100
    ∧ (∃ x ∈ [50000000, 150000000, 200000000], x - (0 : Int) ≥ 100 * ticks_per_ms)
    ∧ (((timer.mk_timer "OneShotTimer" timer_type_t.ONESHOT 0).elapse_after 100 0).elapsed_all
          [50000000, 150000000, 200000000]).1.count true = 1
    ∧ (((timer.mk_timer "OneShotTimer" timer_type_t.ONESHOT 0).elapse_after 100 0).elapsed_all
          [50000000, 150000000, 200000000]).1 = [false, true, false] :=
  ⟨rfl, by decide, ⟨150000000, by decide, by decide⟩,
   ((oneshot_fires_exactly_once (timer.mk_timer "OneShotTimer" timer_type_t.ONESHOT 0) rfl 100 0
      (by decide) [50000000, 150000000, 200000000]).2.2.2.1
        ⟨150000000, by decide, by decide⟩).1,
   by decide⟩


theorem tdiv_lt_of_lt_mul (x d : Int) (h0 : 0 ≤ x) (h : x < d * 1000000) :
    x.tdiv 1000000 < d := by
  rw [Int.tdiv_eq_ediv h0 (by decide)]
  omega

theorem le_tdiv_of_mul_le (x d : Int) (h : d * 1000000 ≤ x) : d ≤ x.tdiv 1000000 := by
  by_cases h0 : 0 ≤ x
  · rw [Int.tdiv_eq_ediv h0 (by decide)]
    omega
  · have h2 : (-(-x)).tdiv 1000000 = -((-x).tdiv 1000000) := Int.neg_tdiv (-x) 1000000
    rw [neg_neg] at h2
    rw [h2, Int.tdiv_eq_ediv (by omega) (by decide)]
    omega

theorem tdiv_le_of_lt (x : Int) (h : x < 9223372036854775808) :
    x.tdiv 1000000 ≤ 9223372036854 := by
  by_cases h0 : 0 ≤ x
  · rw [Int.tdiv_eq_ediv h0 (by decide)]
    omega
  · have h2 : (-(-x)).tdiv 1000000 = -((-x).tdiv 1000000) := Int.neg_tdiv (-x) 1000000
    rw [neg_neg] at h2
    rw [h2, Int.tdiv_eq_ediv (by omega) (by decide)]
    omega

/-- C20, as claimed, fails. A timer armed at instant 0 with the duration
-9223372036854775808 ms is, 1 ms later, past `now - start >= d`, and
`max(0, d - 1)` is 0; yet the 64-bit subtraction wraps, `remaining()` is
9223372036854775807 and the timer is active. A timer armed with 9223372036855 ms,
whose count of clock ticks does not fit in 64 bits, is active one tick after arming
while `elapsed()` polled at that instant returns true. -/
theorem remaining_wraps_for_extreme_durations :
    ((1000000 : Int) - 0 ≥ -9223372036854775808 * ticks_per_ms)
    ∧ max 0 (-9223372036854775808 - ((1000000 : Int) - 0).tdiv ticks_per_ms) = 0
    ∧ ((timer.mk_timer "t" timer_type_t.ONESHOT 0).elapse_after (-9223372036854775808)
        0).remaining 1000000 = 9223372036854775807
    ∧ ((timer.mk_timer "t" timer_type_t.ONESHOT 0).elapse_after (-9223372036854775808)
        0).is_active 1000000 = true
    ∧ ¬ ((1 : Int) - 0 ≥ 9223372036855 * ticks_per_ms)
    ∧ ((timer.mk_timer "t" timer_type_t.ONESHOT 0).elapse_after 9223372036855 0).is_active 1
        = true
    ∧ (((timer.mk_timer "t" timer_type_t.ONESHOT 0).elapse_after 9223372036855 0).elapsed 1).1
        = true := by
  refine ⟨by decide, by decide, by decide, by decide, by decide, by decide, by decide⟩

/-- C20, amended. For every timer and instant `now`: `remaining()` is 0 when the
timer is not running and, when it is running, `max(0, duration - (now - start))`
with the elapsed time counted in whole milliseconds and the subtraction done in
64 bits, which is the exact difference whenever that fits in 64 bits; so it is never
negative; `is_active()` is true exactly when the timer is running and
`remaining() > 0`. A timer that was never armed is inactive; a timer armed by
`elapse_after(d)` with `0 < d` is active at the instant of arming and, for `d` of at
most 9223372036854 ms, at every instant before the deadline; for `d` of at most
9223372036854 ms in absolute value and an elapsed time below 2^63 ticks, once
`now - start >= d` it is inactive, although `elapsed()` polled at that instant
returns true. -/
theorem timer_inspection (t : timer) (now : Int) :
    (t.running_ = false → t.remaining now = 0 ∧ t.is_active now = false)
    ∧ (t.running_ = true →
        t.remaining now
          = max 0 (to_int64 (t.duration_ - (now - t.start_).tdiv ticks_per_ms)))
    ∧ (t.running_ = true →
        -9223372036854775808 ≤ t.duration_ - (now - t.start_).tdiv ticks_per_ms →
        t.duration_ - (now - t.start_).tdiv ticks_per_ms < 9223372036854775808 →
        t.remaining now = max 0 (t.duration_ - (now - t.start_).tdiv ticks_per_ms))
    ∧ 0 ≤ t.remaining now
    ∧ (t.is_active now = true ↔ (t.running_ = true ∧ t.remaining now > 0))
    ∧ (∀ (name : String) (type : timer_type_t) (at_ : Int),
        (timer.mk_timer name type at_).is_active now = false)
    ∧ (∀ d : Int, 0 < d → d < 9223372036854775808 →
        (t.elapse_after d now).is_active now = true)
    ∧ (∀ d s : Int, 0 ≤ now - s → now - s < d * ticks_per_ms → d ≤ 9223372036854 →
        (t.elapse_after d s).is_active now = true)
    ∧ (∀ d s : Int, now - s ≥ d * ticks_per_ms → duration_in_range d →
        now - s < 9223372036854775808 →
        (t.elapse_after d s).is_active now = false
        ∧ (t.elapse_after d s).remaining now = 0
        ∧ ((t.elapse_after d s).elapsed now).1 = true) := by
  have hrem : 0 ≤ t.remaining now := by
    unfold timer.remaining
    split
    · dsimp only
      split
      · omega
      · exact le_refl 0
    · exact le_refl 0
  have hgen : t.running_ = true →
      t.remaining now
        = max 0 (to_int64 (t.duration_ - (now - t.start_).tdiv ticks_per_ms)) := by
    intro h
    unfold timer.remaining
    simp only [h, if_true]
    by_cases hp : to_int64 (t.duration_ - (now - t.start_).tdiv ticks_per_ms) > 0
    · simp only [hp, if_true]
      omega
    · simp only [hp, if_false]
      omega
  have hbefore : ∀ d s : Int, 0 ≤ now - s → now - s < d * ticks_per_ms → d ≤ 9223372036854 →
      (t.elapse_after d s).is_active now = true := by
    intro d s h0 h1 h2
    have h3 := tdiv_lt_of_lt_mul (now - s) d h0 h1
    have h4 : 0 ≤ (now - s).tdiv 1000000 := by
      rw [Int.tdiv_eq_ediv h0 (by decide)]
      omega
    have hfit : to_int64 (d - (now - s).tdiv ticks_per_ms) = d - (now - s).tdiv ticks_per_ms := by
      unfold ticks_per_ms
      apply to_int64_of_fits <;> omega
    have hpos : d - (now - s).tdiv ticks_per_ms > 0 := by
      unfold ticks_per_ms
      omega
    simp [timer.is_active, timer.remaining, timer.elapse_after, hfit, hpos]
  refine ⟨?_, hgen, ?_, hrem, ?_, ?_, ?_, hbefore, ?_⟩
  · intro h
    simp [timer.remaining, timer.is_active, h]
  · intro h h0 h1
    rw [hgen h, to_int64_of_fits _ h0 h1]
  · simp [timer.is_active]
  · intro name type at_
    simp [timer.is_active, timer.mk_timer]
  · intro d hd hd2
    have hfit : to_int64 d = d := to_int64_of_fits d (by omega) hd2
    simp [timer.is_active, timer.remaining, timer.elapse_after, hfit, hd]
  · intro d s h hd hlt
    have hdiv := le_tdiv_of_mul_le (now - s) d h
    have hup := tdiv_le_of_lt (now - s) hlt
    unfold duration_in_range at hd
    have hfit : to_int64 (d - (now - s).tdiv ticks_per_ms) = d - (now - s).tdiv ticks_per_ms := by
      unfold ticks_per_ms
      apply to_int64_of_fits <;> omega
    have hnot : ¬ d - (now - s).tdiv ticks_per_ms > 0 := by
      unfold ticks_per_ms
      omega
    have hge : now - s ≥ to_int64 (d * ticks_per_ms) := by
      rw [duration_ticks_exact d hd]; exact h
    refine ⟨?_, ?_, ?_⟩
    · simp [timer.is_active, timer.remaining, timer.elapse_after, hfit, hnot]
    · simp [timer.remaining, timer.elapse_after, hfit, hnot]
    · simp [timer.elapsed, timer.elapse_after, hge]

/-- C20, amended, as in the test: a timer armed for 100 ms at instant 0 is inactive
before it is armed, active right after arming, and 150 ms later inactive while the
poll returns true. -/
theorem timer_inspection_witness :
    (timer.mk_timer "OneShotTimer" timer_type_t.ONESHOT 0).running_ = false
    ∧ (timer.mk_timer "OneShotTimer" timer_type_t.ONESHOT 0).is_active 0 = false
    ∧ ((0 : Int) < 100 ∧ (100 : Int) < 9223372036854775808)
    ∧ ((timer.mk_timer "OneShotTimer" timer_type_t.ONESHOT 0).elapse_after 100 0).is_active 0 = true
    ∧ ((0 : Int) ≤ 99999999 - 0 ∧ (99999999 : Int) - 0 < 100 * ticks_per_ms
        ∧ (100 : Int) ≤ 9223372036854)
    ∧ ((timer.mk_timer "OneShotTimer" timer_type_t.ONESHOT 0).elapse_after 100 0).is_active
        99999999 = true
    ∧ ((150000000 : Int) - 0 ≥ 100 * ticks_per_ms ∧ duration_in_range 100
        ∧ (150000000 : Int) - 0 < 9223372036854775808)
    ∧ ((timer.mk_timer "OneShotTimer" timer_type_t.ONESHOT 0).elapse_after 100 0).is_active
        150000000 = false
    ∧ (((timer.mk_timer "OneShotTimer" timer_type_t.ONESHOT 0).elapse_after 100 0).elapsed
        150000000).1 = true
    ∧ ((timer.mk_timer "OneShotTimer" timer_type_t.ONESHOT 0).elapse_after 100 0).running_ = true
    ∧ ((timer.mk_timer "OneShotTimer" timer_type_t.ONESHOT 0).elapse_after 100 0).remaining
        30500000 = 70 :=
  ⟨rfl,
   ((timer_inspection (timer.mk_timer "OneShotTimer" timer_type_t.ONESHOT 0) 0).1 rfl).2,
   ⟨by decide, by decide⟩,
   (timer_inspection (timer.mk_timer "OneShotTimer" timer_type_t.ONESHOT 0) 0).2.2.2.2.2.2.1 100
      (by decide) (by decide),
   ⟨by decide, by decide, by decide⟩,
   (timer_inspection (timer.mk_timer "OneShotTimer" timer_type_t.ONESHOT 0)
      99999999).2.2.2.2.2.2.2.1 100 0 (by decide) (by decide) (by decide),
   ⟨by decide, by decide, by decide⟩,
   ((timer_inspection (timer.mk_timer "OneShotTimer" timer_type_t.ONESHOT 0)
      150000000).2.2.2.2.2.2.2.2 100 0 (by decide) (by decide) (by decide)).1,
   ((timer_inspection (timer.mk_timer "OneShotTimer" timer_type_t.ONESHOT 0)
      150000000).2.2.2.2.2.2.2.2 100 0 (by decide) (by decide) (by decide)).2.2,
   rfl,
   ((timer_inspection ((timer.mk_timer "OneShotTimer" timer_type_t.ONESHOT 0).elapse_after 100 0)
      30500000).2.2.1 rfl (by decide) (by decide)).trans (by decide)⟩


theorem update_timer_mem (timers : List timer) (ix : Int) (f : timer → timer) :
    ∀ t ∈ update_timer timers ix f, t ∈ timers ∨ ∃ t0 ∈ timers, t = f t0 := by
  intro t ht
  unfold update_timer at ht
  split at ht
  · rename_i t0 h0
    rcases List.mem_or_eq_of_mem_set ht with h | h
    · exact Or.inl h
    · exact Or.inr ⟨t0, List.getElem?_mem h0, h⟩
  · exact Or.inl ht

theorem apply_call_durations {σ : Type} (now : Int) (st : executor σ × lua_script σ)
    (c : host_call) (hinv : durations_nonneg st.1)
    (harg : ∀ d, c.duration_arg = some d → 0 ≤ d) :
    durations_nonneg (apply_call now st c).1 := by
  obtain ⟨ht, hp⟩ := hinv
  cases c with
  | event_open n =>
    simp only [apply_call, _lua_event_open, executor.event_open]
    split <;> [skip; split] <;> exact ⟨ht, hp⟩
  | event_create_periodic n d =>
    have hd : 0 ≤ d := harg d rfl
    simp only [apply_call, _lua_event_create_periodic]
    rw [event_create_periodic_eq]
    split <;> rename_i h <;> revert h <;> split <;> intro h <;> cases h
    · refine ⟨?_, ?_⟩
      · simp only [executor.event_open]
        split <;> [skip; split] <;> exact ht
      · intro kv hkv
        have hkv2 : kv ∈ map_set st.1.periodic_event_timers_ (st.1.event_open (c_str n)).2
            (periodic_timer (c_str n) d now) := by
          revert hkv
          simp only [executor.event_open]
          split <;> [skip; split] <;> exact fun h => h
        rcases mem_map_set _ _ _ kv hkv2 with h | h
        · rw [h]; exact hd
        · exact hp kv h
    · refine ⟨?_, ?_⟩
      · simp only [executor.event_open]
        split <;> [skip; split] <;> exact ht
      · simp only [executor.event_open]
        split <;> [skip; split] <;> exact hp
  | event_subscribe id f =>
    simp only [apply_call, _lua_event_subscribe]
    split <;> exact ⟨ht, hp⟩
  | event_publish id => exact ⟨ht, hp⟩
  | event_name id => simp only [apply_call, _lua_event_name]; split <;> exact ⟨ht, hp⟩
  | timer_open n =>
    simp only [apply_call, _lua_timer_open, executor.add_timer_subscription]
    refine ⟨?_, ?_⟩
    · intro t hmem
      revert hmem
      cases n with
      | none =>
        simp only [executor.timer_create_private, List.mem_append, List.mem_singleton]
        rintro (h | h)
        · exact ht t h
        · rw [h]; exact le_refl 0
      | some name =>
        dsimp only
        split
        · simp only [executor.timer_find_or_create_sharable]
          split
          · exact ht t
          · simp only [List.mem_append, List.mem_singleton]
            rintro (h | h)
            · exact ht t h
            · rw [h]; exact le_refl 0
        · simp only [executor.timer_create_private, List.mem_append, List.mem_singleton]
          rintro (h | h)
          · exact ht t h
          · rw [h]; exact le_refl 0
    · cases n with
      | none => exact hp
      | some name =>
        dsimp only
        split
        · simp only [executor.timer_find_or_create_sharable]
          split <;> exact hp
        · exact hp
  | timer_subscribe id f => exact ⟨ht, hp⟩
  | timer_elapse_after ix d =>
    have hd : 0 ≤ d := harg d rfl
    simp only [apply_call, _lua_timer_elapse_after]
    split
    · exact ⟨ht, hp⟩
    · refine ⟨?_, hp⟩
      intro t hmem
      rcases update_timer_mem _ _ _ t hmem with h | ⟨t0, _, h⟩
      · exact ht t h
      · rw [h]; exact hd
  | timer_stop ix =>
    simp only [apply_call, _lua_timer_stop]
    split
    · exact ⟨ht, hp⟩
    · refine ⟨?_, hp⟩
      intro t hmem
      rcases update_timer_mem _ _ _ t hmem with h | ⟨t0, h0, h⟩
      · exact ht t h
      · rw [h]; exact ht t0 h0
  | timer_is_elapsed id => simp only [apply_call, _lua_timer_is_elapsed]; split <;> exact ⟨ht, hp⟩
  | timer_is_active ix =>
    simp only [apply_call, _lua_timer_is_active]
    split <;> [skip; split] <;> exact ⟨ht, hp⟩
  | timer_remaining ix =>
    simp only [apply_call, _lua_timer_remaining]
    split <;> [skip; split] <;> exact ⟨ht, hp⟩
  | timer_name id =>
    simp only [apply_call, _lua_timer_name]
    split <;> [skip; split] <;> exact ⟨ht, hp⟩

/-- C21, as claimed, fails. From the empty executor, `timer.open()` followed by
`timer.elapse_after(0, -5)` leaves timer 0 with duration -5, and
`event.create_periodic("tick", -5)` leaves the periodic timer of event 0 with
duration -5: neither binding checks the sign of its duration argument. -/
theorem negative_duration_is_stored :
    (apply_timed_calls (executor.make_unique (Nat × Nat), demo_script)
        [(0, host_call.timer_open none), (0, host_call.timer_elapse_after 0 (-5))]).1.timers_.map
          (fun t => t.duration_) = [-5]
    ∧ ¬ durations_nonneg
        (apply_timed_calls (executor.make_unique (Nat × Nat), demo_script)
          [(0, host_call.timer_open none), (0, host_call.timer_elapse_after 0 (-5))]).1
    ∧ (apply_timed_calls (executor.make_unique (Nat × Nat), demo_script)
        [(0, host_call.event_create_periodic "tick" (-5))]).1.periodic_event_timers_.map
          (fun kv => (kv.1, kv.2.duration_)) = [(0, -5)]
    ∧ ¬ durations_nonneg
        (apply_timed_calls (executor.make_unique (Nat × Nat), demo_script)
          [(0, host_call.event_create_periodic "tick" (-5))]).1 := by
  refine ⟨by decide, by decide, by decide, by decide⟩

/-- C21, amended. Starting from a state in which every timer of the timer registry
and of the periodic-event map has a duration that is not negative (the empty
executor is one), every sequence of binding calls, each made at any instant, whose
duration arguments to `timer.elapse_after` and `event.create_periodic` are all at
least 0 leads to a state with the same property. -/
theorem durations_nonneg_of_nonneg_arguments {σ : Type} (calls : List (Int × host_call))
    (st : executor σ × lua_script σ) (hinv : durations_nonneg st.1)
    (hargs : ∀ c ∈ calls, ∀ d, c.2.duration_arg = some d → 0 ≤ d) :
    durations_nonneg (apply_timed_calls st calls).1
    ∧ durations_nonneg (executor.make_unique σ) := by
  refine ⟨?_, ?_⟩
  · induction calls generalizing st with
    | nil => exact hinv
    | cons c rest ih =>
      have h1 := apply_call_durations c.1 st c.2 hinv (hargs c (List.mem_cons_self _ _))
      exact ih (apply_call c.1 st c.2) h1 (fun c2 hc2 => hargs c2 (List.mem_cons_of_mem _ hc2))
  · exact ⟨fun t h => by simp [executor.make_unique] at h,
      fun kv h => by simp [executor.make_unique] at h⟩

/-- C21, amended, on a concrete run: a timer opened and armed for 100 ms, stopped,
and a periodic event of 50 ms. -/
theorem durations_nonneg_of_nonneg_arguments_witness :
    durations_nonneg (executor.make_unique (Nat × Nat))
    ∧ durations_nonneg
        (apply_timed_calls (executor.make_unique (Nat × Nat), demo_script)
          [(0, host_call.timer_open (some "t")), (1, host_call.timer_elapse_after 0 100),
           (2, host_call.timer_stop 0), (3, host_call.event_create_periodic "tick" 50)]).1
    ∧ (apply_timed_calls (executor.make_unique (Nat × Nat), demo_script)
          [(0, host_call.timer_open (some "t")), (1, host_call.timer_elapse_after 0 100),
           (2, host_call.timer_stop 0),
           (3, host_call.event_create_periodic "tick" 50)]).1.timers_.map
            (fun t => t.duration_) = [100] :=
  ⟨by decide,
   (durations_nonneg_of_nonneg_arguments
      [(0, host_call.timer_open (some "t")), (1, host_call.timer_elapse_after 0 100),
       (2, host_call.timer_stop 0), (3, host_call.event_create_periodic "tick" 50)]
      (executor.make_unique (Nat × Nat), demo_script) (by decide) (by decide)).1,
   by decide⟩


/-! ## C22 and C23: the watchdog -/

theorem tdiv_gt_ten_iff (x : Int) : x.tdiv 1000000 > 10 ↔ x ≥ 11 * 1000000 := by
  constructor
  · intro h
    by_contra hlt
    by_cases h0 : 0 ≤ x
    · have := tdiv_lt_of_lt_mul x 11 h0 (by omega)
      omega
    · have h2 : (-(-x)).tdiv 1000000 = -((-x).tdiv 1000000) := Int.neg_tdiv (-x) 1000000
      rw [neg_neg] at h2
      rw [h2, Int.tdiv_eq_ediv (by omega) (by decide)] at h
      omega
  · intro h
    have := le_tdiv_of_mul_le x 11 h
    omega

/-- C22, as claimed, fails. The hook fired 10.5 ms after `ts_begin_loop` does not
raise, although more than 10 ms have elapsed: the elapsed time is cut to whole
milliseconds before it is compared with 10. Fired 11 ms after, it raises. -/
theorem hook_silent_between_ten_and_eleven_ms :
    demo_script.ts_begin_loop = 0
    ∧ (10500000 : Int) - demo_script.ts_begin_loop > 10 * ticks_per_ms
    ∧ instruction_count_hook demo_script 10500000 "s.lua" 3 = none
    ∧ instruction_count_hook demo_script 10999999 "s.lua" 3 = none
    ∧ instruction_count_hook demo_script 11000000 "s.lua" 3 = some "timeout: at s.lua:3" := by
  refine ⟨rfl, by decide, by decide, by decide, by decide⟩

/-- C22, amended. Each time the hook fires, it raises exactly when the time elapsed
since the script's `ts_begin_loop`, counted in whole milliseconds, exceeds 10, that
is exactly when at least 11 ms have elapsed; the error message is
"timeout: at <file>:<line>". It never raises for an elapsed time of 10 ms or less,
nor for any elapsed time below 11 ms. -/
theorem hook_raises_iff_whole_ms_exceed_budget {σ : Type} (p : lua_script σ) (now : Int)
    (short_src : String) (currentline : Int) :
    instruction_count_hook p now short_src currentline
      = (if now - p.ts_begin_loop ≥ 11 * ticks_per_ms then
          some ("timeout: at " ++ short_src ++ ":" ++ toString currentline)
         else none)
    ∧ ((instruction_count_hook p now short_src currentline).isSome = true
        ↔ (now - p.ts_begin_loop).tdiv ticks_per_ms > 10)
    ∧ ((instruction_count_hook p now short_src currentline).isSome = true
        ↔ now - p.ts_begin_loop ≥ 11 * ticks_per_ms)
    ∧ (now - p.ts_begin_loop ≤ 10 * ticks_per_ms →
        instruction_count_hook p now short_src currentline = none)
    ∧ (now - p.ts_begin_loop < 11 * ticks_per_ms →
        instruction_count_hook p now short_src currentline = none) := by
  have hiff := tdiv_gt_ten_iff (now - p.ts_begin_loop)
  have heq : instruction_count_hook p now short_src currentline
      = (if now - p.ts_begin_loop ≥ 11 * ticks_per_ms then
          some ("timeout: at " ++ short_src ++ ":" ++ toString currentline)
         else none) := by
    unfold instruction_count_hook ticks_per_ms
    dsimp only
    by_cases h : now - p.ts_begin_loop ≥ 11 * 1000000
    · rw [if_pos (hiff.2 h), if_pos h]
    · rw [if_neg (fun h2 => h (hiff.1 h2)), if_neg h]
  refine ⟨heq, ?_, ?_, ?_, ?_⟩
  · rw [heq]
    unfold ticks_per_ms
    by_cases h : now - p.ts_begin_loop ≥ 11 * 1000000
    · simp only [if_pos h, Option.isSome_some, true_iff]
      exact hiff.2 h
    · simp only [if_neg h, Option.isSome_none, Bool.false_eq_true, false_iff]
      exact fun h2 => h (hiff.1 h2)
  · rw [heq]
    by_cases h : now - p.ts_begin_loop ≥ 11 * ticks_per_ms
    · simp [h]
    · simp [h]
  · intro h
    rw [heq, if_neg]
    unfold ticks_per_ms at h ⊢
    omega
  · intro h
    rw [heq, if_neg]
    omega

/-- C22, amended, at 10.5 ms and at 10 ms after `ts_begin_loop`. -/
theorem hook_raises_iff_whole_ms_exceed_budget_witness :
    ((10500000 : Int) - demo_script.ts_begin_loop < 11 * ticks_per_ms
      ∧ instruction_count_hook demo_script 10500000 "s.lua" 3 = none)
    ∧ ((10000000 : Int) - demo_script.ts_begin_loop ≤ 10 * ticks_per_ms
      ∧ instruction_count_hook demo_script 10000000 "s.lua" 3 = none) :=
  ⟨⟨by decide,
    (hook_raises_iff_whole_ms_exceed_budget demo_script 10500000 "s.lua" 3).2.2.2.2 (by decide)⟩,
   ⟨by decide,
    (hook_raises_iff_whole_ms_exceed_budget demo_script 10000000 "s.lua" 3).2.2.2.1 (by decide)⟩⟩

theorem handle_events_ts {σ : Type} (vm : LuaVM σ) (q : List Int) :
    ∀ s : lua_script σ, (handle_events vm s q).2.1.ts_begin_loop = s.ts_begin_loop := by
  induction q with
  | nil => intro s; rfl
  | cons x rest ih =>
    intro s
    unfold handle_events
    split
    · dsimp only
      split
      · simpa using ih _
      · rfl
    · exact ih s

theorem handle_timers_ts {σ : Type} (vm : LuaVM σ) (q : List Int) :
    ∀ (s : lua_script σ) (kept : List Int),
      (handle_timers vm s kept q).2.1.ts_begin_loop = s.ts_begin_loop := by
  induction q with
  | nil => intro s kept; rfl
  | cons x rest ih =>
    intro s kept
    unfold handle_timers
    split
    · dsimp only
      split
      · simpa using ih _ _
      · rfl
    · exact ih s _

/-- C23: the callback dispatch does not re-arm the watchdog. For every interpreter
and every script, `handle_lua_callbacks` leaves `ts_begin_loop` as it found it,
whichever handlers it called, whereas the visit of `run_loop` sets it to the instant
of the tick before it calls `loop`. So for the script `demo_script`, whose
`ts_begin_loop` is 0, a tick at 20 ms calls the handlers of events 4 and 5 and of
timers 2 and 3 while `ts_begin_loop` is still 0, and a hook firing in any of them
at that instant raises the timeout error. -/
theorem callbacks_run_on_stale_watchdog :
    (∀ (σ : Type) (vm : LuaVM σ) (s : lua_script σ),
      (s.handle_lua_callbacks vm).2.1.ts_begin_loop = s.ts_begin_loop)
    ∧ (∀ (σ : Type) (vm : LuaVM σ) (now : Int) (s : lua_script σ),
        (s.handle_lua_callbacks vm).2.1.loopFunctionRef ≠ LUA_NOREF →
          (tick_script vm now s).ts_begin_loop = now)
    ∧ demo_script.ts_begin_loop = 0
    ∧ (demo_script.handle_lua_callbacks demo_vm).2.2
        = [invocation.event_handler 1 10 4, invocation.event_handler 1 11 5,
           invocation.timer_handler 1 12 2, invocation.timer_handler 1 14 3]
    ∧ (demo_script.handle_lua_callbacks demo_vm).2.1.ts_begin_loop = 0
    ∧ instruction_count_hook demo_script 20000000 "s.lua" 1 = some "timeout: at s.lua:1"
    ∧ instruction_count_hook (demo_script.handle_lua_callbacks demo_vm).2.1 20000000 "s.lua" 1
        = some "timeout: at s.lua:1"
    ∧ instruction_count_hook (tick_script demo_vm 20000000 demo_script) 20000000 "s.lua" 1
        = none := by
  refine ⟨?_, ?_, rfl, by decide, by decide, by decide, by decide, by decide⟩
  · intro σ vm s
    unfold lua_script.handle_lua_callbacks
    dsimp only
    split
    · exact (handle_timers_ts vm _ _ _).trans (handle_events_ts vm _ _)
    · exact handle_events_ts vm _ _
  · intro σ vm now s h
    unfold tick_script
    dsimp only
    rw [if_pos h]


/-! ## C24: `timer.is_elapsed` -/

theorem erase_first_spec (x : Int) (l : List Int) (h : x ∈ l) :
    ∃ pre post, l = pre ++ x :: post ∧ x ∉ pre ∧ erase_first x l = pre ++ post := by
  induction l with
  | nil => simp at h
  | cons y rest ih =>
    by_cases hy : y = x
    · refine ⟨[], rest, by simp [hy], by simp, by simp [erase_first, hy]⟩
    · have hrest : x ∈ rest := by
        rcases List.mem_cons.1 h with h1 | h1
        · exact absurd h1.symm hy
        · exact h1
      obtain ⟨pre, post, h1, h2, h3⟩ := ih hrest
      refine ⟨y :: pre, post, by simp [h1], ?_, by simp [erase_first, hy, h3]⟩
      intro hmem
      rcases List.mem_cons.1 hmem with h4 | h4
      · exact hy h4.symm
      · exact h2 h4

theorem timer_is_elapsed_of_mem {σ : Type} (e : executor σ) (script : lua_script σ) (id : Int)
    (h : id ∈ script.elapsed_timers) :
    _lua_timer_is_elapsed e script id
      = { e := e,
          script := { script with elapsed_timers := erase_first id script.elapsed_timers },
          ret := Except.ok (lua_value.boolean true) } := by
  unfold _lua_timer_is_elapsed
  rw [if_pos h]

theorem timer_is_elapsed_of_not_mem {σ : Type} (e : executor σ) (script : lua_script σ) (id : Int)
    (h : id ∉ script.elapsed_timers) :
    _lua_timer_is_elapsed e script id
      = { e := e, script := script, ret := Except.ok (lua_value.boolean false) } := by
  unfold _lua_timer_is_elapsed
  rw [if_neg h]

/-- C24. `timer.is_elapsed(id)` is consuming. If `id` occurs in the calling script's
pending elapsed list, the call removes the first occurrence and nothing else
(the list was `pre ++ id :: post` with `id` not in `pre` and becomes `pre ++ post`),
returns true and changes nothing else of the script or of the executor. Otherwise
it returns false and leaves executor and script unchanged. When `id` was pending at
most once, a second `timer.is_elapsed(id)` right after returns false. -/
theorem timer_is_elapsed_consumes {σ : Type} (e : executor σ) (script : lua_script σ) (id : Int) :
    (id ∈ script.elapsed_timers →
      ∃ pre post, script.elapsed_timers = pre ++ id :: post ∧ id ∉ pre
        ∧ (_lua_timer_is_elapsed e script id).script = { script with elapsed_timers := pre ++ post }
        ∧ (_lua_timer_is_elapsed e script id).e = e
        ∧ (_lua_timer_is_elapsed e script id).ret = Except.ok (lua_value.boolean true)
        ∧ (_lua_timer_is_elapsed e script id).script.elapsed_timers.count id
            = script.elapsed_timers.count id - 1)
    ∧ (id ∉ script.elapsed_timers →
        (_lua_timer_is_elapsed e script id).script = script
        ∧ (_lua_timer_is_elapsed e script id).e = e
        ∧ (_lua_timer_is_elapsed e script id).ret = Except.ok (lua_value.boolean false))
    ∧ (script.elapsed_timers.count id ≤ 1 →
        (_lua_timer_is_elapsed (_lua_timer_is_elapsed e script id).e
            (_lua_timer_is_elapsed e script id).script id).ret
          = Except.ok (lua_value.boolean false)
        ∧ (_lua_timer_is_elapsed (_lua_timer_is_elapsed e script id).e
            (_lua_timer_is_elapsed e script id).script id).script
          = (_lua_timer_is_elapsed e script id).script) := by
  have hin : id ∈ script.elapsed_timers →
      ∃ pre post, script.elapsed_timers = pre ++ id :: post ∧ id ∉ pre
        ∧ (_lua_timer_is_elapsed e script id).script = { script with elapsed_timers := pre ++ post }
        ∧ (_lua_timer_is_elapsed e script id).e = e
        ∧ (_lua_timer_is_elapsed e script id).ret = Except.ok (lua_value.boolean true)
        ∧ (_lua_timer_is_elapsed e script id).script.elapsed_timers.count id
            = script.elapsed_timers.count id - 1 := by
    intro h
    obtain ⟨pre, post, h1, h2, h3⟩ := erase_first_spec id script.elapsed_timers h
    rw [timer_is_elapsed_of_mem e script id h, h3]
    refine ⟨pre, post, h1, h2, rfl, rfl, rfl, ?_⟩
    rw [h1]
    simp [List.count_append, List.count_cons]
  have hout : id ∉ script.elapsed_timers →
      (_lua_timer_is_elapsed e script id).script = script
      ∧ (_lua_timer_is_elapsed e script id).e = e
      ∧ (_lua_timer_is_elapsed e script id).ret = Except.ok (lua_value.boolean false) := by
    intro h
    rw [timer_is_elapsed_of_not_mem e script id h]
    exact ⟨rfl, rfl, rfl⟩
  refine ⟨hin, hout, ?_⟩
  intro hc
  have hnot : id ∉ (_lua_timer_is_elapsed e script id).script.elapsed_timers := by
    by_cases h : id ∈ script.elapsed_timers
    · obtain ⟨pre, post, h1, h2, h3, _, _, _⟩ := hin h
      rw [h3]
      rw [h1] at hc
      simp only [List.count_append, List.count_cons, beq_self_eq_true, if_true] at hc
      have hpost : post.count id = 0 := by omega
      intro hmem
      rcases List.mem_append.1 hmem with h4 | h4
      · exact h2 h4
      · exact (List.count_eq_zero.1 hpost) h4
    · rw [(hout h).1]
      exact h
  rw [timer_is_elapsed_of_not_mem _ _ id hnot]
  exact ⟨rfl, rfl⟩

/-- C24 on the script `demo_script`, whose pending list is [2, 9, 3]: the call for
timer 9 leaves [2, 3] and returns true, a second call returns false, and a call for
timer 7, which is not pending, returns false and changes nothing. -/
theorem timer_is_elapsed_consumes_witness :
    (9 : Int) ∈ demo_script.elapsed_timers
    ∧ (_lua_timer_is_elapsed demo_executor demo_script 9).script.elapsed_timers = [2, 3]
    ∧ (_lua_timer_is_elapsed demo_executor demo_script 9).ret
        = Except.ok (lua_value.boolean true)
    ∧ demo_script.elapsed_timers.count 9 ≤ 1
    ∧ (_lua_timer_is_elapsed (_lua_timer_is_elapsed demo_executor demo_script 9).e
          (_lua_timer_is_elapsed demo_executor demo_script 9).script 9).ret
        = Except.ok (lua_value.boolean false)
    ∧ (7 : Int) ∉ demo_script.elapsed_timers
    ∧ (_lua_timer_is_elapsed demo_executor demo_script 7).ret
        = Except.ok (lua_value.boolean false) :=
  ⟨by decide, by decide, rfl, by decide,
   ((timer_is_elapsed_consumes demo_executor demo_script 9).2.2 (by decide)).1,
   by decide,
   ((timer_is_elapsed_consumes demo_executor demo_script 7).2.1 (by decide)).2.2⟩


/-! ## C25: the counters -/

theorem run_loop_scripts_total_ops {σ : Type} (vm : LuaVM σ) (now : Int)
    (todo : List (lua_script σ)) :
    ∀ (e : executor σ) (kept : List (lua_script σ)),
      (run_loop_scripts vm now e kept todo).1.total_ops_ = e.total_ops_ + (todo.length : Int) := by
  induction todo with
  | nil => intro e kept; simp [run_loop_scripts]
  | cons script rest ih =>
    intro e kept
    have hstep := run_loop_scripts_cons vm now e kept script rest
    by_cases hf : tick_failed vm script = true
    · rw [hstep.1 hf, ih]
      simp only [executor.unsubscribe_all, List.length_cons, Nat.cast_add, Nat.cast_one]
      omega
    · have hf2 : tick_failed vm script = false := by simpa using hf
      rw [hstep.2 hf2, ih]
      simp only [List.length_cons, Nat.cast_add, Nat.cast_one]
      omega

theorem check_timers_length {σ : Type} (e : executor σ) (now : Int) :
    ((e.check_event_timers now).check_timers now).scripts_.length = e.scripts_.length := by
  have h := congrArg List.length (check_timers_addr e now)
  simpa using h

theorem apply_call_total_ops {σ : Type} (now : Int) (st : executor σ × lua_script σ)
    (c : host_call) : (apply_call now st c).1.total_ops_ = st.1.total_ops_ := by
  cases c with
  | event_open n =>
    simp only [apply_call, _lua_event_open, executor.event_open]
    split <;> [skip; split] <;> rfl
  | event_create_periodic n d =>
    simp only [apply_call, _lua_event_create_periodic]
    rw [event_create_periodic_eq]
    split <;> rename_i h <;> revert h <;> split <;> intro h <;> cases h <;>
      (simp only [executor.event_open]; split <;> [skip; split] <;> rfl)
  | event_subscribe id f =>
    simp only [apply_call, _lua_event_subscribe]
    split <;> rfl
  | event_publish id => rfl
  | event_name id => simp only [apply_call, _lua_event_name]; split <;> rfl
  | timer_open n =>
    simp only [apply_call, _lua_timer_open, executor.add_timer_subscription]
    cases n with
    | none => rfl
    | some name =>
      dsimp only
      split
      · simp only [executor.timer_find_or_create_sharable]
        split <;> rfl
      · rfl
  | timer_subscribe id f => rfl
  | timer_elapse_after ix d => simp only [apply_call, _lua_timer_elapse_after]; split <;> rfl
  | timer_stop ix => simp only [apply_call, _lua_timer_stop]; split <;> rfl
  | timer_is_elapsed id => simp only [apply_call, _lua_timer_is_elapsed]; split <;> rfl
  | timer_is_active ix =>
    simp only [apply_call, _lua_timer_is_active]
    split <;> [skip; split] <;> rfl
  | timer_remaining ix =>
    simp only [apply_call, _lua_timer_remaining]
    split <;> [skip; split] <;> rfl
  | timer_name id =>
    simp only [apply_call, _lua_timer_name]
    split <;> [skip; split] <;> rfl

theorem apply_calls_total_ops {σ : Type} (now : Int) (calls : List host_call) :
    ∀ st : executor σ × lua_script σ,
      (apply_calls now st calls).1.total_ops_ = st.1.total_ops_ := by
  induction calls with
  | nil => intro st; rfl
  | cons c rest ih =>
    intro st
    have : apply_calls now st (c :: rest) = apply_calls now (apply_call now st c) rest := rfl
    rw [this, ih, apply_call_total_ops]

theorem load_and_execute_total_ops {σ : Type} (vm : LuaVM σ) (now : Int) (e : executor σ)
    (s : lua_script σ) (compiled : Bool × σ) :
    (s.load_and_execute vm now e compiled).2.1.total_ops_ = e.total_ops_ := by
  unfold lua_script.load_and_execute
  dsimp only
  have ha := apply_calls_total_ops now (vm.pcall_chunk compiled.2).calls (e, s)
  split
  · split
    · exact ha
    · exact ha
  · rfl

theorem finish_load_total_ops {σ : Type} (vm : LuaVM σ) (now : Int)
    (ld : Bool × executor σ × lua_script σ × List invocation) :
    (executor.finish_load vm now ld).2.1.total_ops_ = ld.2.1.total_ops_ := by
  unfold executor.finish_load
  dsimp only
  split
  · split
    · have ha := apply_calls_total_ops now
        (vm.pcall_init ld.2.2.1.L ld.2.2.1.initFunctionRef).calls
        (ld.2.1, { ld.2.2.1 with ts_begin_loop := now })
      split
      · exact ha
      · exact ha
    · rfl
  · rfl

theorem load_scripts_files_total_ops {σ : Type} (vm : LuaVM σ) (now : Int)
    (entries : List dir_entry) :
    ∀ e : executor σ, (load_scripts_files vm now e entries).1.total_ops_ = e.total_ops_ := by
  induction entries with
  | nil => intro e; rfl
  | cons entry rest ih =>
    intro e
    rw [load_scripts_files]
    split
    · dsimp only
      rw [ih]
      have hl := load_and_execute_total_ops vm now e (lua_script.mk_script vm entry.addr now)
        (vm.luaL_loadfile (lua_script.mk_script vm entry.addr now).L entry.path)
      unfold lua_script.loadAndExecuteFile
      split
      · exact hl
      · exact hl
    · exact ih e

theorem load_scripts_init_total_ops {σ : Type} (vm : LuaVM σ) (now : Int) :
    ∀ (n i : Nat) (e : executor σ), (load_scripts_init vm now n i e).1.total_ops_ = e.total_ops_ := by
  intro n
  induction n with
  | zero => intro i e; rfl
  | succ n ih =>
    intro i e
    cases hsc : e.scripts_[i]? with
    | none => simp [load_scripts_init, hsc]
    | some script =>
      rw [load_scripts_init_step vm now n i e script hsc]
      have ha := apply_calls_total_ops now (vm.pcall_init script.L script.initFunctionRef).calls
        ({ e with scripts_ := e.scripts_.eraseIdx i }, { script with ts_begin_loop := now })
      split
      · exact ih _ _
      · split
        · rw [ih]
          exact ha
        · rw [ih]
          exact ha

/-- C25. The total-ops counter is 0 in a new executor; `run_loop` adds to it the
number of scripts that were in the list when the tick began, whether or not the
tick evicts them; `loadScriptFromBuffer`, `loadScriptFromFile` and `load_scripts`
leave it unchanged; and `get_nr_of_scripts()` is the length of the script list. -/
theorem total_ops_counts_scripts_per_tick {σ : Type} (vm : LuaVM σ) (e : executor σ) (now : Int) :
    (executor.make_unique σ).get_total_ops = 0
    ∧ (e.run_loop vm now).get_total_ops = e.get_total_ops + (e.get_nr_of_scripts : Int)
    ∧ (∀ (addr : Nat) (script_buffer : String),
        (e.loadScriptFromBuffer vm addr script_buffer now).2.1.get_total_ops = e.get_total_ops)
    ∧ (∀ (addr : Nat) (script_path : String),
        (e.loadScriptFromFile vm addr script_path now).2.1.get_total_ops = e.get_total_ops)
    ∧ (∀ entries : List dir_entry,
        (e.load_scripts vm entries now).1.get_total_ops = e.get_total_ops)
    ∧ e.get_nr_of_scripts = e.scripts_.length := by
  refine ⟨rfl, ?_, ?_, ?_, ?_, rfl⟩
  · unfold executor.run_loop executor.run_loop_log executor.get_total_ops
      executor.get_nr_of_scripts
    dsimp only
    rw [run_loop_scripts_total_ops, check_timers_length]
    rfl
  · intro addr script_buffer
    unfold executor.loadScriptFromBuffer executor.get_total_ops
      lua_script.loadAndExecuteFromBuffer
    rw [finish_load_total_ops, load_and_execute_total_ops]
  · intro addr script_path
    unfold executor.loadScriptFromFile executor.get_total_ops lua_script.loadAndExecuteFile
    rw [finish_load_total_ops, load_and_execute_total_ops]
  · intro entries
    unfold executor.load_scripts executor.get_total_ops
    dsimp only
    rw [load_scripts_init_total_ops, load_scripts_files_total_ops]


/-! ## C27: subscription keys and queued ids are valid ids -/

theorem ids_below_mono {l : List Int} {n m : Nat} (h : ids_below l n) (hnm : n ≤ m) :
    ids_below l m := by
  intro id hid
  have := h id hid
  exact ⟨this.1, by omega⟩

theorem keys_below_mono {m : List (Int × List Nat)} {n k : Nat} (h : keys_below m n)
    (hnk : n ≤ k) : keys_below m k := by
  intro kv hkv
  have := h kv hkv
  exact ⟨this.1, by omega⟩

theorem keys_below_map_set {m : List (Int × List Nat)} {n : Nat} (h : keys_below m n)
    (k : Int) (v : List Nat) (h0 : 0 ≤ k) (h1 : k < (n : Int)) : keys_below (map_set m k v) n := by
  intro kv hkv
  rcases mem_map_set m k v kv hkv with h2 | h2
  · rw [h2]; exact ⟨h0, h1⟩
  · exact h kv h2

theorem keys_below_erase {m : List (Int × List Nat)} {n : Nat} (h : keys_below m n) (p : Nat) :
    keys_below (m.map (fun kv => (kv.1, set_erase kv.2 p))) n := by
  intro kv hkv
  obtain ⟨kv0, h0, rfl⟩ := List.mem_map.1 hkv
  exact h kv0 h0

theorem deliver_event_ids {σ : Type} {m : List (Int × List Nat)} {n : Nat} (hm : keys_below m n)
    (k : Int) (s : lua_script σ) (hs : ids_below s.event_queue n) :
    ids_below (deliver_event m k s).event_queue n := by
  unfold deliver_event
  split
  · rename_i scripts hfind
    split
    · intro id hid
      simp only [lua_script.event_publish, List.mem_append, List.mem_singleton] at hid
      rcases hid with h | h
      · exact hs id h
      · rw [h]; exact hm (k, scripts) (map_find_mem m k scripts hfind)
    · exact hs
  · exact hs

theorem notify_timer_ids {σ : Type} {m : List (Int × List Nat)} {n : Nat} (hm : keys_below m n)
    (k : Int) (s : lua_script σ) (hs : ids_below s.elapsed_timers n) :
    ids_below (notify_timer m k s).elapsed_timers n := by
  unfold notify_timer
  split
  · rename_i scripts hfind
    split
    · intro id hid
      simp only [lua_script.handle_timer_elapsed, List.mem_append, List.mem_singleton] at hid
      rcases hid with h | h
      · exact hs id h
      · rw [h]; exact hm (k, scripts) (map_find_mem m k scripts hfind)
    · exact hs
  · exact hs

theorem notify_timer_frame {σ : Type} (m : List (Int × List Nat)) (k : Int) (s : lua_script σ) :
    (notify_timer m k s).event_queue = s.event_queue
    ∧ (notify_timer m k s).event_handlers = s.event_handlers := by
  unfold notify_timer
  split
  · split <;> exact ⟨rfl, rfl⟩
  · exact ⟨rfl, rfl⟩

theorem deliver_event_queue_ids {σ : Type} (e : executor σ)
    (hm : keys_below e.event_subscribers_ e.eventnames_.length) (k : Int) (s : lua_script σ)
    (hs : queue_ids_valid e s) : queue_ids_valid e (deliver_event e.event_subscribers_ k s) := by
  refine ⟨deliver_event_ids hm k s hs.1, ?_⟩
  rw [(deliver_event_frame _ _ _).2.2]
  exact hs.2

theorem mem_erase_first {x y : Int} {l : List Int} (h : y ∈ erase_first x l) : y ∈ l := by
  induction l with
  | nil => simp [erase_first] at h
  | cons z rest ih =>
    unfold erase_first at h
    split at h
    · exact List.mem_cons_of_mem _ h
    · rcases List.mem_cons.1 h with h1 | h1
      · rw [h1]; exact List.mem_cons_self _ _
      · exact List.mem_cons_of_mem _ (ih h1)

theorem ids_valid_grow {σ : Type} {e e2 : executor σ} (hE : e2.event_subscribers_ = e.event_subscribers_)
    (hT : e2.timer_subscribers_ = e.timer_subscribers_) (hS : e2.scripts_ = e.scripts_)
    (hn : e.eventnames_.length ≤ e2.eventnames_.length) (ht : e.timers_.length ≤ e2.timers_.length)
    (h : ids_valid e) : ids_valid e2 := by
  refine ⟨?_, ?_, ?_⟩
  · rw [hE]; exact keys_below_mono h.1 hn
  · rw [hT]; exact keys_below_mono h.2.1 ht
  · rw [hS]
    intro s hs
    exact ⟨ids_below_mono (h.2.2 s hs).1 hn, ids_below_mono (h.2.2 s hs).2 ht⟩

theorem queue_ids_valid_grow {σ : Type} {e e2 : executor σ} {s s2 : lua_script σ}
    (hn : e.eventnames_.length ≤ e2.eventnames_.length) (ht : e.timers_.length ≤ e2.timers_.length)
    (hq : s2.event_queue = s.event_queue) (hp : s2.elapsed_timers = s.elapsed_timers)
    (h : queue_ids_valid e s) : queue_ids_valid e2 s2 := by
  refine ⟨?_, ?_⟩
  · rw [hq]; exact ids_below_mono h.1 hn
  · rw [hp]; exact ids_below_mono h.2 ht

theorem event_open_length {σ : Type} (e : executor σ) (name : String) :
    e.eventnames_.length ≤ (e.event_open name).1.eventnames_.length := by
  obtain ⟨suffix, h⟩ := event_open_names e name
  rw [h, List.length_append]
  omega

theorem timer_open_ids {σ : Type} (e : executor σ) (timerName : Option String) (now : Int)
    (r : executor σ × Int)
    (hr : r = (match timerName with
      | some name => if c_str name ≠ "" then e.timer_find_or_create_sharable (c_str name) now
                     else e.timer_create_private now
      | none => e.timer_create_private now)) :
    r.1.event_subscribers_ = e.event_subscribers_
    ∧ r.1.timer_subscribers_ = e.timer_subscribers_
    ∧ r.1.scripts_ = e.scripts_
    ∧ r.1.eventnames_ = e.eventnames_
    ∧ e.timers_.length ≤ r.1.timers_.length
    ∧ 0 ≤ r.2 ∧ r.2 < (r.1.timers_.length : Int) := by
  have hpriv : (e.timer_create_private now).1.event_subscribers_ = e.event_subscribers_
      ∧ (e.timer_create_private now).1.timer_subscribers_ = e.timer_subscribers_
      ∧ (e.timer_create_private now).1.scripts_ = e.scripts_
      ∧ (e.timer_create_private now).1.eventnames_ = e.eventnames_
      ∧ e.timers_.length ≤ (e.timer_create_private now).1.timers_.length
      ∧ 0 ≤ (e.timer_create_private now).2
      ∧ (e.timer_create_private now).2 < ((e.timer_create_private now).1.timers_.length : Int) := by
    unfold executor.timer_create_private
    dsimp only
    refine ⟨rfl, rfl, rfl, rfl, ?_, ?_, ?_⟩
    · simp
    · simp only [List.length_append, List.length_singleton, Nat.cast_add, Nat.cast_one]
      omega
    · simp
  cases timerName with
  | none => rw [hr]; exact hpriv
  | some name =>
    by_cases hn : c_str name ≠ ""
    · have hr2 : r = e.timer_find_or_create_sharable (c_str name) now := by rw [hr]; simp [hn]
      rw [hr2]
      have hspec := timer_find_or_create_sharable_spec e (c_str name) now
      cases hf : find_index (c_str name) (e.timers_.map timer.name) with
      | some i =>
        rw [hspec.1 i hf]
        have hlt := find_index_lt hf
        rw [List.length_map] at hlt
        refine ⟨rfl, rfl, rfl, rfl, le_refl _, by omega, by dsimp only; omega⟩
      | none =>
        rw [hspec.2 hf]
        dsimp only
        refine ⟨rfl, rfl, rfl, rfl, ?_, ?_, ?_⟩
        · simp
        · omega
        · simp
    · have hr2 : r = e.timer_create_private now := by rw [hr]; simp [hn]
      rw [hr2]; exact hpriv

theorem apply_call_ids_valid {σ : Type} (now : Int) (st : executor σ × lua_script σ)
    (c : host_call) (h1 : ids_valid st.1) (h2 : queue_ids_valid st.1 st.2) :
    ids_valid (apply_call now st c).1
    ∧ queue_ids_valid (apply_call now st c).1 (apply_call now st c).2 := by
  have hopen : ∀ n : String, ids_valid (st.1.event_open n).1
      ∧ queue_ids_valid (st.1.event_open n).1 st.2 := by
    intro n
    have hr := event_open_rest st.1 n
    have hl := event_open_length st.1 n
    exact ⟨ids_valid_grow hr.2.1 hr.2.2.2.1 hr.2.2.2.2.1 hl (by rw [hr.2.2.1]) h1,
      queue_ids_valid_grow hl (by rw [hr.2.2.1]) rfl rfl h2⟩
  cases c with
  | event_open n => exact hopen (c_str n)
  | event_create_periodic n d =>
    simp only [apply_call, _lua_event_create_periodic]
    rw [event_create_periodic_eq]
    split <;> rename_i h <;> revert h <;> split <;> intro h <;> cases h
    · exact hopen (c_str n)
    · exact hopen (c_str n)
  | event_subscribe id f =>
    simp only [apply_call, _lua_event_subscribe]
    split
    · exact ⟨h1, h2⟩
    · rename_i hr
      have h0 : 0 ≤ id := by omega
      have h3 : id < (st.1.eventnames_.length : Int) := by omega
      exact ⟨⟨keys_below_map_set h1.1 id _ h0 h3, h1.2.1, h1.2.2⟩, h2⟩
  | event_publish id =>
    simp only [apply_call, _lua_event_publish, executor.event_publish]
    refine ⟨⟨h1.1, h1.2.1, ?_⟩, deliver_event_queue_ids st.1 h1.1 _ st.2 h2⟩
    intro s hs
    obtain ⟨s0, hs0, rfl⟩ := List.mem_map.1 hs
    exact deliver_event_queue_ids st.1 h1.1 _ s0 (h1.2.2 s0 hs0)
  | event_name id => simp only [apply_call, _lua_event_name]; split <;> exact ⟨h1, h2⟩
  | timer_open n =>
    simp only [apply_call, _lua_timer_open]
    have hr := timer_open_ids st.1 n now _ rfl
    obtain ⟨hE, hT, hS, hN, hL, h0, h3⟩ := hr
    refine ⟨⟨?_, ?_, ?_⟩, ?_⟩
    · show keys_below _ _
      simp only [executor.add_timer_subscription]
      rw [hE, hN]; exact h1.1
    · show keys_below _ _
      simp only [executor.add_timer_subscription]
      refine keys_below_map_set ?_ _ _ h0 h3
      rw [hT]; exact keys_below_mono h1.2.1 hL
    · intro s hs
      simp only [executor.add_timer_subscription] at hs ⊢
      rw [hS] at hs
      exact queue_ids_valid_grow (by rw [hN]) hL rfl rfl (h1.2.2 s hs)
    · simp only [executor.add_timer_subscription]
      exact queue_ids_valid_grow (by rw [hN]) hL rfl rfl h2
  | timer_subscribe id f => exact ⟨h1, h2⟩
  | timer_elapse_after ix d =>
    simp only [apply_call, _lua_timer_elapse_after]
    split
    · exact ⟨h1, h2⟩
    · have hlen := (update_timer_spec st.1.timers_ ix (fun t => t.elapse_after d now)).1
      exact ⟨@ids_valid_grow σ st.1 _ rfl rfl rfl (le_refl _) (le_of_eq hlen.symm) h1,
        @queue_ids_valid_grow σ st.1 _ st.2 _ (le_refl _) (le_of_eq hlen.symm) rfl rfl h2⟩
  | timer_stop ix =>
    simp only [apply_call, _lua_timer_stop]
    split
    · exact ⟨h1, h2⟩
    · have hlen := (update_timer_spec st.1.timers_ ix timer.stop).1
      exact ⟨@ids_valid_grow σ st.1 _ rfl rfl rfl (le_refl _) (le_of_eq hlen.symm) h1,
        @queue_ids_valid_grow σ st.1 _ st.2 _ (le_refl _) (le_of_eq hlen.symm) rfl rfl h2⟩
  | timer_is_elapsed id =>
    simp only [apply_call, _lua_timer_is_elapsed]
    split
    · exact ⟨h1, h2.1, fun x hx => h2.2 x (mem_erase_first hx)⟩
    · exact ⟨h1, h2⟩
  | timer_is_active ix =>
    simp only [apply_call, _lua_timer_is_active]
    split <;> [skip; split] <;> exact ⟨h1, h2⟩
  | timer_remaining ix =>
    simp only [apply_call, _lua_timer_remaining]
    split <;> [skip; split] <;> exact ⟨h1, h2⟩
  | timer_name id =>
    simp only [apply_call, _lua_timer_name]
    split <;> [skip; split] <;> exact ⟨h1, h2⟩

theorem apply_calls_ids_valid {σ : Type} (now : Int) (calls : List host_call) :
    ∀ st : executor σ × lua_script σ, ids_valid st.1 → queue_ids_valid st.1 st.2 →
      ids_valid (apply_calls now st calls).1
      ∧ queue_ids_valid (apply_calls now st calls).1 (apply_calls now st calls).2 := by
  induction calls with
  | nil => intro st h1 h2; exact ⟨h1, h2⟩
  | cons c rest ih =>
    intro st h1 h2
    have h := apply_call_ids_valid now st c h1 h2
    exact ih (apply_call now st c) h.1 h.2

theorem script_call_ids_valid {σ : Type} (e : executor σ) (i : Nat) (c : host_call) (now : Int)
    (h : ids_valid e) : ids_valid (e.script_call i c now) := by
  unfold executor.script_call
  cases hsc : e.scripts_[i]? with
  | none => exact h
  | some script =>
    dsimp only
    have hmem : script ∈ e.scripts_ := List.getElem?_mem hsc
    have h1 : ids_valid ({ e with scripts_ := e.scripts_.eraseIdx i } : executor σ) :=
      ⟨h.1, h.2.1, fun s hs => h.2.2 s ((List.eraseIdx_sublist _ _).subset hs)⟩
    have h2 : queue_ids_valid ({ e with scripts_ := e.scripts_.eraseIdx i } : executor σ) script :=
      h.2.2 script hmem
    have h3 := apply_call_ids_valid now
      (({ e with scripts_ := e.scripts_.eraseIdx i } : executor σ), script) c h1 h2
    refine ⟨h3.1.1, h3.1.2.1, ?_⟩
    intro s hs
    rcases List.mem_append.1 hs with h4 | h4
    · exact h3.1.2.2 s (List.mem_of_mem_take h4)
    · rcases List.mem_cons.1 h4 with h5 | h5
      · rw [h5]; exact h3.2
      · exact h3.1.2.2 s (List.mem_of_mem_drop h5)

theorem check_event_timers_loop_ids {σ : Type} (now : Int) (m : List (Int × List Nat))
    (nE nT : Nat) (hm : keys_below m nE) (ts : List (Int × timer)) :
    ∀ l : List (lua_script σ),
      (∀ s ∈ l, ids_below s.event_queue nE ∧ ids_below s.elapsed_timers nT) →
      ∀ s ∈ (check_event_timers_loop now m ts l).2,
        ids_below s.event_queue nE ∧ ids_below s.elapsed_timers nT := by
  induction ts with
  | nil => intro l hl; exact hl
  | cons kv rest ih =>
    intro l hl
    obtain ⟨id, t⟩ := kv
    unfold check_event_timers_loop
    dsimp only
    apply ih
    split
    · intro s hs
      obtain ⟨s0, hs0, rfl⟩ := List.mem_map.1 hs
      refine ⟨deliver_event_ids hm id s0 (hl s0 hs0).1, ?_⟩
      rw [(deliver_event_frame _ _ _).2.2]
      exact (hl s0 hs0).2
    · exact hl

theorem check_timers_loop_ids {σ : Type} (now : Int) (m : List (Int × List Nat))
    (nE nT : Nat) (hm : keys_below m nT) (ts : List timer) :
    ∀ (i : Nat) (l : List (lua_script σ)),
      (∀ s ∈ l, ids_below s.event_queue nE ∧ ids_below s.elapsed_timers nT) →
      (check_timers_loop now m i ts l).1.length = ts.length
      ∧ ∀ s ∈ (check_timers_loop now m i ts l).2,
        ids_below s.event_queue nE ∧ ids_below s.elapsed_timers nT := by
  induction ts with
  | nil => intro i l hl; exact ⟨rfl, hl⟩
  | cons t rest ih =>
    intro i l hl
    unfold check_timers_loop
    dsimp only
    have hmid : ∀ s ∈ (if (t.elapsed now).1 = true then l.map (notify_timer m (i : Int)) else l),
        ids_below s.event_queue nE ∧ ids_below s.elapsed_timers nT := by
      split
      · intro s hs
        obtain ⟨s0, hs0, rfl⟩ := List.mem_map.1 hs
        refine ⟨?_, notify_timer_ids hm _ s0 (hl s0 hs0).2⟩
        rw [(notify_timer_frame _ _ _).1]
        exact (hl s0 hs0).1
      · exact hl
    have h := ih (i + 1) _ hmid
    exact ⟨by simp [h.1], h.2⟩

theorem check_event_timers_ids_valid {σ : Type} (e : executor σ) (now : Int) (h : ids_valid e) :
    ids_valid (e.check_event_timers now) := by
  unfold executor.check_event_timers
  dsimp only
  exact ⟨h.1, h.2.1,
    check_event_timers_loop_ids now e.event_subscribers_ _ _ h.1 e.periodic_event_timers_
      e.scripts_ h.2.2⟩

theorem check_timers_ids_valid {σ : Type} (e : executor σ) (now : Int) (h : ids_valid e) :
    ids_valid (e.check_timers now) := by
  unfold executor.check_timers
  dsimp only
  have hl := check_timers_loop_ids now e.timer_subscribers_ e.eventnames_.length
    e.timers_.length h.2.1 e.timers_ 0 e.scripts_ h.2.2
  refine ⟨h.1, ?_, ?_⟩
  · show keys_below e.timer_subscribers_ (check_timers_loop now e.timer_subscribers_ 0 e.timers_
      e.scripts_).1.length
    rw [hl.1]; exact h.2.1
  · intro s hs
    have := hl.2 s hs
    refine ⟨this.1, ?_⟩
    show ids_below s.elapsed_timers (check_timers_loop now e.timer_subscribers_ 0 e.timers_
      e.scripts_).1.length
    rw [hl.1]; exact this.2

theorem run_loop_scripts_registries {σ : Type} (vm : LuaVM σ) (now : Int)
    (todo : List (lua_script σ)) :
    ∀ (e : executor σ) (kept : List (lua_script σ)),
      (run_loop_scripts vm now e kept todo).1.eventnames_ = e.eventnames_
      ∧ (run_loop_scripts vm now e kept todo).1.timers_ = e.timers_
      ∧ (run_loop_scripts vm now e kept todo).1.periodic_event_timers_ = e.periodic_event_timers_
      ∧ (run_loop_scripts vm now e kept todo).1.event_subscribers_.map Prod.fst
          = e.event_subscribers_.map Prod.fst
      ∧ (run_loop_scripts vm now e kept todo).1.timer_subscribers_.map Prod.fst
          = e.timer_subscribers_.map Prod.fst := by
  induction todo with
  | nil => intro e kept; simp [run_loop_scripts]
  | cons script rest ih =>
    intro e kept
    have hstep := run_loop_scripts_cons vm now e kept script rest
    by_cases hf : tick_failed vm script = true
    · rw [hstep.1 hf]
      have h := ih (({ e with total_ops_ := e.total_ops_ + 1 } : executor σ).unsubscribe_all
        script.addr) kept
      refine ⟨h.1, h.2.1, h.2.2.1, ?_, ?_⟩
      · rw [h.2.2.2.1]
        simp [executor.unsubscribe_all, List.map_map, Function.comp_def]
      · rw [h.2.2.2.2]
        simp [executor.unsubscribe_all, List.map_map, Function.comp_def]
    · have hf2 : tick_failed vm script = false := by simpa using hf
      rw [hstep.2 hf2]
      exact ih _ _

theorem keys_below_of_keys {m m2 : List (Int × List Nat)} {n : Nat}
    (hk : m2.map Prod.fst = m.map Prod.fst) (h : keys_below m n) : keys_below m2 n := by
  intro kv hkv
  have h1 : kv.1 ∈ m2.map Prod.fst := List.mem_map_of_mem _ hkv
  rw [hk] at h1
  obtain ⟨kv0, h0, h2⟩ := List.mem_map.1 h1
  rw [← h2]
  exact h kv0 h0

theorem tick_failed_false {σ : Type} (vm : LuaVM σ) (s : lua_script σ)
    (h : tick_failed vm s = false) : (s.handle_lua_callbacks vm).1 = true := by
  unfold tick_failed at h
  dsimp only at h
  by_contra hc
  simp [hc] at h

theorem tick_script_queues {σ : Type} (vm : LuaVM σ) (now : Int) (s : lua_script σ) :
    (tick_script vm now s).event_queue = (s.handle_lua_callbacks vm).2.1.event_queue
    ∧ (tick_script vm now s).elapsed_timers = (s.handle_lua_callbacks vm).2.1.elapsed_timers
    ∧ (tick_script vm now s).event_handlers = (s.handle_lua_callbacks vm).2.1.event_handlers
    ∧ (tick_script vm now s).timer_handlers = (s.handle_lua_callbacks vm).2.1.timer_handlers
    ∧ (tick_script vm now s).addr = (s.handle_lua_callbacks vm).2.1.addr := by
  unfold tick_script
  dsimp only
  split <;> exact ⟨rfl, rfl, rfl, rfl, rfl⟩

theorem run_loop_ids_valid {σ : Type} (vm : LuaVM σ) (e : executor σ) (now : Int)
    (h : ids_valid e) : ids_valid (e.run_loop vm now) := by
  have h1 := check_timers_ids_valid _ now (check_event_timers_ids_valid e now h)
  unfold executor.run_loop executor.run_loop_log
  dsimp only
  generalize (e.check_event_timers now).check_timers now = e1 at h1
  have hreg := run_loop_scripts_registries vm now e1.scripts_ e1 []
  have hobj := run_loop_scripts_objects vm now e1.scripts_ e1 []
  refine ⟨?_, ?_, ?_⟩
  · rw [hreg.1]; exact keys_below_of_keys hreg.2.2.2.1 h1.1
  · rw [hreg.2.1]; exact keys_below_of_keys hreg.2.2.2.2 h1.2.1
  · intro s hs
    rw [hobj] at hs
    simp only [List.nil_append, List.mem_map, List.mem_filter] at hs
    obtain ⟨s0, ⟨hs0, hnf⟩, rfl⟩ := hs
    have hok := handle_lua_callbacks_ok vm s0 (tick_failed_false vm s0 (by simpa using hnf))
    have hq := tick_script_queues vm now s0
    have hv := h1.2.2 s0 hs0
    refine ⟨?_, ?_⟩
    · rw [hreg.1, hq.1, hok.2.1]
      intro id hid
      simp at hid
    · rw [hreg.2.1, hq.2.1, hok.2.2.1]
      intro id hid
      exact hv.2 id (List.mem_filter.1 hid).1

theorem reference_init_and_loop_queues {σ : Type} (vm : LuaVM σ) (s : lua_script σ) :
    (s.reference_init_and_loop vm).2.event_queue = s.event_queue
    ∧ (s.reference_init_and_loop vm).2.elapsed_timers = s.elapsed_timers
    ∧ (s.reference_init_and_loop vm).2.event_handlers = s.event_handlers
    ∧ (s.reference_init_and_loop vm).2.timer_handlers = s.timer_handlers := by
  unfold lua_script.reference_init_and_loop
  dsimp only
  split <;> exact ⟨rfl, rfl, rfl, rfl⟩

theorem load_and_execute_ids_valid {σ : Type} (vm : LuaVM σ) (now : Int) (e : executor σ)
    (s : lua_script σ) (compiled : Bool × σ) (h1 : ids_valid e) (h2 : queue_ids_valid e s) :
    ids_valid (s.load_and_execute vm now e compiled).2.1
    ∧ queue_ids_valid (s.load_and_execute vm now e compiled).2.1
        (s.load_and_execute vm now e compiled).2.2.1 := by
  unfold lua_script.load_and_execute
  dsimp only
  have ha := apply_calls_ids_valid now (vm.pcall_chunk compiled.2).calls (e, s) h1 h2
  split
  · split
    · refine ⟨ha.1, ?_⟩
      have hq := reference_init_and_loop_queues vm
        ({ (apply_calls now (e, s) (vm.pcall_chunk compiled.2).calls).2 with
            L := (vm.pcall_chunk compiled.2).L } : lua_script σ)
      exact ⟨by rw [hq.1]; exact ha.2.1, by rw [hq.2.1]; exact ha.2.2⟩
    · exact ⟨ha.1, ha.2⟩
  · exact ⟨h1, h2⟩

theorem ids_valid_append {σ : Type} (e : executor σ) (s : lua_script σ) (h1 : ids_valid e)
    (h2 : queue_ids_valid e s) :
    ids_valid ({ e with scripts_ := e.scripts_ ++ [s] } : executor σ) := by
  refine ⟨h1.1, h1.2.1, ?_⟩
  intro x hx
  rcases List.mem_append.1 hx with h | h
  · exact h1.2.2 x h
  · rw [List.mem_singleton.1 h]; exact h2

theorem unsubscribe_all_ids_valid {σ : Type} (e : executor σ) (p : Nat) (h : ids_valid e) :
    ids_valid (e.unsubscribe_all p) :=
  ⟨keys_below_erase h.1 p, keys_below_erase h.2.1 p, h.2.2⟩

theorem finish_load_ids_valid {σ : Type} (vm : LuaVM σ) (now : Int)
    (ld : Bool × executor σ × lua_script σ × List invocation)
    (h1 : ids_valid ld.2.1) (h2 : queue_ids_valid ld.2.1 ld.2.2.1) :
    ids_valid (executor.finish_load vm now ld).2.1 := by
  unfold executor.finish_load
  dsimp only
  split
  · split
    · have ha := apply_calls_ids_valid now
        (vm.pcall_init ld.2.2.1.L ld.2.2.1.initFunctionRef).calls
        (ld.2.1, { ld.2.2.1 with ts_begin_loop := now }) h1 h2
      split
      · exact unsubscribe_all_ids_valid _ _ ha.1
      · exact ids_valid_append _ _ ha.1 ha.2
    · exact ids_valid_append _ _ h1 h2
  · exact h1

theorem loadScriptFromBuffer_ids_valid {σ : Type} (vm : LuaVM σ) (e : executor σ) (addr : Nat)
    (script_buffer : String) (now : Int) (h : ids_valid e) :
    ids_valid (e.loadScriptFromBuffer vm addr script_buffer now).2.1 := by
  unfold executor.loadScriptFromBuffer lua_script.loadAndExecuteFromBuffer
  have h2 : queue_ids_valid e (lua_script.mk_script vm addr now) :=
    ⟨fun id hid => by simp [lua_script.mk_script] at hid,
     fun id hid => by simp [lua_script.mk_script] at hid⟩
  have hl := load_and_execute_ids_valid vm now e (lua_script.mk_script vm addr now)
    (vm.luaL_loadbuffer (lua_script.mk_script vm addr now).L script_buffer) h h2
  exact finish_load_ids_valid vm now _ hl.1 hl.2

theorem step_ids_valid {σ : Type} (vm : LuaVM σ) (e : executor σ) (st : sys_step)
    (h : ids_valid e) : ids_valid (e.step vm st) := by
  cases st with
  | call i c now => exact script_call_ids_valid e i c now h
  | check_event_timers now => exact check_event_timers_ids_valid e now h
  | check_timers now => exact check_timers_ids_valid e now h
  | run_loop now => exact run_loop_ids_valid vm e now h
  | load_buffer addr script_buffer now => exact loadScriptFromBuffer_ids_valid vm e addr _ now h

/-- C27. In every state reached from the empty executor, or from any state in which
the property holds, by a run made of script loads, binding calls of live scripts
(with any arguments), `check_event_timers`, `check_timers` and `run_loop`: every key
of `event_subscribers_` is in [0, number of events), every key of
`timer_subscribers_` is in [0, number of timers), every event id in the event queue
of a live script is in [0, number of events) and every timer id in the pending
elapsed list of a live script is in [0, number of timers). -/
theorem subscription_keys_are_valid_ids {σ : Type} (vm : LuaVM σ) (e : executor σ)
    (run : List sys_step) (h : ids_valid e) :
    ids_valid (executor.make_unique σ)
    ∧ ids_valid ((executor.make_unique σ).steps vm run)
    ∧ ids_valid (e.steps vm run)
    ∧ (∀ kv ∈ (e.steps vm run).event_subscribers_,
        0 ≤ kv.1 ∧ kv.1 < ((e.steps vm run).eventnames_.length : Int))
    ∧ (∀ kv ∈ (e.steps vm run).timer_subscribers_,
        0 ≤ kv.1 ∧ kv.1 < ((e.steps vm run).timers_.length : Int))
    ∧ (∀ s ∈ (e.steps vm run).scripts_, ∀ id ∈ s.event_queue,
        0 ≤ id ∧ id < ((e.steps vm run).eventnames_.length : Int))
    ∧ (∀ s ∈ (e.steps vm run).scripts_, ∀ id ∈ s.elapsed_timers,
        0 ≤ id ∧ id < ((e.steps vm run).timers_.length : Int)) := by
  have h0 : ids_valid (executor.make_unique σ) :=
    ⟨fun kv hkv => by simp [executor.make_unique] at hkv,
     fun kv hkv => by simp [executor.make_unique] at hkv,
     fun s hs => by simp [executor.make_unique] at hs⟩
  have hsteps : ∀ (l : List sys_step) (x : executor σ), ids_valid x → ids_valid (x.steps vm l) := by
    intro l
    induction l with
    | nil => intro x hx; exact hx
    | cons st rest ih => intro x hx; exact ih (x.step vm st) (step_ids_valid vm x st hx)
  have hr := hsteps run e h
  exact ⟨h0, hsteps run _ h0, hr, hr.1, hr.2.1, fun s hs => (hr.2.2 s hs).1,
    fun s hs => (hr.2.2 s hs).2⟩

/-- C27 on the run `demo_run` from the empty executor: the only subscription keys
are event 0 and timer 0, and the live script has event 0 queued and timer 0
pending; the ids 99 and 42 that the script passed left no trace in them. -/
theorem subscription_keys_are_valid_ids_witness :
    ids_valid (executor.make_unique (Nat × Nat))
    ∧ ids_valid ((executor.make_unique (Nat × Nat)).steps demo_vm demo_run)
    ∧ ((executor.make_unique (Nat × Nat)).steps demo_vm demo_run).eventnames_ = ["e"]
    ∧ ((executor.make_unique (Nat × Nat)).steps demo_vm demo_run).timers_.length = 1
    ∧ ((executor.make_unique (Nat × Nat)).steps demo_vm demo_run).event_subscribers_ = [(0, [1])]
    ∧ ((executor.make_unique (Nat × Nat)).steps demo_vm demo_run).timer_subscribers_ = [(0, [1])]
    ∧ ((executor.make_unique (Nat × Nat)).steps demo_vm demo_run).scripts_.map
        (fun s => (s.event_queue, s.elapsed_timers)) = [([0], [0])] :=
  ⟨by decide,
   (subscription_keys_are_valid_ids demo_vm (executor.make_unique (Nat × Nat)) demo_run
      (by decide)).2.2.1,
   by decide, by decide, by decide, by decide, by decide⟩


/-! ## Queued events and handlers on runs that load at unused addresses -/

theorem map_find_map_set_isSome (h : List (Int × Int)) (k f k2 : Int)
    (hs : (map_find h k2).isSome = true) : (map_find (map_set h k f) k2).isSome = true := by
  by_cases hk : k2 = k
  · subst hk
    rw [map_find_map_set_self]
    rfl
  · rw [map_find_map_set_other h k k2 f hk]
    exact hs

theorem has_handlers_frame {σ : Type} {m m2 : List (Int × List Nat)} {s s2 : lua_script σ}
    (hm : m2 = m) (hq : s2.event_queue = s.event_queue)
    (hh : s2.event_handlers = s.event_handlers) (ha : s2.addr = s.addr)
    (h : has_handlers m s) : has_handlers m2 s2 := by
  subst hm
  refine ⟨?_, ?_⟩
  · rw [hq, hh]; exact h.1
  · rw [hh, ha]; exact h.2

theorem deliver_event_has_handlers {σ : Type} (m : List (Int × List Nat)) (k : Int)
    (s : lua_script σ) (h : has_handlers m s) : has_handlers m (deliver_event m k s) := by
  refine ⟨?_, ?_⟩
  · rw [(deliver_event_frame m k s).1]
    unfold deliver_event
    split
    · rename_i scripts hfind
      split
      · rename_i hmem
        intro id hid
        simp only [lua_script.event_publish, List.mem_append, List.mem_singleton] at hid
        rcases hid with h1 | h1
        · exact h.1 id h1
        · rw [h1]
          exact h.2 (k, scripts) (map_find_mem m k scripts hfind) hmem
      · exact h.1
    · exact h.1
  · rw [(deliver_event_frame m k s).1, deliver_event_addr]
    exact h.2

theorem notify_timer_has_handlers {σ : Type} (m mt : List (Int × List Nat)) (k : Int)
    (s : lua_script σ) (h : has_handlers m s) : has_handlers m (notify_timer mt k s) :=
  has_handlers_frame rfl (notify_timer_frame mt k s).1 (notify_timer_frame mt k s).2
    (notify_timer_addr mt k s) h

theorem apply_call_handlers {σ : Type} (now : Int) (st : executor σ × lua_script σ)
    (c : host_call) (hcaller : st.2.addr ∉ st.1.scripts_.map (fun s => s.addr))
    (h1 : ∀ s ∈ st.1.scripts_, has_handlers st.1.event_subscribers_ s)
    (h2 : has_handlers st.1.event_subscribers_ st.2) :
    (∀ s ∈ (apply_call now st c).1.scripts_,
        has_handlers (apply_call now st c).1.event_subscribers_ s)
    ∧ has_handlers (apply_call now st c).1.event_subscribers_ (apply_call now st c).2 := by
  have hopen : ∀ n : String,
      (∀ s ∈ (st.1.event_open n).1.scripts_,
        has_handlers (st.1.event_open n).1.event_subscribers_ s)
      ∧ has_handlers (st.1.event_open n).1.event_subscribers_ st.2 := by
    intro n
    have hr := event_open_rest st.1 n
    rw [hr.2.1, hr.2.2.2.2.1]
    exact ⟨h1, h2⟩
  cases c with
  | event_open n => exact hopen (c_str n)
  | event_create_periodic n d =>
    simp only [apply_call, _lua_event_create_periodic]
    rw [event_create_periodic_eq]
    split <;> rename_i h <;> revert h <;> split <;> intro h <;> cases h
    · exact hopen (c_str n)
    · exact hopen (c_str n)
  | event_subscribe id f =>
    simp only [apply_call, _lua_event_subscribe]
    split
    · exact ⟨h1, h2⟩
    · simp only [executor.add_event_subscription]
      refine ⟨?_, ?_, ?_⟩
      · intro s hs
        refine ⟨(h1 s hs).1, ?_⟩
        intro kv hkv hmem
        rcases mem_map_set _ _ _ kv hkv with h3 | h3
        · rw [h3] at hmem ⊢
          rcases (mem_set_insert _ _ _).1 hmem with h4 | h4
          · dsimp only at h4 ⊢
            unfold subscribers_of at h4
            cases hf : map_find st.1.event_subscribers_ id with
            | none => rw [hf] at h4; simp at h4
            | some set =>
              rw [hf] at h4
              exact (h1 s hs).2 (id, set) (map_find_mem _ _ _ hf) h4
          · have hin : s.addr ∈ st.1.scripts_.map (fun s => s.addr) :=
              List.mem_map_of_mem (fun s => s.addr) hs
            rw [h4] at hin
            exact absurd hin hcaller
        · exact (h1 s hs).2 kv h3 hmem
      · intro k hk
        exact map_find_map_set_isSome _ _ _ _ (h2.1 k hk)
      · intro kv hkv hmem
        rcases mem_map_set _ _ _ kv hkv with h3 | h3
        · rw [h3]
          dsimp only
          rw [map_find_map_set_self]
          rfl
        · exact map_find_map_set_isSome _ _ _ _ (h2.2 kv h3 hmem)
  | event_publish id =>
    simp only [apply_call, _lua_event_publish, executor.event_publish]
    refine ⟨?_, deliver_event_has_handlers _ _ _ h2⟩
    intro s hs
    obtain ⟨s0, hs0, rfl⟩ := List.mem_map.1 hs
    exact deliver_event_has_handlers _ _ _ (h1 s0 hs0)
  | event_name id => simp only [apply_call, _lua_event_name]; split <;> exact ⟨h1, h2⟩
  | timer_open n =>
    simp only [apply_call, _lua_timer_open, executor.add_timer_subscription]
    have hr := timer_open_ids st.1 n now _ rfl
    obtain ⟨hE, _, hS, _, _, _, _⟩ := hr
    rw [hE, hS]
    exact ⟨h1, h2⟩
  | timer_subscribe id f => exact ⟨h1, has_handlers_frame rfl rfl rfl rfl h2⟩
  | timer_elapse_after ix d =>
    simp only [apply_call, _lua_timer_elapse_after]
    split <;> exact ⟨h1, h2⟩
  | timer_stop ix =>
    simp only [apply_call, _lua_timer_stop]
    split <;> exact ⟨h1, h2⟩
  | timer_is_elapsed id =>
    simp only [apply_call, _lua_timer_is_elapsed]
    split
    · exact ⟨h1, has_handlers_frame rfl rfl rfl rfl h2⟩
    · exact ⟨h1, h2⟩
  | timer_is_active ix =>
    simp only [apply_call, _lua_timer_is_active]
    split <;> [skip; split] <;> exact ⟨h1, h2⟩
  | timer_remaining ix =>
    simp only [apply_call, _lua_timer_remaining]
    split <;> [skip; split] <;> exact ⟨h1, h2⟩
  | timer_name id =>
    simp only [apply_call, _lua_timer_name]
    split <;> [skip; split] <;> exact ⟨h1, h2⟩

theorem apply_calls_handlers {σ : Type} (now : Int) (calls : List host_call) :
    ∀ st : executor σ × lua_script σ, st.2.addr ∉ st.1.scripts_.map (fun s => s.addr) →
      (∀ s ∈ st.1.scripts_, has_handlers st.1.event_subscribers_ s) →
      has_handlers st.1.event_subscribers_ st.2 →
      (∀ s ∈ (apply_calls now st calls).1.scripts_,
          has_handlers (apply_calls now st calls).1.event_subscribers_ s)
      ∧ has_handlers (apply_calls now st calls).1.event_subscribers_ (apply_calls now st calls).2 := by
  induction calls with
  | nil => intro st _ h1 h2; exact ⟨h1, h2⟩
  | cons c rest ih =>
    intro st hc h1 h2
    have h := apply_call_handlers now st c hc h1 h2
    have ha := apply_call_addr now st c
    exact ih (apply_call now st c) (by rw [ha.1, ha.2]; exact hc) h.1 h.2

theorem script_call_handlers {σ : Type} (e : executor σ) (i : Nat) (c : host_call) (now : Int)
    (h : handlers_present e) : handlers_present (e.script_call i c now) := by
  unfold executor.script_call
  cases hsc : e.scripts_[i]? with
  | none => exact h
  | some script =>
    dsimp only
    have hget : (e.scripts_.map (fun s => s.addr))[i]? = some script.addr := by
      simp [List.getElem?_map, hsc]
    have hcaller : script.addr ∉ (e.scripts_.eraseIdx i).map (fun s => s.addr) := by
      rw [map_eraseIdx]
      exact not_mem_eraseIdx_of_nodup _ i _ h.1 hget
    have h1 : ∀ s ∈ e.scripts_.eraseIdx i, has_handlers e.event_subscribers_ s :=
      fun s hs => h.2 s ((List.eraseIdx_sublist _ _).subset hs)
    have h2 : has_handlers e.event_subscribers_ script := h.2 script (List.getElem?_mem hsc)
    have h3 := apply_call_handlers now
      (({ e with scripts_ := e.scripts_.eraseIdx i } : executor σ), script) c hcaller h1 h2
    have ha := apply_call_addr now
      (({ e with scripts_ := e.scripts_.eraseIdx i } : executor σ), script) c
    dsimp only at ha
    refine ⟨?_, ?_⟩
    · simp only [List.map_append, List.map_cons, List.map_take, List.map_drop]
      rw [ha.1, ha.2, map_eraseIdx, reinsert_erased _ i _ hget]
      exact h.1
    · intro s hs
      rcases List.mem_append.1 hs with h4 | h4
      · exact h3.1 s (List.mem_of_mem_take h4)
      · rcases List.mem_cons.1 h4 with h5 | h5
        · rw [h5]; exact h3.2
        · exact h3.1 s (List.mem_of_mem_drop h5)

theorem check_event_timers_loop_handlers {σ : Type} (now : Int) (m : List (Int × List Nat))
    (ts : List (Int × timer)) :
    ∀ l : List (lua_script σ), (∀ s ∈ l, has_handlers m s) →
      ∀ s ∈ (check_event_timers_loop now m ts l).2, has_handlers m s := by
  induction ts with
  | nil => intro l hl; exact hl
  | cons kv rest ih =>
    intro l hl
    obtain ⟨id, t⟩ := kv
    unfold check_event_timers_loop
    dsimp only
    apply ih
    split
    · intro s hs
      obtain ⟨s0, hs0, rfl⟩ := List.mem_map.1 hs
      exact deliver_event_has_handlers m id s0 (hl s0 hs0)
    · exact hl

theorem check_timers_loop_handlers {σ : Type} (now : Int) (m mt : List (Int × List Nat))
    (ts : List timer) :
    ∀ (i : Nat) (l : List (lua_script σ)), (∀ s ∈ l, has_handlers m s) →
      ∀ s ∈ (check_timers_loop now mt i ts l).2, has_handlers m s := by
  induction ts with
  | nil => intro i l hl; exact hl
  | cons t rest ih =>
    intro i l hl
    unfold check_timers_loop
    dsimp only
    apply ih
    split
    · intro s hs
      obtain ⟨s0, hs0, rfl⟩ := List.mem_map.1 hs
      exact notify_timer_has_handlers m mt _ s0 (hl s0 hs0)
    · exact hl

theorem check_event_timers_handlers {σ : Type} (e : executor σ) (now : Int)
    (h : handlers_present e) : handlers_present (e.check_event_timers now) := by
  unfold executor.check_event_timers
  dsimp only
  refine ⟨?_, check_event_timers_loop_handlers now _ _ _ h.2⟩
  show ((check_event_timers_loop now e.event_subscribers_ e.periodic_event_timers_
    e.scripts_).2.map (fun s => s.addr)).Nodup
  rw [check_event_timers_loop_addr]
  exact h.1

theorem check_timers_handlers {σ : Type} (e : executor σ) (now : Int)
    (h : handlers_present e) : handlers_present (e.check_timers now) := by
  unfold executor.check_timers
  dsimp only
  refine ⟨?_, check_timers_loop_handlers now _ _ _ 0 _ h.2⟩
  show ((check_timers_loop now e.timer_subscribers_ 0 e.timers_ e.scripts_).2.map
    (fun s => s.addr)).Nodup
  rw [check_timers_loop_addr]
  exact h.1

theorem has_handlers_subset {σ : Type} {m m2 : List (Int × List Nat)} {s : lua_script σ}
    (hsub : ∀ kv ∈ m2, ∃ kv0 ∈ m, kv0.1 = kv.1 ∧ ∀ p ∈ kv.2, p ∈ kv0.2)
    (h : has_handlers m s) : has_handlers m2 s := by
  refine ⟨h.1, ?_⟩
  intro kv hkv hmem
  obtain ⟨kv0, h0, hk, hp⟩ := hsub kv hkv
  rw [← hk]
  exact h.2 kv0 h0 (hp _ hmem)

theorem erase_subset (m : List (Int × List Nat)) (p : Nat) :
    ∀ kv ∈ m.map (fun kv => (kv.1, set_erase kv.2 p)),
      ∃ kv0 ∈ m, kv0.1 = kv.1 ∧ ∀ q ∈ kv.2, q ∈ kv0.2 := by
  intro kv hkv
  obtain ⟨kv0, h0, rfl⟩ := List.mem_map.1 hkv
  exact ⟨kv0, h0, rfl, fun q hq => ((mem_set_erase _ _ _).1 hq).1⟩

theorem run_loop_scripts_subscribers_subset {σ : Type} (vm : LuaVM σ) (now : Int)
    (todo : List (lua_script σ)) :
    ∀ (e : executor σ) (kept : List (lua_script σ)),
      ∀ kv ∈ (run_loop_scripts vm now e kept todo).1.event_subscribers_,
        ∃ kv0 ∈ e.event_subscribers_, kv0.1 = kv.1 ∧ ∀ p ∈ kv.2, p ∈ kv0.2 := by
  induction todo with
  | nil =>
    intro e kept kv hkv
    simp only [run_loop_scripts] at hkv
    exact ⟨kv, hkv, rfl, fun p hp => hp⟩
  | cons script rest ih =>
    intro e kept kv hkv
    have hstep := run_loop_scripts_cons vm now e kept script rest
    by_cases hf : tick_failed vm script = true
    · rw [hstep.1 hf] at hkv
      obtain ⟨kv1, h1, hk1, hp1⟩ := ih _ _ kv hkv
      obtain ⟨kv0, h0, hk0, hp0⟩ := erase_subset e.event_subscribers_ script.addr kv1 h1
      exact ⟨kv0, h0, hk0.trans hk1, fun p hp => hp0 p (hp1 p hp)⟩
    · have hf2 : tick_failed vm script = false := by simpa using hf
      rw [hstep.2 hf2] at hkv
      exact ih ({ e with total_ops_ := e.total_ops_ + 1 } : executor σ) _ kv hkv

theorem handle_lua_callbacks_handlers {σ : Type} (vm : LuaVM σ) (s : lua_script σ) :
    (s.handle_lua_callbacks vm).2.1.event_handlers = s.event_handlers := by
  unfold lua_script.handle_lua_callbacks
  dsimp only
  split
  · exact (handle_timers_frame vm _ _ _).2.2.1.trans (handle_events_frame vm _ _).2.2.1
  · exact (handle_events_frame vm _ _).2.2.1

theorem run_loop_handlers {σ : Type} (vm : LuaVM σ) (e : executor σ) (now : Int)
    (h : handlers_present e) : handlers_present (e.run_loop vm now) := by
  have h1 := check_timers_handlers _ now (check_event_timers_handlers e now h)
  unfold executor.run_loop executor.run_loop_log
  dsimp only
  generalize (e.check_event_timers now).check_timers now = e1 at h1
  have hspec := (run_loop_scripts_spec vm now e1.scripts_ e1 []).1
  have hobj := run_loop_scripts_objects vm now e1.scripts_ e1 []
  have hsub := run_loop_scripts_subscribers_subset vm now e1.scripts_ e1 []
  refine ⟨?_, ?_⟩
  · rw [hspec]
    simp only [List.map_nil, List.nil_append]
    exact ((List.filter_sublist _).map _).nodup h1.1
  · intro s hs
    rw [hobj] at hs
    simp only [List.nil_append, List.mem_map, List.mem_filter] at hs
    obtain ⟨s0, ⟨hs0, hnf⟩, rfl⟩ := hs
    have hok := handle_lua_callbacks_ok vm s0 (tick_failed_false vm s0 (by simpa using hnf))
    have hq := tick_script_queues vm now s0
    have hv := has_handlers_subset hsub (h1.2 s0 hs0)
    refine ⟨?_, ?_⟩
    · rw [hq.1, hok.2.1]
      intro id hid
      simp at hid
    · rw [hq.2.2.1, hq.2.2.2.2, handle_lua_callbacks_handlers, handle_lua_callbacks_addr]
      exact hv.2

theorem load_and_execute_handlers {σ : Type} (vm : LuaVM σ) (now : Int) (e : executor σ)
    (s : lua_script σ) (compiled : Bool × σ)
    (hcaller : s.addr ∉ e.scripts_.map (fun x => x.addr))
    (h1 : ∀ x ∈ e.scripts_, has_handlers e.event_subscribers_ x)
    (h2 : has_handlers e.event_subscribers_ s) :
    (∀ x ∈ (s.load_and_execute vm now e compiled).2.1.scripts_,
        has_handlers (s.load_and_execute vm now e compiled).2.1.event_subscribers_ x)
    ∧ has_handlers (s.load_and_execute vm now e compiled).2.1.event_subscribers_
        (s.load_and_execute vm now e compiled).2.2.1 := by
  unfold lua_script.load_and_execute
  dsimp only
  have ha := apply_calls_handlers now (vm.pcall_chunk compiled.2).calls (e, s) hcaller h1 h2
  split
  · split
    · refine ⟨ha.1, ?_⟩
      have hq := reference_init_and_loop_queues vm
        ({ (apply_calls now (e, s) (vm.pcall_chunk compiled.2).calls).2 with
            L := (vm.pcall_chunk compiled.2).L } : lua_script σ)
      have hadr := (reference_init_and_loop_spec vm
        ({ (apply_calls now (e, s) (vm.pcall_chunk compiled.2).calls).2 with
            L := (vm.pcall_chunk compiled.2).L } : lua_script σ)).1
      exact has_handlers_frame rfl hq.1 hq.2.2.1 hadr ha.2
    · exact ⟨ha.1, has_handlers_frame rfl rfl rfl rfl ha.2⟩
  · exact ⟨h1, has_handlers_frame rfl rfl rfl rfl h2⟩

theorem handlers_present_append {σ : Type} (e : executor σ) (s : lua_script σ)
    (hnd : (e.scripts_.map (fun x => x.addr)).Nodup)
    (hcaller : s.addr ∉ e.scripts_.map (fun x => x.addr))
    (h1 : ∀ x ∈ e.scripts_, has_handlers e.event_subscribers_ x)
    (h2 : has_handlers e.event_subscribers_ s) :
    handlers_present ({ e with scripts_ := e.scripts_ ++ [s] } : executor σ) := by
  refine ⟨?_, ?_⟩
  · simp only [List.map_append, List.map_cons, List.map_nil]
    rw [List.nodup_append]
    refine ⟨hnd, List.nodup_singleton _, ?_⟩
    intro a ha hb
    rw [List.mem_singleton.1 hb] at ha
    exact hcaller ha
  · intro x hx
    rcases List.mem_append.1 hx with h | h
    · exact h1 x h
    · rw [List.mem_singleton.1 h]; exact h2

theorem finish_load_handlers {σ : Type} (vm : LuaVM σ) (now : Int)
    (ld : Bool × executor σ × lua_script σ × List invocation)
    (hnd : (ld.2.1.scripts_.map (fun x => x.addr)).Nodup)
    (hcaller : ld.2.2.1.addr ∉ ld.2.1.scripts_.map (fun x => x.addr))
    (h1 : ∀ x ∈ ld.2.1.scripts_, has_handlers ld.2.1.event_subscribers_ x)
    (h2 : has_handlers ld.2.1.event_subscribers_ ld.2.2.1) :
    handlers_present (executor.finish_load vm now ld).2.1 := by
  unfold executor.finish_load
  dsimp only
  split
  · split
    · have hs1 : has_handlers ld.2.1.event_subscribers_
          ({ ld.2.2.1 with ts_begin_loop := now } : lua_script σ) :=
        has_handlers_frame rfl rfl rfl rfl h2
      have ha := apply_calls_handlers now
        (vm.pcall_init ld.2.2.1.L ld.2.2.1.initFunctionRef).calls
        (ld.2.1, { ld.2.2.1 with ts_begin_loop := now }) hcaller h1 hs1
      have had := apply_calls_addr now
        (vm.pcall_init ld.2.2.1.L ld.2.2.1.initFunctionRef).calls
        (ld.2.1, ({ ld.2.2.1 with ts_begin_loop := now } : lua_script σ))
      dsimp only at had
      split
      · refine ⟨?_, ?_⟩
        · rw [unsubscribe_all_scripts, had.1]; exact hnd
        · intro x hx
          rw [unsubscribe_all_scripts] at hx
          exact has_handlers_subset (erase_subset _ _) (ha.1 x hx)
      · refine handlers_present_append _ _ (by rw [had.1]; exact hnd) ?_ ha.1
          (has_handlers_frame rfl rfl rfl rfl ha.2)
        rw [had.1]
        show (apply_calls now (ld.2.1, _) _).2.addr ∉ _
        rw [had.2]
        exact hcaller
    · exact handlers_present_append _ _ hnd hcaller h1 h2
  · exact ⟨hnd, h1⟩

theorem loadScriptFromBuffer_handlers {σ : Type} (vm : LuaVM σ) (e : executor σ) (addr : Nat)
    (script_buffer : String) (now : Int) (h : handlers_present e) (hu : address_unused e addr) :
    handlers_present (e.loadScriptFromBuffer vm addr script_buffer now).2.1 := by
  unfold executor.loadScriptFromBuffer lua_script.loadAndExecuteFromBuffer
  have h2 : has_handlers e.event_subscribers_ (lua_script.mk_script vm addr now) :=
    ⟨fun id hid => by simp [lua_script.mk_script] at hid,
     fun kv hkv hmem => absurd hmem (hu.2 kv hkv)⟩
  have hl := load_and_execute_handlers vm now e (lua_script.mk_script vm addr now)
    (vm.luaL_loadbuffer (lua_script.mk_script vm addr now).L script_buffer) hu.1 h.2 h2
  have hs := load_and_execute_spec vm now e (lua_script.mk_script vm addr now)
    (vm.luaL_loadbuffer (lua_script.mk_script vm addr now).L script_buffer)
  refine finish_load_handlers vm now _ (by rw [hs.1]; exact h.1) ?_ hl.1 hl.2
  rw [hs.1, hs.2.1]
  exact hu.1

theorem steps_handlers {σ : Type} (vm : LuaVM σ) (run : List sys_step) :
    ∀ e : executor σ, handlers_present e → loads_at_unused_addresses vm e run →
      handlers_present (e.steps vm run) := by
  induction run with
  | nil => intro e h _; exact h
  | cons st rest ih =>
    intro e h hl
    have hstep : handlers_present (e.step vm st) := by
      cases st with
      | call i c now => exact script_call_handlers e i c now h
      | check_event_timers now => exact check_event_timers_handlers e now h
      | check_timers now => exact check_timers_handlers e now h
      | run_loop now => exact run_loop_handlers vm e now h
      | load_buffer addr script_buffer now =>
        exact loadScriptFromBuffer_handlers vm e addr script_buffer now h hl.1
    exact ih (e.step vm st) hstep hl.2

theorem filterMap_length_of_isSome {α β : Type} (f : α → Option β) (l : List α)
    (h : ∀ a ∈ l, (f a).isSome = true) : (l.filterMap f).length = l.length := by
  induction l with
  | nil => rfl
  | cons a rest ih =>
    have ha := h a (List.mem_cons_self _ _)
    obtain ⟨b, hb⟩ := Option.isSome_iff_exists.1 ha
    rw [List.filterMap_cons, hb]
    simp only [List.length_cons]
    rw [ih (fun x hx => h x (List.mem_cons_of_mem _ hx))]

/-- Apart from reused addresses, every queued event has a handler: in every state
reached from the empty executor, or from any state in which
the live scripts are distinct objects with a handler for every event queued on them
and for every event they are subscribed to, by a run of binding calls of live
scripts, `check_event_timers`, `check_timers`, `run_loop` and loads of scripts into
objects at unused addresses: every event id in the event queue of a live script has
an entry in that script's `event_handlers`. So the drain of `handle_lua_callbacks`
discards no event: a drain that succeeds calls one handler per queued event. -/
theorem queued_events_have_handlers {σ : Type} (vm : LuaVM σ) (e : executor σ)
    (run : List sys_step) (h : handlers_present e) (hl : loads_at_unused_addresses vm e run) :
    handlers_present (executor.make_unique σ)
    ∧ handlers_present (e.steps vm run)
    ∧ (∀ s ∈ (e.steps vm run).scripts_, ∀ id ∈ s.event_queue,
        (map_find s.event_handlers id).isSome = true)
    ∧ (∀ s ∈ (e.steps vm run).scripts_,
        (s.event_queue.filterMap (event_invocation s)).length = s.event_queue.length)
    ∧ (∀ s ∈ (e.steps vm run).scripts_, (handle_events vm s s.event_queue).1 = true →
        (handle_events vm s s.event_queue).2.2.length = s.event_queue.length) := by
  have h0 : handlers_present (executor.make_unique σ) :=
    ⟨by simp [executor.make_unique], fun s hs => by simp [executor.make_unique] at hs⟩
  have hr := steps_handlers vm run e h hl
  have hlen : ∀ s ∈ (e.steps vm run).scripts_,
      (s.event_queue.filterMap (event_invocation s)).length = s.event_queue.length := by
    intro s hs
    apply filterMap_length_of_isSome
    intro id hid
    have := (hr.2 s hs).1 id hid
    unfold event_invocation
    rw [Option.isSome_map']
    exact this
  refine ⟨h0, hr, fun s hs => (hr.2 s hs).1, hlen, ?_⟩
  intro s hs hok
  rw [(handle_events_ok vm s.event_queue s hok).1]
  exact hlen s hs

/-- The same on the run `demo_run` from the empty executor: the script loaded at the
unused address 1 subscribes to event 0 and publishes it, so that event 0 is queued
on it, and it has the handler 7 for it. -/
theorem queued_events_have_handlers_witness :
    handlers_present (executor.make_unique (Nat × Nat))
    ∧ loads_at_unused_addresses demo_vm (executor.make_unique (Nat × Nat)) demo_run
    ∧ handlers_present ((executor.make_unique (Nat × Nat)).steps demo_vm demo_run)
    ∧ ((executor.make_unique (Nat × Nat)).steps demo_vm demo_run).scripts_.map
        (fun s => (s.addr, s.event_queue, s.event_handlers)) = [(1, [0], [(0, 7)])] :=
  ⟨by decide, ⟨by decide, trivial, trivial, trivial, trivial, trivial, trivial, trivial, trivial,
      trivial⟩,
   (queued_events_have_handlers demo_vm (executor.make_unique (Nat × Nat)) demo_run (by decide)
      ⟨by decide, trivial, trivial, trivial, trivial, trivial, trivial, trivial, trivial,
        trivial⟩).2.1,
   by decide⟩


/-! ## C28: `event_create_periodic` and `event_open` intern names alike -/

/-- C28. For every executor state, name (empty or not), duration and instant:
whenever `event_create_periodic(name, d)` returns, it returns the id that
`event_open(name)` returns from the same state and leaves the list of event names
that `event_open(name)` leaves; it returns exactly when that id has no periodic
timer yet; and when it throws, the list of event names is again the one that
`event_open(name)` leaves. -/
theorem create_periodic_interns_like_event_open {σ : Type} (e : executor σ) (name : String)
    (duration now : Int) :
    (∀ r : executor σ × Int, e.event_create_periodic name duration now = Except.ok r →
      r.2 = (e.event_open name).2
      ∧ r.1.eventnames_ = (e.event_open name).1.eventnames_)
    ∧ ((∃ r, e.event_create_periodic name duration now = Except.ok r)
        ↔ map_find e.periodic_event_timers_ (e.event_open name).2 = none)
    ∧ (∀ x : String × executor σ, e.event_create_periodic name duration now = Except.error x →
        x.2.eventnames_ = (e.event_open name).1.eventnames_)
    ∧ (after_create_periodic (e.event_create_periodic name duration now)).eventnames_
        = (e.event_open name).1.eventnames_ := by
  rw [event_create_periodic_eq]
  cases hf : map_find e.periodic_event_timers_ (e.event_open name).2 with
  | none =>
    refine ⟨?_, ?_, ?_, rfl⟩
    · intro r hr
      cases hr
      exact ⟨rfl, rfl⟩
    · exact ⟨fun _ => rfl, fun _ => ⟨_, rfl⟩⟩
    · intro x hx
      cases hx
  | some t =>
    refine ⟨?_, ?_, ?_, rfl⟩
    · intro r hr
      cases hr
    · constructor
      · rintro ⟨r, hr⟩
        cases hr
      · intro h
        cases h
    · intro x hx
      cases hx
      rfl

/-- C28 on the executor `demo_executor_periodic`: creating a periodic timer for the
known event "other" returns its id 1 and leaves the names as they are, and for the
new event "third" it returns the new id 2 and appends the name, as `event_open`
does. -/
theorem create_periodic_interns_like_event_open_witness :
    demo_executor_periodic.event_create_periodic "other" 50 0
      = Except.ok
          ({ demo_executor_periodic with
              periodic_event_timers_ :=
                [(0, periodic_timer "tick" 50 0), (1, periodic_timer "other" 50 0)] }, 1)
    ∧ (1 : Int) = (demo_executor_periodic.event_open "other").2
    ∧ ["tick", "other"] = (demo_executor_periodic.event_open "other").1.eventnames_
    ∧ (demo_executor_periodic.event_open "third").2 = 2
    ∧ (after_create_periodic
        (demo_executor_periodic.event_create_periodic "third" 50 0)).eventnames_
        = ["tick", "other", "third"] :=
  ⟨rfl,
   ((create_periodic_interns_like_event_open demo_executor_periodic "other" 50 0).1
      ({ demo_executor_periodic with
          periodic_event_timers_ :=
            [(0, periodic_timer "tick" 50 0), (1, periodic_timer "other" 50 0)] }, 1) rfl).1,
   ((create_periodic_interns_like_event_open demo_executor_periodic "other" 50 0).1
      ({ demo_executor_periodic with
          periodic_event_timers_ :=
            [(0, periodic_timer "tick" 50 0), (1, periodic_timer "other" 50 0)] }, 1) rfl).2,
   by decide,
   ((create_periodic_interns_like_event_open demo_executor_periodic "third" 50 0).2.2.2).trans
     (by decide)⟩


/-! ## The handler calls made by the drain -/

/-- C26: a queued event without a handler. From the empty executor, the load of a
script into the object at address 7 is rejected after its top level has subscribed
to event 0, which leaves address 7 in the subscriber set of event 0; a second script
is loaded into an object at the same address and publishes event 0. The live script
then has event 0 in its queue and no handler for it, and the drain of
`handle_lua_callbacks` calls no handler for it. -/
theorem reused_address_inherits_subscription :
    ((executor.make_unique (Nat × Nat)).loadScriptFromBuffer demo_vm 7
        demo_subscribe_then_fail 0).1 = false
    ∧ ((executor.make_unique (Nat × Nat)).loadScriptFromBuffer demo_vm 7
        demo_subscribe_then_fail 0).2.1.scripts_.length = 0
    ∧ ((executor.make_unique (Nat × Nat)).loadScriptFromBuffer demo_vm 7
        demo_subscribe_then_fail 0).2.1.event_subscribers_ = [(0, [7])]
    ∧ ((executor.make_unique (Nat × Nat)).steps demo_vm demo_run_reused_address).scripts_.map
        (fun s => (s.addr, s.event_queue, s.event_handlers)) = [(7, [0], [])]
    ∧ ¬ handlers_present
        ((executor.make_unique (Nat × Nat)).steps demo_vm demo_run_reused_address)
    ∧ ((executor.make_unique (Nat × Nat)).steps demo_vm demo_run_reused_address).scripts_.map
        (fun s => ((s.handle_lua_callbacks demo_vm).1, (s.handle_lua_callbacks demo_vm).2.2,
          (s.handle_lua_callbacks demo_vm).2.1.event_queue)) = [(true, [], [])] := by
  refine ⟨by decide, by decide, by decide, by decide, by decide, by decide⟩

end lua_vm
